import Mathlib

/-!
# Dungeon game runtime: room world, high-score persistence, LED blink scheduler

Shallow embedding of `GameModel.cpp` / `GameModel.hpp` and of the LED blink
part of `HardwareManager.cpp`.

Conventions of the embedding
* `byte` is a natural number below 256, `unsigned int` one below 65536 and
  `unsigned long` one below 4294967296 (the AVR target of the sketch); every
  arithmetic operation that can leave its range is reduced explicitly.
* `int` arguments of `movePlayer` are mathematical integers: the sums
  `player.column + deltaColumn` lie in `[-32768, 33022]`, and a sum above
  32767 is rejected by the bounds test whether or not it wraps.
* `millis()` is an explicit argument of every operation that reads the clock.
* A `char[17]` row is a `List Char`; a row cell is read with `List.getD`.
-/

namespace Dungeon

/-! ## Data model (GameModel.hpp) -/

/-- Top-level game states, `enum GameState`. -/
inductive GameState where
  | MENU
  | PLAYING
  | PAUSED
  | GAME_OVER
  | VICTORY
deriving DecidableEq, Repr

/-- Menu entries, `enum MenuOption` (`MENU_OPTIONS_COUNT` = 4 is their number). -/
inductive MenuOption where
  | START_GAME
  | HIGHSCORE_1
  | HIGHSCORE_2
  | HIGHSCORE_3
deriving DecidableEq, Repr

/-- Number of menu entries. -/
def MENU_OPTIONS_COUNT : Nat := 4

/-- Numeric value of a menu entry. -/
def MenuOption.value : MenuOption → Nat
  | .START_GAME => 0
  | .HIGHSCORE_1 => 1
  | .HIGHSCORE_2 => 2
  | .HIGHSCORE_3 => 3

/-- Cast of a number below `MENU_OPTIONS_COUNT` to a menu entry. -/
def MenuOption.fromNat : Nat → MenuOption
  | 0 => .START_GAME
  | 1 => .HIGHSCORE_1
  | 2 => .HIGHSCORE_2
  | _ => .HIGHSCORE_3

/-- The record `struct Player`. -/
structure Player where
  column : Nat
  row : Nat
  isAlive : Bool
deriving DecidableEq, Repr

/-- The record `struct Room`: two rows of 17 characters and two cup counters. -/
structure Room where
  topRow : List Char
  bottomRow : List Char
  cupsInRoom : Nat
  cupsCollected : Nat
deriving DecidableEq, Repr

/-- The record `struct HighscoreData` that is stored in the EEPROM. -/
structure HighscoreData where
  scores : List Nat
  checksum : Nat
deriving DecidableEq, Repr

/-- The private fields of `class GameModel`. -/
structure GameModel where
  currentState : GameState
  selectedMenuOption : MenuOption
  player : Player
  rooms : List Room
  currentRoomIndex : Nat
  score : Nat
  roomStartTime : Nat
  highscores : List Nat
deriving DecidableEq, Repr

/-- Number of rooms. -/
def TOTAL_ROOMS : Nat := 6
/-- Points awarded for one cup. -/
def POINTS_PER_CUP : Nat := 10
/-- Base of the room-clear bonus. -/
def BASE_ROOM_CLEAR_POINTS : Nat := 50
/-- Number of entries of the high-score table. -/
def HIGHSCORE_COUNT : Nat := 3

/-- Range of `unsigned int` on the target. -/
def UINT_RANGE : Nat := 65536
/-- Range of `unsigned long` on the target. -/
def ULONG_RANGE : Nat := 4294967296
/-- Range of `byte`. -/
def BYTE_RANGE : Nat := 256

/-- Subtraction of two `unsigned long` values. -/
def ulongSub (a b : Nat) : Nat :=
  (a % ULONG_RANGE + (ULONG_RANGE - b % ULONG_RANGE)) % ULONG_RANGE

/-- Conversion of an `int` to `byte`. -/
def toByte (x : Int) : Nat := (x % 256).toNat

/-- A room whose fields are all empty, used where an index is outside the array. -/
def Room.blank : Room := ⟨[], [], 0, 0⟩

/-- The room `rooms[i]`. -/
def roomAt (m : GameModel) (i : Nat) : Room := m.rooms.getD i Room.blank

/-- The room `rooms[currentRoomIndex]`. -/
def currentRoom (m : GameModel) : Room := roomAt m m.currentRoomIndex

/-- The selection `(row == 0) ? rooms[currentRoomIndex].topRow : rooms[currentRoomIndex].bottomRow`. -/
def rowData (m : GameModel) (row : Nat) : List Char :=
  if row = 0 then (currentRoom m).topRow else (currentRoom m).bottomRow

/-- The read `rowData[column]`. -/
def cellAt (m : GameModel) (column row : Nat) : Char :=
  (rowData m row).getD column ' '

/-- The write `rowData[column] = c` into the current room. -/
def setCell (m : GameModel) (column row : Nat) (c : Char) : GameModel :=
  let r := currentRoom m
  let r1 : Room :=
    if row = 0 then { r with topRow := r.topRow.set column c }
    else { r with bottomRow := r.bottomRow.set column c }
  { m with rooms := m.rooms.set m.currentRoomIndex r1 }

/-! ## Room loading -/

/-- The call `strncpy(dst, src, 16)`: sixteen characters, padded with NUL. -/
def strncpy16 (src : String) : List Char :=
  (src.toList.take 16) ++ List.replicate (16 - (src.toList.take 16).length) (Char.ofNat 0)

/-- `GameModel::countCupsInRoom`. -/
def countCupsInRoom (m : GameModel) (roomIndex : Nat) : Nat :=
  if roomIndex ≥ TOTAL_ROOMS then 0
  else
    (List.range 16).foldl
      (fun count i =>
        let c1 := if (roomAt m roomIndex).topRow.getD i ' ' = '3' then (count + 1) % BYTE_RANGE else count
        if (roomAt m roomIndex).bottomRow.getD i ' ' = '3' then (c1 + 1) % BYTE_RANGE else c1)
      0

/-- `GameModel::loadRoom`. -/
def loadRoom (m : GameModel) (roomIndex : Nat) (topRowData bottomRowData : String) : GameModel :=
  if roomIndex ≥ TOTAL_ROOMS then m
  else
    let r := roomAt m roomIndex
    let r1 : Room := { r with topRow := strncpy16 topRowData ++ [' '] }
    let r2 : Room := { r1 with bottomRow := strncpy16 bottomRowData ++ [' '] }
    let m1 : GameModel := { m with rooms := m.rooms.set roomIndex r2 }
    let r3 : Room := { r2 with cupsInRoom := countCupsInRoom m1 roomIndex }
    let r4 : Room := { r3 with cupsCollected := 0 }
    { m1 with rooms := m1.rooms.set roomIndex r4 }

/-- `GameModel::initializeRooms`: the six built-in layouts. -/
def initializeRooms (m : GameModel) : GameModel :=
  let m0 := loadRoom m 0 "   3    H      3" "P       H       "
  let m1 := loadRoom m0 1 "  3    H   3F   " "P      H    F   "
  let m2 := loadRoom m1 2 "3     H FF H   3" "P     H    H3 FF"
  let m3 := loadRoom m2 3 "3  H     H F H 3" "P  H  F  H   H 3"
  let m4 := loadRoom m3 4 "3 H   3 F H    3" "P H       H 3FF "
  loadRoom m4 5 "3 H 3 3 H F H 3 " "P H F F H 3 H  3"

/-- The constructor `GameModel::GameModel`. The room array holds six records
before `initializeRooms` overwrites every field of each. -/
def GameModel.init : GameModel :=
  initializeRooms
    { currentState := .MENU
      selectedMenuOption := .START_GAME
      player := { column := 0, row := 1, isAlive := true }
      rooms := List.replicate 6
        { topRow := List.replicate 17 (Char.ofNat 0)
          bottomRow := List.replicate 17 (Char.ofNat 0)
          cupsInRoom := 0
          cupsCollected := 0 }
      currentRoomIndex := 0
      score := 0
      roomStartTime := 0
      highscores := [0, 0, 0] }

/-- The loop of `GameModel::resetPlayerToRoomStart`, from column `col` with
`fuel` columns left; the flag is `found`. -/
def resetScan (m : GameModel) : Nat → Nat → GameModel × Bool
  | 0, _ => (m, false)
  | fuel + 1, col =>
    if (currentRoom m).topRow.getD col ' ' = 'P' then
      let m1 : GameModel := { m with player := { m.player with column := col, row := 0 } }
      let r := currentRoom m1
      ({ m1 with rooms := m1.rooms.set m1.currentRoomIndex { r with topRow := r.topRow.set col ' ' } }, true)
    else if (currentRoom m).bottomRow.getD col ' ' = 'P' then
      let m1 : GameModel := { m with player := { m.player with column := col, row := 1 } }
      let r := currentRoom m1
      ({ m1 with rooms := m1.rooms.set m1.currentRoomIndex { r with bottomRow := r.bottomRow.set col ' ' } }, true)
    else resetScan m fuel (col + 1)

/-- `GameModel::resetPlayerToRoomStart`. -/
def resetPlayerToRoomStart (m : GameModel) : GameModel :=
  let (m1, found) := resetScan m 16 0
  let m2 : GameModel :=
    if !found then { m1 with player := { m1.player with column := 0, row := 1 } } else m1
  { m2 with player := { m2.player with isAlive := true } }

/-! ## State, menu and game initialisation -/

/-- `GameModel::setState`. -/
def setState (m : GameModel) (newState : GameState) : GameModel :=
  { m with currentState := newState }

/-- `GameModel::selectNextMenuOption`. -/
def selectNextMenuOption (m : GameModel) : GameModel :=
  { m with selectedMenuOption :=
      MenuOption.fromNat ((m.selectedMenuOption.value + 1) % MENU_OPTIONS_COUNT) }

/-- `GameModel::selectPreviousMenuOption`. -/
def selectPreviousMenuOption (m : GameModel) : GameModel :=
  if m.selectedMenuOption.value = 0 then
    { m with selectedMenuOption := MenuOption.fromNat (MENU_OPTIONS_COUNT - 1) }
  else
    { m with selectedMenuOption := MenuOption.fromNat (m.selectedMenuOption.value - 1) }

/-- `GameModel::startRoomTimer`, with `now` the value of `millis()`. -/
def startRoomTimer (m : GameModel) (now : Nat) : GameModel :=
  { m with roomStartTime := now % ULONG_RANGE }

/-- The loop of `GameModel::startNewGame` that clears `cupsCollected` in every room. -/
def clearCollected (rooms : List Room) : List Room :=
  (List.range TOTAL_ROOMS).foldl
    (fun rs i => rs.set i { rs.getD i Room.blank with cupsCollected := 0 }) rooms

/-- `GameModel::startNewGame`, with `now` the value of `millis()`. -/
def startNewGame (m : GameModel) (now : Nat) : GameModel :=
  let m1 : GameModel := { m with currentState := .PLAYING, currentRoomIndex := 0, score := 0 }
  let m2 : GameModel := { m1 with rooms := clearCollected m1.rooms }
  startRoomTimer (resetPlayerToRoomStart m2) now

/-- `GameModel::confirmMenuSelection`. -/
def confirmMenuSelection (m : GameModel) (now : Nat) : GameModel :=
  if m.selectedMenuOption = .START_GAME then startNewGame m now else m

/-- `GameModel::resetGame`. -/
def resetGame (m : GameModel) : GameModel :=
  { m with currentState := .MENU, selectedMenuOption := .START_GAME,
           currentRoomIndex := 0, score := 0, roomStartTime := 0 }

/-! ## Item interaction and scoring -/

/-- `GameModel::getEntityAt`. -/
def getEntityAt (m : GameModel) (column row : Nat) : Char :=
  if column ≥ 16 ∨ row ≥ 2 then ' ' else cellAt m column row

/-- `GameModel::checkFireAt`. -/
def checkFireAt (m : GameModel) (column row : Nat) : Bool :=
  if column ≥ 16 ∨ row ≥ 2 then false
  else cellAt m column row == 'F' || cellAt m column row == '1'

/-- `GameModel::checkLadderAt`. -/
def checkLadderAt (m : GameModel) (column row : Nat) : Bool :=
  if column ≥ 16 ∨ row ≥ 2 then false
  else cellAt m column row == 'H' || cellAt m column row == '2'

/-- `GameModel::addScore`: addition on the 16-bit `unsigned int` score. -/
def addScore (m : GameModel) (points : Nat) : GameModel :=
  { m with score := (m.score + points) % UINT_RANGE }

/-- `GameModel::collectCupAt`. -/
def collectCupAt (m : GameModel) (column row : Nat) : Bool × GameModel :=
  if column ≥ 16 ∨ row ≥ 2 then (false, m)
  else if cellAt m column row = '3' then
    let m1 := setCell m column row ' '
    let r := currentRoom m1
    let m2 : GameModel :=
      { m1 with rooms :=
          m1.rooms.set m1.currentRoomIndex { r with cupsCollected := (r.cupsCollected + 1) % BYTE_RANGE } }
    (true, addScore m2 POINTS_PER_CUP)
  else (false, m)

/-- `GameModel::killPlayer`. -/
def killPlayer (m : GameModel) : GameModel :=
  { m with player := { m.player with isAlive := false } }

/-- `GameModel::respawnPlayer`. -/
def respawnPlayer (m : GameModel) : GameModel := resetPlayerToRoomStart m

/-- `GameModel::movePlayer`: the returned flag and the model afterwards. -/
def movePlayer (m : GameModel) (deltaColumn deltaRow : Int) : Bool × GameModel :=
  if !m.player.isAlive then (false, m)
  else
    let newColumn : Int := (m.player.column : Int) + deltaColumn
    let newRow : Int := (m.player.row : Int) + deltaRow
    if newColumn < 0 ∨ newColumn ≥ 16 ∨ newRow < 0 ∨ newRow ≥ 2 then (false, m)
    else if deltaRow ≠ 0 ∧ checkLadderAt m m.player.column m.player.row = false then (false, m)
    else
      let destinationEntity := getEntityAt m (toByte newColumn) (toByte newRow)
      let m1 : GameModel :=
        { m with player := { m.player with column := toByte newColumn, row := toByte newRow } }
      let m2 := if checkFireAt m1 m1.player.column m1.player.row then killPlayer m1 else m1
      let m3 :=
        if destinationEntity = '3' then (collectCupAt m2 m2.player.column m2.player.row).2 else m2
      (true, m3)

/-- `GameModel::isCurrentRoomCleared`. -/
def isCurrentRoomCleared (m : GameModel) : Bool :=
  decide ((currentRoom m).cupsCollected ≥ (currentRoom m).cupsInRoom)

/-- `GameModel::setVictory`. -/
def setVictory (m : GameModel) : GameModel := { m with currentState := .VICTORY }

/-- `GameModel::setGameOver`. -/
def setGameOver (m : GameModel) : GameModel := { m with currentState := .GAME_OVER }

/-- The bonus computed by `GameModel::calculateRoomClearBonus` from the whole
seconds `elapsed`: the `unsigned long` difference `BASE_ROOM_CLEAR_POINTS - elapsedTime`
is stored in an `unsigned int`, then raised to 1 when it is below 1. -/
def roomClearBonus (elapsed : Nat) : Nat :=
  let elapsedTime := if elapsed = 0 then 1 else elapsed
  let bonus := (ulongSub BASE_ROOM_CLEAR_POINTS elapsedTime) % UINT_RANGE
  if bonus < 1 then 1 else bonus

/-- The whole seconds `(millis() - roomStartTime) / 1000`, with `now` the value of `millis()`. -/
def elapsedSeconds (m : GameModel) (now : Nat) : Nat :=
  ulongSub now m.roomStartTime / 1000

/-- `GameModel::calculateRoomClearBonus`, with `now` the value of `millis()`. -/
def calculateRoomClearBonus (m : GameModel) (now : Nat) : GameModel :=
  addScore m (roomClearBonus (elapsedSeconds m now))

/-- `GameModel::advanceToNextRoom`; `now` is the clock read by the bonus and
`later` the clock read by `startRoomTimer`. -/
def advanceToNextRoom (m : GameModel) (now later : Nat) : GameModel :=
  if m.currentRoomIndex < TOTAL_ROOMS - 1 then
    let m1 := calculateRoomClearBonus m now
    let m2 : GameModel := { m1 with currentRoomIndex := (m1.currentRoomIndex + 1) % BYTE_RANGE }
    startRoomTimer (resetPlayerToRoomStart m2) later
  else setVictory m

/-- `GameModel::isGameCompleted`. -/
def isGameCompleted (m : GameModel) : Bool :=
  decide (m.currentRoomIndex ≥ TOTAL_ROOMS - 1) && isCurrentRoomCleared m

/-! ## High-score table -/

/-- The search loop of `GameModel::addHighscore` from index `i` with `fuel`
entries left: the insert position, or `-1` when the loop ends or breaks on an
equal entry. -/
def findInsertPosition (highscores : List Nat) (newScore : Nat) : Nat → Nat → Int
  | 0, _ => -1
  | fuel + 1, i =>
    if newScore > highscores.getD i 0 then (i : Int)
    else if newScore = highscores.getD i 0 then -1
    else findInsertPosition highscores newScore fuel (i + 1)

/-- The shifting loop `for (j = HIGHSCORE_COUNT - 1; j > insertPosition; j--)`
of `GameModel::addHighscore`, from index `j`. -/
def shiftDown (highscores : List Nat) (insertPosition : Int) : Nat → List Nat
  | 0 => highscores
  | j + 1 =>
    if ((j + 1 : Nat) : Int) > insertPosition then
      shiftDown (highscores.set (j + 1) (highscores.getD j 0)) insertPosition j
    else highscores

/-- The effect of `GameModel::addHighscore` on the table. -/
def insertHighscore (highscores : List Nat) (newScore : Nat) : List Nat :=
  let insertPosition := findInsertPosition highscores newScore HIGHSCORE_COUNT 0
  if insertPosition ≠ -1 then
    (shiftDown highscores insertPosition (HIGHSCORE_COUNT - 1)).set insertPosition.toNat newScore
  else highscores

/-- `GameModel::addHighscore`. -/
def addHighscore (m : GameModel) (newScore : Nat) : GameModel :=
  { m with highscores := insertHighscore m.highscores newScore }

/-- `GameModel::isNewHighscore`. -/
def isNewHighscore (m : GameModel) (newScore : Nat) : Bool :=
  decide (newScore > m.highscores.getD (HIGHSCORE_COUNT - 1) 0)

/-- `GameModel::resetHighscores`. -/
def resetHighscores (m : GameModel) : GameModel :=
  { m with highscores :=
      (List.range HIGHSCORE_COUNT).foldl (fun hs i => hs.set i 0) m.highscores }

/-- `GameModel::calculateChecksum`: XOR of the low and high byte of every score. -/
def calculateChecksum (scores : List Nat) : Nat :=
  (List.range HIGHSCORE_COUNT).foldl
    (fun checksum i =>
      (checksum ^^^ (scores.getD i 0 &&& 0xFF)) ^^^ ((scores.getD i 0 >>> 8) &&& 0xFF))
    0

/-! ## Persistent storage -/

/-- Modelled from the spec: the persistent storage is byte-addressable; the
EEPROM library itself is not among the sources. A store maps an address to the
byte kept there. -/
def EEPROM : Type := Int → Nat

/-- Modelled from the spec: the byte read at address `a`. -/
def EEPROM.readByte (e : EEPROM) (a : Int) : Nat := e a % 256

/-- Modelled from the spec: the store after writing byte `b` at address `a`. -/
def EEPROM.writeByte (e : EEPROM) (a : Int) (b : Nat) : EEPROM :=
  fun x => if x = a then b % 256 else e x

/-- Modelled from the spec: the storage as it is before first use, every byte `0xFF`. -/
def EEPROM.erased : EEPROM := fun _ => 0xFF

/-- Modelled from the spec: `EEPROM.get(address, data)` for a `HighscoreData`
record, which occupies seven bytes: three little-endian 16-bit scores and the
checksum byte. -/
def EEPROM.get (e : EEPROM) (address : Int) : HighscoreData :=
  { scores :=
      [ e.readByte address + 256 * e.readByte (address + 1),
        e.readByte (address + 2) + 256 * e.readByte (address + 3),
        e.readByte (address + 4) + 256 * e.readByte (address + 5) ]
    checksum := e.readByte (address + 6) }

/-- Modelled from the spec: `EEPROM.put(address, data)` for a `HighscoreData` record. -/
def EEPROM.put (e : EEPROM) (address : Int) (data : HighscoreData) : EEPROM :=
  let e0 := e.writeByte address (data.scores.getD 0 0 % 256)
  let e1 := e0.writeByte (address + 1) (data.scores.getD 0 0 / 256)
  let e2 := e1.writeByte (address + 2) (data.scores.getD 1 0 % 256)
  let e3 := e2.writeByte (address + 3) (data.scores.getD 1 0 / 256)
  let e4 := e3.writeByte (address + 4) (data.scores.getD 2 0 % 256)
  let e5 := e4.writeByte (address + 5) (data.scores.getD 2 0 / 256)
  e5.writeByte (address + 6) data.checksum

/-- `GameModel::saveHighscoresToEEPROM`: the store afterwards (the model is not
changed). The local record is filled entry by entry before it is written; its
unset initial content is taken as three zero entries. -/
def saveHighscoresToEEPROM (m : GameModel) (e : EEPROM) (eepromAddress : Int) : EEPROM :=
  let scores := (List.range HIGHSCORE_COUNT).foldl
    (fun sc i => sc.set i (m.highscores.getD i 0)) [0, 0, 0]
  e.put eepromAddress { scores := scores, checksum := calculateChecksum scores }

/-- `GameModel::loadHighscoresFromEEPROM`: the model and the store afterwards. -/
def loadHighscoresFromEEPROM (m : GameModel) (e : EEPROM) (eepromAddress : Int) :
    GameModel × EEPROM :=
  let data := e.get eepromAddress
  let calculatedChecksum := calculateChecksum data.scores
  if calculatedChecksum = data.checksum then
    let loaded := (List.range HIGHSCORE_COUNT).foldl
      (fun hs i =>
        let hs1 := hs.set i (data.scores.getD i 0)
        if hs1.getD i 0 = 0xFFFF then hs1.set i 0 else hs1)
      m.highscores
    ({ m with highscores := loaded }, e)
  else
    let m1 : GameModel :=
      { m with highscores :=
          (List.range HIGHSCORE_COUNT).foldl (fun hs i => hs.set i 0) m.highscores }
    (m1, saveHighscoresToEEPROM m1 e eepromAddress)

/-! ## Public operations as a transition system -/

/-- The state-changing public operations of `GameModel`, with their arguments. -/
inductive Op where
  | setState (newState : GameState)
  | selectNextMenuOption
  | selectPreviousMenuOption
  | confirmMenuSelection (now : Nat)
  | startNewGame (now : Nat)
  | resetGame
  | movePlayer (deltaColumn deltaRow : Int)
  | killPlayer
  | respawnPlayer
  | advanceToNextRoom (now later : Nat)
  | collectCupAt (column row : Nat)
  | addScore (points : Nat)
  | calculateRoomClearBonus (now : Nat)
  | startRoomTimer (now : Nat)
  | addHighscore (newScore : Nat)
  | loadHighscoresFromEEPROM (e : EEPROM) (eepromAddress : Int)
  | resetHighscores
  | setVictory
  | setGameOver

/-- The model after one public operation. -/
def applyOp (m : GameModel) : Op → GameModel
  | .setState s => setState m s
  | .selectNextMenuOption => selectNextMenuOption m
  | .selectPreviousMenuOption => selectPreviousMenuOption m
  | .confirmMenuSelection now => confirmMenuSelection m now
  | .startNewGame now => startNewGame m now
  | .resetGame => resetGame m
  | .movePlayer dc dr => (movePlayer m dc dr).2
  | .killPlayer => killPlayer m
  | .respawnPlayer => respawnPlayer m
  | .advanceToNextRoom now later => advanceToNextRoom m now later
  | .collectCupAt c r => (collectCupAt m c r).2
  | .addScore p => addScore m p
  | .calculateRoomClearBonus now => calculateRoomClearBonus m now
  | .startRoomTimer now => startRoomTimer m now
  | .addHighscore s => addHighscore m s
  | .loadHighscoresFromEEPROM e a => (loadHighscoresFromEEPROM m e a).1
  | .resetHighscores => resetHighscores m
  | .setVictory => setVictory m
  | .setGameOver => setGameOver m

/-- The model after a sequence of public operations. -/
def runOps (m : GameModel) (ops : List Op) : GameModel := ops.foldl applyOp m

/-- A model state is reachable when a sequence of public operations leads to
it from the constructed model. -/
def Reachable (m : GameModel) : Prop := ∃ ops : List Op, runOps GameModel.init ops = m

/-! ## LED blink scheduler (HardwareManager) -/

/-- Sound identifiers, `enum SoundType`. -/
inductive SoundType where
  | SOUND_MENU_MOVE
  | SOUND_MENU_SELECT
  | SOUND_PLAYER_MOVE
  | SOUND_CUP_COLLECT
  | SOUND_PLAYER_DEATH
  | SOUND_ROOM_CLEAR
  | SOUND_VICTORY
  | SOUND_GAME_OVER
  | SOUND_NONE
deriving DecidableEq, Repr

/-- The record `struct MelodyNote`. -/
structure MelodyNote where
  frequency : Nat
  duration : Nat
deriving DecidableEq, Repr

/-- The fields of `class HardwareManager`; `currentMelody` is `none` for
`nullptr`. The last two fields are the function-local `static` variables of
`updateStatusLEDs`, which keep their values between calls. -/
structure HardwareManager where
  photosensorPin : Nat
  backlightPin : Nat
  defeatLightPin : Nat
  winLightPin : Nat
  bonusLightPin : Nat
  buzzerPin : Nat
  lastBacklightCheckTime : Nat
  backlightState : Bool
  autoBacklightEnabled : Bool
  ledBlinkStartTime : Nat
  ledBlinkDuration : Nat
  ledBlinkInterval : Nat
  ledBlinkCount : Nat
  ledBlinkMaxCount : Nat
  ledBlinkPin : Nat
  ledBlinkActive : Bool
  ledBlinkState : Bool
  lastLEDToggleTime : Nat
  multiLedBlinkActive : Bool
  multiLedPins : List Nat
  multiLedPinCount : Nat
  buzzerEnabled : Bool
  currentSound : SoundType
  currentMelody : Option (List MelodyNote)
  melodyLength : Nat
  currentNoteIndex : Nat
  noteStartTime : Nat
  isMelodyPlaying : Bool
  lastStateLEDUpdate : Nat
  stateLEDState : Bool
deriving DecidableEq, Repr

/-- Calls made to the board: `digitalWrite(pin, level)` with `true` for `HIGH`,
`tone(pin, frequency)` and `noTone(pin)`. -/
inductive HwEvent where
  | digitalWrite (pin : Nat) (level : Bool)
  | tone (pin : Nat) (frequency : Nat)
  | noTone (pin : Nat)
deriving DecidableEq, Repr

/-- The constructor `HardwareManager::HardwareManager`. The array `multiLedPins`
is left unset by the source and is taken as three zero entries. -/
def HardwareManager.init (photoPin backlightPin defeatPin winPin bonusPin buzzerPin : Nat) :
    HardwareManager :=
  { photosensorPin := photoPin
    backlightPin := backlightPin
    defeatLightPin := defeatPin
    winLightPin := winPin
    bonusLightPin := bonusPin
    buzzerPin := buzzerPin
    lastBacklightCheckTime := 0
    backlightState := true
    autoBacklightEnabled := true
    ledBlinkStartTime := 0
    ledBlinkDuration := 0
    ledBlinkInterval := 0
    ledBlinkCount := 0
    ledBlinkMaxCount := 0
    ledBlinkPin := 0
    ledBlinkActive := false
    ledBlinkState := false
    lastLEDToggleTime := 0
    multiLedBlinkActive := false
    multiLedPins := [0, 0, 0]
    multiLedPinCount := 0
    buzzerEnabled := true
    currentSound := .SOUND_NONE
    currentMelody := none
    melodyLength := 0
    currentNoteIndex := 0
    noteStartTime := 0
    isMelodyPlaying := false
    lastStateLEDUpdate := 0
    stateLEDState := false }

/-- `HardwareManager::startLEDBlink`; `startTime` and `toggleTime` are the two
values of `millis()` read by the call. -/
def startLEDBlink (h : HardwareManager) (pin count interval startTime toggleTime : Nat) :
    HardwareManager :=
  { h with
    ledBlinkPin := pin
    ledBlinkMaxCount := count
    ledBlinkCount := 0
    ledBlinkInterval := interval
    ledBlinkActive := true
    ledBlinkState := false
    ledBlinkStartTime := startTime % ULONG_RANGE
    lastLEDToggleTime := toggleTime % ULONG_RANGE
    multiLedBlinkActive := false }

/-- `HardwareManager::startMultiLEDBlink`; `startTime` and `toggleTime` are the
two values of `millis()` read by the call. -/
def startMultiLEDBlink (h : HardwareManager) (pins : List Nat) (pinCount count interval
    startTime toggleTime : Nat) : HardwareManager :=
  let copied := (List.range (min pinCount 3)).foldl
    (fun ps i => ps.set i (pins.getD i 0)) h.multiLedPins
  { h with
    multiLedBlinkActive := true
    multiLedPinCount := pinCount
    multiLedPins := copied
    ledBlinkMaxCount := count
    ledBlinkCount := 0
    ledBlinkInterval := interval
    ledBlinkState := false
    ledBlinkStartTime := startTime % ULONG_RANGE
    lastLEDToggleTime := toggleTime % ULONG_RANGE
    ledBlinkActive := false }

/-- The loop `for (i = 0; i < multiLedPinCount; i++) digitalWrite(multiLedPins[i], level)`. -/
def writeMultiLeds (h : HardwareManager) (level : Bool) : List HwEvent :=
  (List.range h.multiLedPinCount).map (fun i => HwEvent.digitalWrite (h.multiLedPins.getD i 0) level)

/-- `HardwareManager::updateLEDBlink`, with `currentTime` the value of
`millis()`: the state afterwards and the board calls made, in order. -/
def updateLEDBlink (h : HardwareManager) (currentTime : Nat) : HardwareManager × List HwEvent :=
  if h.ledBlinkActive = false ∧ h.multiLedBlinkActive = false then (h, [])
  else if h.ledBlinkCount ≥ h.ledBlinkMaxCount * 2 then
    let s1 : HardwareManager × List HwEvent :=
      if h.ledBlinkActive then
        ({ h with ledBlinkActive := false }, [HwEvent.digitalWrite h.ledBlinkPin false])
      else (h, [])
    let s2 : HardwareManager × List HwEvent :=
      if s1.1.multiLedBlinkActive then
        ({ s1.1 with multiLedBlinkActive := false }, writeMultiLeds s1.1 false)
      else (s1.1, [])
    (s2.1, s1.2 ++ s2.2)
  else if ulongSub currentTime h.lastLEDToggleTime ≥ h.ledBlinkInterval then
    let h1 : HardwareManager := { h with ledBlinkState := !h.ledBlinkState }
    let w1 : List HwEvent :=
      if h1.ledBlinkActive then [HwEvent.digitalWrite h1.ledBlinkPin h1.ledBlinkState] else []
    let w2 : List HwEvent :=
      if h1.multiLedBlinkActive then writeMultiLeds h1 h1.ledBlinkState else []
    ({ h1 with ledBlinkCount := (h1.ledBlinkCount + 1) % BYTE_RANGE
               lastLEDToggleTime := currentTime % ULONG_RANGE }, w1 ++ w2)
  else (h, [])

/-- A run of `updateLEDBlink` ticks at the given clock values: the final state
and all board calls made, in order. -/
def tickLEDBlink (h : HardwareManager) : List Nat → HardwareManager × List HwEvent
  | [] => (h, [])
  | t :: ts =>
    let s1 := updateLEDBlink h t
    let s2 := tickLEDBlink s1.1 ts
    (s2.1, s1.2 ++ s2.2)

/-- Every tick time is at least `interval` after the previous one (the first
after `last`), in `unsigned long` clock arithmetic. -/
def IntervalElapsed (interval : Nat) : Nat → List Nat → Prop
  | _, [] => True
  | last, t :: ts => ulongSub t last ≥ interval ∧ IntervalElapsed interval t ts

/-- The writes of `k` toggles of one line: `HIGH`, `LOW`, `HIGH`, ... -/
def togglePattern (pin : Nat) (k : Nat) : List HwEvent :=
  (List.range k).map (fun i => HwEvent.digitalWrite pin (i % 2 == 0))

/-! ## Auxiliary notions used by the statements -/

/-- The three guards of `movePlayer`, as one proposition. -/
def MoveRejected (m : GameModel) (dc dr : Int) : Prop :=
  m.player.isAlive = false ∨
  ((m.player.column : Int) + dc < 0 ∨ (m.player.column : Int) + dc ≥ 16 ∨
    (m.player.row : Int) + dr < 0 ∨ (m.player.row : Int) + dr ≥ 2) ∨
  (dr ≠ 0 ∧ checkLadderAt m m.player.column m.player.row = false)

/-- The part of `movePlayer` after its guards: the model after an accepted move
to `(column, row)`. -/
def moveTo (m : GameModel) (column row : Nat) : GameModel :=
  let destinationEntity := getEntityAt m column row
  let m1 : GameModel := { m with player := { m.player with column := column, row := row } }
  let m2 := if checkFireAt m1 m1.player.column m1.player.row then killPlayer m1 else m1
  if destinationEntity = '3' then (collectCupAt m2 m2.player.column m2.player.row).2 else m2

/-- The model after a sequence of `movePlayer` calls. -/
def movePlayerSeq (m : GameModel) (moves : List (Int × Int)) : GameModel :=
  moves.foldl (fun s d => (movePlayer s d.1 d.2).2) m

/-- Room 1 entered from a new game, the player eleven steps to the right of
the start cell on the bottom row, next to the fire cell at column 12. -/
def room1BeforeFire : GameModel :=
  movePlayerSeq (advanceToNextRoom (startNewGame GameModel.init 0) 0 0) (List.replicate 11 (1, 0))

/-- Room 0 of a new game started at clock 0 with both cups collected: right
along the bottom row to the ladder at column 8, up, left to the cup at
column 3, right to the cup at column 15. -/
def room0Cleared : GameModel :=
  movePlayerSeq (startNewGame GameModel.init 0)
    (List.replicate 8 (1, 0) ++ [(0, -1)] ++ List.replicate 5 (-1, 0) ++ List.replicate 12 (1, 0))

/-- Room 1 entered from `room0Cleared` 75 seconds after the game started, the
player one step to the right of the cup at column 2 of the top row. -/
def room1NextToCup : GameModel :=
  movePlayerSeq (advanceToNextRoom room0Cleared 75000 75000)
    (List.replicate 7 (1, 0) ++ [(0, -1)] ++ List.replicate 4 (-1, 0))

/-- Room 0 of a new game, the player on the top row at column 4, one step to
the right of the cup at column 3. -/
def room0NextToCup : GameModel :=
  movePlayerSeq (startNewGame GameModel.init 0)
    (List.replicate 8 (1, 0) ++ [(0, -1)] ++ List.replicate 4 (-1, 0))

/-- Number of cups (`'3'`) among the sixteen grid cells of a row. -/
def cupsInRow (row : List Char) : Nat := (row.take 16).count '3'

/-- Number of cups left in the grid of a room. -/
def cupsLeft (r : Room) : Nat := cupsInRow r.topRow + cupsInRow r.bottomRow

/-- Counter invariant of one room: the cups collected and the cups still in the
grid together do not exceed `cupsInRoom`, which is at most the 32 grid cells. -/
def RoomOK (r : Room) : Prop :=
  r.cupsCollected + cupsLeft r ≤ r.cupsInRoom ∧ r.cupsInRoom ≤ 32

/-- Invariant of the room world: six rooms, a valid room index, and the counter
invariant in every room. -/
def WorldOK (m : GameModel) : Prop :=
  m.rooms.length = 6 ∧ m.currentRoomIndex < 6 ∧ ∀ r ∈ m.rooms, RoomOK r

/-- The state of a single-line blink of line `pin` with `n` blinks after `k`
toggles: the descriptor is active, the multi-line one is not, and the phase is
on exactly after an odd number of toggles. -/
def BlinkRunning (h : HardwareManager) (pin n interval k : Nat) : Prop :=
  h.ledBlinkActive = true ∧ h.multiLedBlinkActive = false ∧ h.ledBlinkPin = pin ∧
  h.ledBlinkMaxCount = n ∧ h.ledBlinkInterval = interval ∧ h.ledBlinkCount = k ∧
  h.ledBlinkState = (k % 2 == 1)

/-- A board with the defeat light on line 11: a blink of 3 with interval 100 ms
started at clock 0 and ticked at 100, 200, ..., 600 ms, so that all six toggles
have been made. -/
def blinkAfterSixToggles : HardwareManager :=
  (tickLEDBlink (startLEDBlink (HardwareManager.init 14 10 11 12 13 9) 11 3 100 0 0)
    [100, 200, 300, 400, 500, 600]).1

/-- `IntervalElapsed` is decided tick by tick. -/
instance decIntervalElapsed (interval : Nat) :
    ∀ (last : Nat) (times : List Nat), Decidable (IntervalElapsed interval last times)
  | _, [] => isTrue trivial
  | last, t :: ts =>
    have := decIntervalElapsed interval t ts
    inferInstanceAs (Decidable (ulongSub t last ≥ interval ∧ IntervalElapsed interval t ts))

/-- The guards of `movePlayer` are decidable. -/
instance decMoveRejected (m : GameModel) (dc dr : Int) : Decidable (MoveRejected m dc dr) := by
  unfold MoveRejected; infer_instance

/-- The counter invariant of a room is decidable. -/
instance decRoomOK (r : Room) : Decidable (RoomOK r) := by
  unfold RoomOK; infer_instance

/-- The invariant of the room world is decidable. -/
instance decWorldOK (m : GameModel) : Decidable (WorldOK m) := by
  unfold WorldOK; infer_instance

/-- The state of a running blink is decidable. -/
instance decBlinkRunning (h : HardwareManager) (pin n interval k : Nat) :
    Decidable (BlinkRunning h pin n interval k) := by
  unfold BlinkRunning; infer_instance

/-- The three operations of the blink scheduler, with their arguments. -/
inductive BlinkOp where
  | startLEDBlink (pin count interval startTime toggleTime : Nat)
  | startMultiLEDBlink (pins : List Nat) (pinCount count interval startTime toggleTime : Nat)
  | updateLEDBlink (currentTime : Nat)

/-- The scheduler state after one blink operation. -/
def applyBlinkOp (h : HardwareManager) : BlinkOp → HardwareManager
  | .startLEDBlink pin count interval startTime toggleTime =>
    startLEDBlink h pin count interval startTime toggleTime
  | .startMultiLEDBlink pins pinCount count interval startTime toggleTime =>
    startMultiLEDBlink h pins pinCount count interval startTime toggleTime
  | .updateLEDBlink currentTime => (updateLEDBlink h currentTime).1

/-- A scheduler state is reachable when a sequence of blink operations leads to
it from a constructed `HardwareManager`. -/
def BlinkReachable (h : HardwareManager) : Prop :=
  ∃ (p1 p2 p3 p4 p5 p6 : Nat) (ops : List BlinkOp),
    ops.foldl applyBlinkOp (HardwareManager.init p1 p2 p3 p4 p5 p6) = h

/-! ## Backlight, status lights and tone sequencer (HardwareManager) -/

/-- Period of the ambient-light check, in ms. -/
def BACKLIGHT_CHECK_INTERVAL : Nat := 500
/-- Photosensor reading below which the backlight is switched on. -/
def BRIGHTNESS_THRESHOLD : Int := 300
/-- Period of the pause blink of the bonus light, in ms. -/
def STATE_LED_BLINK_INTERVAL : Nat := 500

/-- The static melody `cupCollectMelody`. -/
def cupCollectMelody : List MelodyNote := [⟨1000, 80⟩, ⟨1200, 80⟩, ⟨1400, 80⟩]
/-- The static melody `playerDeathMelody`. -/
def playerDeathMelody : List MelodyNote := [⟨800, 100⟩, ⟨600, 100⟩, ⟨400, 100⟩, ⟨200, 200⟩]
/-- The static melody `roomClearMelody`. -/
def roomClearMelody : List MelodyNote :=
  [⟨800, 100⟩, ⟨1000, 100⟩, ⟨1200, 100⟩, ⟨1400, 100⟩, ⟨1600, 200⟩]
/-- The static melody `victoryMelody`. -/
def victoryMelody : List MelodyNote :=
  [⟨523, 150⟩, ⟨659, 150⟩, ⟨784, 150⟩, ⟨1047, 400⟩, ⟨784, 150⟩, ⟨1047, 150⟩, ⟨1318, 500⟩]
/-- The static melody `gameOverMelody`. -/
def gameOverMelody : List MelodyNote := [⟨400, 200⟩, ⟨350, 200⟩, ⟨300, 200⟩, ⟨250, 400⟩]

/-- `HardwareManager::turnOffAllLEDs`: the three writes. -/
def turnOffAllLEDs (h : HardwareManager) : List HwEvent :=
  [HwEvent.digitalWrite h.defeatLightPin false, HwEvent.digitalWrite h.winLightPin false,
    HwEvent.digitalWrite h.bonusLightPin false]

/-- `HardwareManager::initialize`: no field changes; the writes after the
`pinMode` calls. -/
def hardwareInitialize (h : HardwareManager) : HardwareManager × List HwEvent :=
  (h, [HwEvent.digitalWrite h.backlightPin true] ++ turnOffAllLEDs h ++
    [HwEvent.noTone h.buzzerPin])

/-- `HardwareManager::setBacklight`. -/
def setBacklight (h : HardwareManager) (isOn : Bool) : HardwareManager × List HwEvent :=
  ({ h with backlightState := isOn }, [HwEvent.digitalWrite h.backlightPin isOn])

/-- `HardwareManager::setAutoBacklight`. -/
def setAutoBacklight (h : HardwareManager) (enabled : Bool) : HardwareManager × List HwEvent :=
  let h1 : HardwareManager := { h with autoBacklightEnabled := enabled }
  if enabled = false then setBacklight h1 true else (h1, [])

/-- `HardwareManager::updateBacklight`, with `currentTime` the value of
`millis()` and `brightness` the photosensor reading. -/
def updateBacklight (h : HardwareManager) (currentTime : Nat) (brightness : Int) :
    HardwareManager × List HwEvent :=
  if h.autoBacklightEnabled = false then (h, [])
  else if ulongSub currentTime h.lastBacklightCheckTime ≥ BACKLIGHT_CHECK_INTERVAL then
    let shouldBeOn : Bool := decide (brightness < BRIGHTNESS_THRESHOLD)
    let s1 : HardwareManager × List HwEvent :=
      if shouldBeOn ≠ h.backlightState then
        ({ h with backlightState := shouldBeOn },
          [HwEvent.digitalWrite h.backlightPin shouldBeOn])
      else (h, [])
    ({ s1.1 with lastBacklightCheckTime := currentTime % ULONG_RANGE }, s1.2)
  else (h, [])

/-- `HardwareManager::updateStatusLEDs`; `blinkTime` is the clock read by
`updateLEDBlink` and `currentTime` the one read afterwards. -/
def updateStatusLEDs (h : HardwareManager) (state : GameState) (blinkTime currentTime : Nat) :
    HardwareManager × List HwEvent :=
  let s1 := updateLEDBlink h blinkTime
  if s1.1.ledBlinkActive = true ∨ s1.1.multiLedBlinkActive = true then s1
  else
    match state with
    | .MENU => (s1.1, s1.2 ++ turnOffAllLEDs s1.1)
    | .PLAYING =>
      (s1.1, s1.2 ++ turnOffAllLEDs s1.1 ++ [HwEvent.digitalWrite s1.1.bonusLightPin true])
    | .PAUSED =>
      if ulongSub currentTime s1.1.lastStateLEDUpdate ≥ STATE_LED_BLINK_INTERVAL then
        let h2 : HardwareManager := { s1.1 with stateLEDState := !s1.1.stateLEDState }
        ({ h2 with lastStateLEDUpdate := currentTime % ULONG_RANGE },
          s1.2 ++ [HwEvent.digitalWrite h2.bonusLightPin h2.stateLEDState])
      else s1
    | .GAME_OVER =>
      (s1.1, s1.2 ++ turnOffAllLEDs s1.1 ++ [HwEvent.digitalWrite s1.1.defeatLightPin true])
    | .VICTORY =>
      (s1.1, s1.2 ++ turnOffAllLEDs s1.1 ++ [HwEvent.digitalWrite s1.1.winLightPin true])

/-- `HardwareManager::blinkDefeatLED`, with the clock value read by the call. -/
def blinkDefeatLED (h : HardwareManager) (now : Nat) : HardwareManager :=
  startLEDBlink h h.defeatLightPin 6 100 now now

/-- `HardwareManager::blinkWinLED`, with the clock value read by the call. -/
def blinkWinLED (h : HardwareManager) (now : Nat) : HardwareManager :=
  startMultiLEDBlink h [h.winLightPin, h.bonusLightPin] 2 3 200 now now

/-- `HardwareManager::blinkBonusLED`, with the clock value read by the call. -/
def blinkBonusLED (h : HardwareManager) (now : Nat) : HardwareManager :=
  startLEDBlink h h.bonusLightPin 2 100 now now

/-- `HardwareManager::stopSound`. -/
def stopSound (h : HardwareManager) : HardwareManager × List HwEvent :=
  ({ h with isMelodyPlaying := false, currentMelody := none, currentSound := .SOUND_NONE },
    [HwEvent.noTone h.buzzerPin])

/-- `HardwareManager::playSimpleTone`, with `now` the value of `millis()`. The
one-note melody is the `static` record `tempNote`, which the call overwrites. -/
def playSimpleTone (h : HardwareManager) (frequency duration now : Nat) :
    HardwareManager × List HwEvent :=
  if h.buzzerEnabled = false then (h, [])
  else
    ({ h with
        noteStartTime := now % ULONG_RANGE
        isMelodyPlaying := true
        currentNoteIndex := 0
        melodyLength := 1
        currentMelody := some [{ frequency := frequency, duration := duration }] },
      [HwEvent.tone h.buzzerPin frequency])

/-- `HardwareManager::startMelody`, with `now` the value of `millis()`. -/
def startMelody (h : HardwareManager) (melody : List MelodyNote) (length now : Nat) :
    HardwareManager × List HwEvent :=
  if h.buzzerEnabled = false then (h, [])
  else
    let h1 : HardwareManager :=
      { h with
        currentMelody := some melody
        melodyLength := length
        currentNoteIndex := 0
        isMelodyPlaying := true }
    if length > 0 then
      ({ h1 with noteStartTime := now % ULONG_RANGE },
        [HwEvent.tone h1.buzzerPin (melody.getD 0 ⟨0, 0⟩).frequency])
    else (h1, [])

/-- `HardwareManager::updateMelody`; `currentTime` is the clock read on entry
and `noteTime` the clock read when the next note starts. -/
def updateMelody (h : HardwareManager) (currentTime noteTime : Nat) :
    HardwareManager × List HwEvent :=
  if h.isMelodyPlaying = false ∨ h.currentMelody = none then (h, [])
  else
    let melody := h.currentMelody.getD []
    let noteDuration := (melody.getD h.currentNoteIndex ⟨0, 0⟩).duration
    if ulongSub currentTime h.noteStartTime ≥ noteDuration then
      if ulongSub currentTime h.noteStartTime ≥ noteDuration + 50 then
        let h1 : HardwareManager :=
          { h with currentNoteIndex := (h.currentNoteIndex + 1) % BYTE_RANGE }
        if h1.currentNoteIndex ≥ h1.melodyLength then
          ({ h1 with isMelodyPlaying := false, currentMelody := none,
                     currentSound := .SOUND_NONE },
            [HwEvent.noTone h.buzzerPin, HwEvent.noTone h.buzzerPin])
        else
          ({ h1 with noteStartTime := noteTime % ULONG_RANGE },
            [HwEvent.noTone h.buzzerPin,
              HwEvent.tone h.buzzerPin (melody.getD h1.currentNoteIndex ⟨0, 0⟩).frequency])
      else (h, [HwEvent.noTone h.buzzerPin])
    else (h, [])

/-- `HardwareManager::playSound`, with `now` the value of `millis()`. -/
def playSound (h : HardwareManager) (type : SoundType) (now : Nat) :
    HardwareManager × List HwEvent :=
  if h.buzzerEnabled = false then (h, [])
  else if type = h.currentSound ∧ h.isMelodyPlaying = true then (h, [])
  else
    let h1 : HardwareManager := { h with currentSound := type }
    match type with
    | .SOUND_MENU_MOVE => playSimpleTone h1 800 50 now
    | .SOUND_MENU_SELECT => playSimpleTone h1 1200 100 now
    | .SOUND_PLAYER_MOVE => playSimpleTone h1 600 30 now
    | .SOUND_CUP_COLLECT => startMelody h1 cupCollectMelody 3 now
    | .SOUND_PLAYER_DEATH => startMelody h1 playerDeathMelody 4 now
    | .SOUND_ROOM_CLEAR => startMelody h1 roomClearMelody 5 now
    | .SOUND_VICTORY => startMelody h1 victoryMelody 7 now
    | .SOUND_GAME_OVER => startMelody h1 gameOverMelody 4 now
    | .SOUND_NONE => stopSound h1

/-- `HardwareManager::setBuzzerEnabled`. -/
def setBuzzerEnabled (h : HardwareManager) (enabled : Bool) : HardwareManager × List HwEvent :=
  let h1 : HardwareManager := { h with buzzerEnabled := enabled }
  if enabled = false then stopSound h1 else (h1, [])

/-- `HardwareManager::updateBuzzer`. -/
def updateBuzzer (h : HardwareManager) (currentTime noteTime : Nat) :
    HardwareManager × List HwEvent :=
  updateMelody h currentTime noteTime

/-- `HardwareManager::update`; one clock value `now` stands for the reads of
`millis()` made during the call and `brightness` for the photosensor reading. -/
def hardwareUpdate (h : HardwareManager) (currentState : GameState) (now : Nat)
    (brightness : Int) : HardwareManager × List HwEvent :=
  let s1 := updateBacklight h now brightness
  let s2 := updateStatusLEDs s1.1 currentState now now
  let s3 := updateBuzzer s2.1 now now
  (s3.1, s1.2 ++ s2.2 ++ s3.2)

/-! ## Game controller (GameController.cpp)

One call of a controller function samples the clock and the analog inputs
once: the record `Inputs` holds the value returned by `millis()` and the
joystick and photosensor readings during the call. The board calls made by
the hardware manager are not part of the controller state and are dropped;
the hardware state itself is threaded through. -/

/-- `InputConfig::joystickDeadzoneMin`. -/
def joystickDeadzoneMin : Int := 400
/-- `InputConfig::joystickDeadzoneMax`. -/
def joystickDeadzoneMax : Int := 600
/-- `InputConfig::joystickThreshold`. -/
def joystickThreshold : Int := 700
/-- `InputConfig::debouncingDelay`, in ms. -/
def debouncingDelay : Nat := 200
/-- `InputConfig::respawnDelay`, in ms. -/
def respawnDelay : Nat := 2000
/-- `GameController::ROOM_CLEAR_DISPLAY_TIME`, in ms. -/
def ROOM_CLEAR_DISPLAY_TIME : Nat := 2000
/-- `GameController::UPDATE_INTERVAL`, in ms. -/
def UPDATE_INTERVAL : Nat := 50

/-- What one controller call reads from the board. -/
structure Inputs where
  now : Nat
  joystickX : Int
  joystickY : Int
  brightness : Int
deriving DecidableEq, Repr

/-- The fields of `class GameController`, with the model and the hardware
manager it refers to. -/
structure GameController where
  model : GameModel
  hardware : HardwareManager
  joystickXPin : Nat
  joystickYPin : Nat
  lastInputTime : Nat
  playerDeathTime : Nat
  waitingForRespawn : Bool
  roomClearMessageShown : Bool
  roomClearTime : Nat
  lastUpdateTime : Nat
deriving DecidableEq, Repr

/-- The constructor `GameController::GameController`. -/
def GameController.init (gameModel : GameModel) (hwManager : HardwareManager)
    (joyXPin joyYPin : Nat) : GameController :=
  { model := gameModel
    hardware := hwManager
    joystickXPin := joyXPin
    joystickYPin := joyYPin
    lastInputTime := 0
    playerDeathTime := 0
    waitingForRespawn := false
    roomClearMessageShown := false
    roomClearTime := 0
    lastUpdateTime := 0 }

/-- `GameController::initialize`: the controller and the storage afterwards. -/
def controllerInitialize (c : GameController) (e : EEPROM) : GameController × EEPROM :=
  let h1 := (hardwareInitialize c.hardware).1
  let r := loadHighscoresFromEEPROM c.model e 0
  ({ c with hardware := h1, model := r.1 }, r.2)

/-- `GameController::isJoystickLeft`. -/
def isJoystickLeft (inp : Inputs) : Bool := decide (inp.joystickX < joystickDeadzoneMin)
/-- `GameController::isJoystickRight`. -/
def isJoystickRight (inp : Inputs) : Bool := decide (inp.joystickX > joystickThreshold)
/-- `GameController::isJoystickUp`. -/
def isJoystickUp (inp : Inputs) : Bool := decide (inp.joystickY < joystickDeadzoneMin)
/-- `GameController::isJoystickDown`. -/
def isJoystickDown (inp : Inputs) : Bool := decide (inp.joystickY > joystickThreshold)

/-- `GameController::canAcceptInput`. -/
def canAcceptInput (c : GameController) (inp : Inputs) : Bool :=
  decide (ulongSub inp.now c.lastInputTime ≥ debouncingDelay)

/-- `GameController::updateMenuState`. -/
def updateMenuState (c : GameController) (inp : Inputs) : GameController :=
  if canAcceptInput c inp = false then c
  else if isJoystickUp inp then
    { c with
      model := selectPreviousMenuOption c.model
      hardware := (playSound c.hardware .SOUND_MENU_MOVE inp.now).1
      lastInputTime := inp.now % ULONG_RANGE }
  else if isJoystickDown inp then
    { c with
      model := selectNextMenuOption c.model
      hardware := (playSound c.hardware .SOUND_MENU_MOVE inp.now).1
      lastInputTime := inp.now % ULONG_RANGE }
  else c

/-- The joystick branch of `GameController::handlePlayerMovement`: the flag
`moved` and the controller after the `movePlayer` call, if any. -/
def joystickMove (c : GameController) (inp : Inputs) : Bool × GameController :=
  if isJoystickLeft inp then
    let r := movePlayer c.model (-1) 0
    (r.1, { c with model := r.2, lastInputTime := inp.now % ULONG_RANGE })
  else if isJoystickRight inp then
    let r := movePlayer c.model 1 0
    (r.1, { c with model := r.2, lastInputTime := inp.now % ULONG_RANGE })
  else if isJoystickUp inp then
    let r := movePlayer c.model 0 (-1)
    (r.1, { c with model := r.2, lastInputTime := inp.now % ULONG_RANGE })
  else if isJoystickDown inp then
    let r := movePlayer c.model 0 1
    (r.1, { c with model := r.2, lastInputTime := inp.now % ULONG_RANGE })
  else (false, c)

/-- `GameController::handlePlayerMovement`. -/
def handlePlayerMovement (c : GameController) (inp : Inputs) : GameController :=
  if canAcceptInput c inp = false then c
  else if c.waitingForRespawn then c
  else
    let r := joystickMove c inp
    if r.1 then
      let h1 := (playSound r.2.hardware .SOUND_PLAYER_MOVE inp.now).1
      let h2 :=
        if getEntityAt r.2.model r.2.model.player.column r.2.model.player.row = '3' then
          blinkBonusLED (playSound h1 .SOUND_CUP_COLLECT inp.now).1 inp.now
        else h1
      { r.2 with hardware := h2 }
    else r.2

/-- `GameController::checkPlayerStatus`. -/
def checkPlayerStatus (c : GameController) (inp : Inputs) : GameController :=
  if c.model.player.isAlive = false ∧ c.waitingForRespawn = false then
    { c with
      waitingForRespawn := true
      playerDeathTime := inp.now % ULONG_RANGE
      hardware := blinkDefeatLED (playSound c.hardware .SOUND_PLAYER_DEATH inp.now).1 inp.now }
  else c

/-- `GameController::checkRoomCompletion`. -/
def checkRoomCompletion (c : GameController) (inp : Inputs) : GameController :=
  let c1 : GameController :=
    if isCurrentRoomCleared c.model = true ∧ c.roomClearMessageShown = false then
      { c with
        roomClearMessageShown := true
        roomClearTime := inp.now % ULONG_RANGE
        hardware := blinkWinLED (playSound c.hardware .SOUND_ROOM_CLEAR inp.now).1 inp.now }
    else c
  if c1.roomClearMessageShown = true ∧
      ulongSub inp.now c1.roomClearTime ≥ ROOM_CLEAR_DISPLAY_TIME then
    if isGameCompleted c1.model then
      { c1 with
        model := setVictory c1.model
        hardware := (playSound c1.hardware .SOUND_VICTORY inp.now).1 }
    else
      { c1 with
        model := advanceToNextRoom c1.model inp.now inp.now
        roomClearMessageShown := false }
  else c1

/-- `GameController::handleRespawn`. -/
def handleRespawn (c : GameController) (inp : Inputs) : GameController :=
  if ulongSub inp.now c.playerDeathTime ≥ respawnDelay then
    { c with model := respawnPlayer c.model, waitingForRespawn := false }
  else c

/-- `GameController::updatePlayingState`. -/
def updatePlayingState (c : GameController) (inp : Inputs) : GameController :=
  let c1 := handlePlayerMovement c inp
  let c2 := checkPlayerStatus c1 inp
  let c3 := checkRoomCompletion c2 inp
  if c3.waitingForRespawn then handleRespawn c3 inp else c3

/-- `GameController::updatePausedState`. -/
def updatePausedState (c : GameController) : GameController := c

/-- `GameController::updateGameOverState`: the controller and the storage afterwards. -/
def updateGameOverState (c : GameController) (e : EEPROM) : GameController × EEPROM :=
  if isNewHighscore c.model c.model.score then
    let m1 := addHighscore c.model c.model.score
    ({ c with model := m1 }, saveHighscoresToEEPROM m1 e 0)
  else (c, e)

/-- `GameController::updateVictoryState`: the controller and the storage afterwards. -/
def updateVictoryState (c : GameController) (e : EEPROM) : GameController × EEPROM :=
  if isNewHighscore c.model c.model.score then
    let m1 := addHighscore c.model c.model.score
    ({ c with model := m1 }, saveHighscoresToEEPROM m1 e 0)
  else (c, e)

/-- `GameController::update`: the controller and the storage afterwards. -/
def controllerUpdate (c : GameController) (e : EEPROM) (inp : Inputs) : GameController × EEPROM :=
  if ulongSub inp.now c.lastUpdateTime < UPDATE_INTERVAL then (c, e)
  else
    let c1 : GameController := { c with lastUpdateTime := inp.now % ULONG_RANGE }
    let c2 : GameController :=
      { c1 with
        hardware := (hardwareUpdate c1.hardware c1.model.currentState inp.now inp.brightness).1 }
    match c2.model.currentState with
    | .MENU => (updateMenuState c2 inp, e)
    | .PLAYING => (updatePlayingState c2 inp, e)
    | .PAUSED => (updatePausedState c2, e)
    | .GAME_OVER => updateGameOverState c2 e
    | .VICTORY => updateVictoryState c2 e

/-- `GameController::handleSelectButton`, with `now` the value of `millis()`. -/
def handleSelectButton (c : GameController) (now : Nat) : GameController :=
  match c.model.currentState with
  | .MENU =>
    { c with
      model := confirmMenuSelection c.model now
      hardware := (playSound c.hardware .SOUND_MENU_SELECT now).1 }
  | .GAME_OVER =>
    { c with
      model := resetGame c.model
      hardware := (playSound c.hardware .SOUND_MENU_SELECT now).1 }
  | .VICTORY =>
    { c with
      model := resetGame c.model
      hardware := (playSound c.hardware .SOUND_MENU_SELECT now).1 }
  | _ => c

/-- `GameController::handlePauseButton`, with `now` the value of `millis()`. -/
def handlePauseButton (c : GameController) (now : Nat) : GameController :=
  match c.model.currentState with
  | .PLAYING =>
    { c with
      model := setState c.model .PAUSED
      hardware := (playSound c.hardware .SOUND_MENU_SELECT now).1 }
  | .PAUSED =>
    { c with
      model := setState c.model .PLAYING
      hardware := (playSound c.hardware .SOUND_MENU_SELECT now).1 }
  | _ => c

/-- What the main loop does to the controller: an update tick, or one of the
two button handlers. -/
inductive CtrlOp where
  | update (inp : Inputs)
  | selectButton (now : Nat)
  | pauseButton (now : Nat)
deriving DecidableEq, Repr

/-- The controller and the storage after one operation of the main loop. -/
def applyCtrlOp (s : GameController × EEPROM) : CtrlOp → GameController × EEPROM
  | .update inp => controllerUpdate s.1 s.2 inp
  | .selectButton now => (handleSelectButton s.1 now, s.2)
  | .pauseButton now => (handlePauseButton s.1 now, s.2)

/-- The controller and the storage after a sequence of operations. -/
def runCtrl (s : GameController × EEPROM) (ops : List CtrlOp) : GameController × EEPROM :=
  ops.foldl applyCtrlOp s

/-- The system after `setup()`: the global model, hardware manager and
controller of `main.cpp` (light sensor on A2 = 16, backlight 10, status lights
on A3..A5 = 17..19, buzzer 11, joystick on A0, A1 = 14, 15) after
`GameController::initialize`, with storage content `e`. -/
def powerOn (e : EEPROM) : GameController × EEPROM :=
  controllerInitialize
    (GameController.init GameModel.init (HardwareManager.init 16 10 17 18 19 11) 14 15) e

/-- A controller state is reachable when a sequence of main-loop operations
leads to it from power-on with some storage content. -/
def CtrlReachable (c : GameController) : Prop :=
  ∃ (e : EEPROM) (ops : List CtrlOp), (runCtrl (powerOn e) ops).1 = c

/-! ## A complete play-through, as main-loop operations -/

/-- Joystick readings `(x, y)` of a full deflection to the left. -/
def joyLeft : Int × Int := (0, 512)
/-- Joystick readings of a full deflection to the right. -/
def joyRight : Int × Int := (1023, 512)
/-- Joystick readings of a full deflection upwards. -/
def joyUp : Int × Int := (512, 0)
/-- Joystick readings of a full deflection downwards. -/
def joyDown : Int × Int := (512, 1023)
/-- Joystick readings at rest. -/
def joyNeutral : Int × Int := (512, 512)

/-- An update tick at clock value `now` with joystick readings `joy`. -/
def tickAt (now : Nat) (joy : Int × Int) : CtrlOp :=
  CtrlOp.update { now := now, joystickX := joy.1, joystickY := joy.2, brightness := 512 }

/-- For each of the six rooms, joystick deflections that lead from the start
cell over every cup of the room without entering a fire cell. -/
def roomPaths : List (List (Int × Int)) :=
  [ List.replicate 8 joyRight ++ [joyUp] ++ List.replicate 5 joyLeft ++
      List.replicate 12 joyRight,
    List.replicate 7 joyRight ++ [joyUp] ++ List.replicate 4 joyRight ++
      List.replicate 9 joyLeft,
    List.replicate 6 joyRight ++ [joyUp] ++ List.replicate 6 joyLeft ++
      List.replicate 6 joyRight ++ [joyDown] ++ List.replicate 6 joyRight ++ [joyLeft] ++
      [joyUp] ++ List.replicate 4 joyRight,
    List.replicate 3 joyRight ++ [joyUp] ++ List.replicate 3 joyLeft ++
      List.replicate 9 joyRight ++ [joyDown] ++ List.replicate 6 joyRight ++
      List.replicate 2 joyLeft ++ [joyUp] ++ List.replicate 2 joyRight,
    List.replicate 2 joyRight ++ [joyUp] ++ List.replicate 2 joyLeft ++
      List.replicate 6 joyRight ++ List.replicate 4 joyLeft ++ [joyDown] ++
      List.replicate 10 joyRight ++ List.replicate 2 joyLeft ++ [joyUp] ++
      List.replicate 5 joyRight,
    List.replicate 2 joyRight ++ [joyUp] ++ List.replicate 2 joyLeft ++
      List.replicate 8 joyRight ++ [joyDown] ++ List.replicate 7 joyRight ++
      List.replicate 3 joyLeft ++ [joyUp] ++ List.replicate 2 joyRight ]

/-- The ticks that play one room entered at clock value `t0`: one deflection
every 200 ms, then a tick with the joystick at rest 2000 ms after the last. -/
def playRoomOps (t0 : Nat) (path : List (Int × Int)) : List CtrlOp :=
  (List.range path.length).map (fun i => tickAt (t0 + 200 * (i + 1)) (path.getD i joyNeutral)) ++
    [tickAt (t0 + 200 * path.length + 2000) joyNeutral]

/-- The ticks that play the given rooms one after the other from clock value `t0`. -/
def playRoomsOps : Nat → List (List (Int × Int)) → List CtrlOp
  | _, [] => []
  | t0, p :: ps => playRoomOps t0 p ++ playRoomsOps (t0 + 200 * p.length + 2000) ps

/-- A first game played to the end: the select button at 1000 ms, then the six
rooms; the last tick, at 46600 ms, enters `VICTORY`. -/
def victoryOps : List CtrlOp := [CtrlOp.selectButton 1000] ++ playRoomsOps 1000 roomPaths

/-- The controller when the first game has just been won, from power-on with
erased storage. -/
def afterVictory : GameController := (runCtrl (powerOn EEPROM.erased) victoryOps).1

/-- The first game won, an update tick in `VICTORY`, the select button back to
the menu, and the select button starting a second game at 47500 ms. -/
def secondGameOps : List CtrlOp :=
  victoryOps ++ [tickAt 46700 joyNeutral, CtrlOp.selectButton 47000, CtrlOp.selectButton 47500]

/-- The controller at the start of the second game, from power-on with erased
storage. -/
def secondGameStart : GameController := (runCtrl (powerOn EEPROM.erased) secondGameOps).1

/-- The start marker `'P'` occurs in a room at most in column 0 of the bottom row. -/
def NoStrayStart (r : Room) : Prop :=
  (∀ c ∈ r.topRow, c ≠ 'P') ∧ (∀ c ∈ r.bottomRow.tail, c ≠ 'P')

/-- Invariant of start markers and player position: no room has a start marker
outside column 0 of its bottom row, and the player is inside the grid. -/
def PlayOK (m : GameModel) : Prop :=
  (∀ r ∈ m.rooms, NoStrayStart r) ∧ m.player.column < 16 ∧ m.player.row < 2

/-- `NoStrayStart` is decidable. -/
instance decNoStrayStart (r : Room) : Decidable (NoStrayStart r) := by
  unfold NoStrayStart; infer_instance

/-- `PlayOK` is decidable. -/
instance decPlayOK (m : GameModel) : Decidable (PlayOK m) := by
  unfold PlayOK; infer_instance

/-- A controller whose model is room 1 with the player walked right into the
fire at column 12, after `checkPlayerStatus` has found the player dead at
5000 ms. -/
def deadInRoom1 : GameController :=
  checkPlayerStatus
    { GameController.init (movePlayer room1BeforeFire 1 0).2
        (HardwareManager.init 16 10 17 18 19 11) 14 15 with lastInputTime := 5000 }
    { now := 5000, joystickX := 512, joystickY := 512, brightness := 512 }

/-- The controller after power-on with 120 points on the score counter and
the model in the VICTORY state. -/
def victoryWith120 : GameController :=
  { (powerOn EEPROM.erased).1 with
    model := setVictory (addScore (powerOn EEPROM.erased).1.model 120) }

/-- The hardware manager of the sketch after `playSound(SOUND_CUP_COLLECT)` at
time 0: the three-note cup melody is on its first note. -/
def cupMelodyPlaying : HardwareManager :=
  (playSound (HardwareManager.init 16 10 17 18 19 11) SoundType.SOUND_CUP_COLLECT 0).1

/-- The level a pin is left at by a sequence of board calls: that of the last
`digitalWrite` to it, if there is one. -/
def ledLevel (events : List HwEvent) (pin : Nat) : Option Bool :=
  events.foldl
    (fun level ev =>
      match ev with
      | HwEvent.digitalWrite p l => if p = pin then some l else level
      | _ => level)
    none

/-- The hardware manager of the sketch with the defeat LED blink just started
at time 0. -/
def defeatBlinkStarted : HardwareManager :=
  blinkDefeatLED (HardwareManager.init 16 10 17 18 19 11) 0

/-- The controller of the sketch after power-on and a select press at 1000 ms:
the first game has just started. -/
def firstGameStart : GameController := handleSelectButton (powerOn EEPROM.erased).1 1000

/-- The character at `column` of row `row` (0 the top row, otherwise the bottom
row) in the grid of room `i`; a blank outside the stored rows. -/
def roomCell (m : GameModel) (i column row : Nat) : Char :=
  (if row = 0 then (roomAt m i).topRow else (roomAt m i).bottomRow).getD column ' '

/-- The position `(col, row)` is the first start marker of the current room's
grid in the order column by column, the top row before the bottom row within
a column. -/
def FirstMarker (m : GameModel) (col row : Nat) : Prop :=
  col < 16 ∧ row < 2 ∧ roomCell m m.currentRoomIndex col row = 'P' ∧
    (row = 1 → roomCell m m.currentRoomIndex col 0 ≠ 'P') ∧
    ∀ k, k < col →
      roomCell m m.currentRoomIndex k 0 ≠ 'P' ∧ roomCell m m.currentRoomIndex k 1 ≠ 'P'

instance decFirstMarker (m : GameModel) (col row : Nat) : Decidable (FirstMarker m col row) := by
  unfold FirstMarker
  infer_instance

/-- The initial model with room 0 reloaded so that column 2 holds a start
marker in both rows and column 4 one in the bottom row. -/
def twoMarkers : GameModel := loadRoom GameModel.init 0 "  P   3" "  P P  "

/-- A store whose record at address 0 is valid and has a first entry equal to
the erased word `0xFFFF`: scores 65535, 5, 0 with checksum 5. -/
def sentinelRecordStore : EEPROM :=
  EEPROM.erased.put 0 { scores := [0xFFFF, 5, 0], checksum := calculateChecksum [0xFFFF, 5, 0] }

/-- The three largest of the old entries and the score `s`, in non-increasing
order: the result the claim about `addHighscore` describes, for comparison
with `insertHighscore`. -/
def topThreeWith (t : List Nat) (s : Nat) : List Nat :=
  ((s :: t).insertionSort (fun x y => x ≥ y)).take 3

/-- The initial model after the scores 120, 100 and 50 have been recorded:
the table is `[120, 100, 50]`. -/
def fullTable : GameModel :=
  addHighscore (addHighscore (addHighscore GameModel.init 120) 100) 50

/-- The cups of a room that are accounted for: those collected and those still
in its grid. -/
def cupsAccounted (r : Room) : Nat := r.cupsCollected + cupsLeft r

/-- From `m` to `m1` no room gains an accounted cup and no `cupsInRoom` changes. -/
def NoCupGain (m m1 : GameModel) : Prop :=
  ∀ i, cupsAccounted (roomAt m1 i) ≤ cupsAccounted (roomAt m i) ∧
    (roomAt m1 i).cupsInRoom = (roomAt m i).cupsInRoom

/-- A game started at clock 0, the cup at column 3 of the top row of room 0
collected (right to the ladder at column 8, up, left), and then a second
`startNewGame` at 100000 ms. -/
def restartedAfterCup : GameModel :=
  runOps GameModel.init
    ([Op.startNewGame 0] ++ List.replicate 8 (Op.movePlayer 1 0) ++ [Op.movePlayer 0 (-1)] ++
      List.replicate 5 (Op.movePlayer (-1) 0) ++ [Op.startNewGame 100000])

/-- The unit step that `handlePlayerMovement` asks of `movePlayer` for a
joystick reading `(x, y)`: left, right, up, down in that order of test, or no
step at rest. -/
def stepOfJoystick (joy : Int × Int) : Int × Int :=
  if joy.1 < joystickDeadzoneMin then (-1, 0)
  else if joy.1 > joystickThreshold then (1, 0)
  else if joy.2 < joystickDeadzoneMin then (0, -1)
  else if joy.2 > joystickThreshold then (0, 1)
  else (0, 0)

/-- The `movePlayer` steps of `roomPaths`, room by room. -/
def roomMoves : List (List (Int × Int)) := roomPaths.map (fun p => p.map stepOfJoystick)

/-- Room `k` of a new game as it is when first entered: `startNewGame`, then
`k` calls of `advanceToNextRoom`. -/
def enterRoom (k : Nat) : GameModel :=
  (List.range k).foldl (fun m _ => advanceToNextRoom m 0 0) (startNewGame GameModel.init 0)

/-- Room `k` after the steps of `roomMoves` for it, from the entry state. -/
def walkRoom (k : Nat) : GameModel := movePlayerSeq (enterRoom k) (roomMoves.getD k [])

/-- Whether every `movePlayer` call of the sequence returns `true`. -/
def movesAccepted (m : GameModel) : List (Int × Int) → Bool
  | [] => true
  | d :: ds => (movePlayer m d.1 d.2).1 && movesAccepted (movePlayer m d.1 d.2).2 ds

/-- A step of one cell: left, right, up or down. -/
def UnitStep (d : Int × Int) : Prop :=
  d = (-1, 0) ∨ d = (1, 0) ∨ d = (0, -1) ∨ d = (0, 1)

instance decUnitStep (d : Int × Int) : Decidable (UnitStep d) := by
  unfold UnitStep
  infer_instance

/-- The first game from power-on with erased storage: room 0 played and left
(room 1 entered at 8200 ms), then twelve deflections to the right, one every
200 ms, the last of which steps into the fire at column 12, and a tick at rest. -/
def deathInRoom1Ops : List CtrlOp :=
  [CtrlOp.selectButton 1000] ++ playRoomOps 1000 (roomPaths.getD 0 []) ++
    (List.range 12).map (fun i => tickAt (8400 + 200 * i) joyRight) ++ [tickAt 10800 joyNeutral]

/-- The controller after `deathInRoom1Ops`. -/
def diedInRoom1 : GameController := (runCtrl (powerOn EEPROM.erased) deathInRoom1Ops).1

/-- A controller of the sketch whose model is `room0NextToCup`: the player
stands one step to the right of the cup at column 3 of the top row of room 0. -/
def nextToCupController : GameController :=
  GameController.init room0NextToCup (HardwareManager.init 16 10 17 18 19 11) 14 15

/-- A game played to the end as in `victoryOps`, but with the first joystick
deflection `delay` ms later, so that room 0 takes that much longer. -/
def delayedVictoryOps (delay : Nat) : List CtrlOp :=
  [CtrlOp.selectButton 1000] ++ playRoomsOps (1000 + delay) roomPaths

/-- A store that holds at address 0 the valid record of the given table and
`0xFF` everywhere else. -/
def storeWithTable (scores : List Nat) : EEPROM :=
  EEPROM.erased.put 0 { scores := scores, checksum := calculateChecksum scores }

/-- The third session of the sketch: power-on with the table `[414, 412, 0]`
in storage, and a game won after a delay of 4000 ms; the model has just
entered VICTORY. -/
def thirdWin : GameController × EEPROM :=
  runCtrl (powerOn (storeWithTable [414, 412, 0])) (delayedVictoryOps 4000)

/-- The first update tick after `thirdWin`, at 50700 ms. -/
def thirdWinRecorded : GameController × EEPROM :=
  applyCtrlOp thirdWin (tickAt 50700 joyNeutral)

/-- What `updateVictoryState` and `updateGameOverState` do to the model: the
score is added to the table when `isNewHighscore` says so. -/
def recordScore (m : GameModel) : GameModel :=
  if isNewHighscore m m.score then addHighscore m m.score else m

/-- The controller and the storage after `n` runs of `updateVictoryState`. -/
def repeatVictoryUpdate : Nat → GameController × EEPROM → GameController × EEPROM
  | 0, s => s
  | n + 1, s => repeatVictoryUpdate n (updateVictoryState s.1 s.2)

/-- The operations on the sound sequencer of `HardwareManager`, with their
arguments and the clock values they read. -/
inductive SeqOp where
  | playSound (type : SoundType) (now : Nat)
  | updateMelody (currentTime noteTime : Nat)
  | stopSound
  | setBuzzerEnabled (enabled : Bool)

/-- The hardware state after one sequencer operation. -/
def applySeqOp (h : HardwareManager) : SeqOp → HardwareManager
  | .playSound type now => (playSound h type now).1
  | .updateMelody currentTime noteTime => (updateMelody h currentTime noteTime).1
  | .stopSound => (stopSound h).1
  | .setBuzzerEnabled enabled => (setBuzzerEnabled h enabled).1

/-- A hardware state is reachable by the sequencer when sequencer operations
lead to it from a newly constructed `HardwareManager`. -/
def SeqReachable (h : HardwareManager) : Prop :=
  ∃ (p1 p2 p3 p4 p5 p6 : Nat) (ops : List SeqOp),
    ops.foldl applySeqOp (HardwareManager.init p1 p2 p3 p4 p5 p6) = h

/-- Invariant of the sequencer: while a melody is playing, the melody is
present, `melodyLength` is its number of notes (a byte), the cursor is on one
of its notes and the current sound is not `SOUND_NONE`. -/
def MelodyOK (h : HardwareManager) : Prop :=
  h.isMelodyPlaying = true →
    ∃ mel, h.currentMelody = some mel ∧ h.melodyLength = mel.length ∧ h.melodyLength < 256 ∧
      h.currentNoteIndex < h.melodyLength ∧ h.currentSound ≠ SoundType.SOUND_NONE

/-- Room 1 of a new game after the player has walked from the start cell into
the fire at column 12 of the bottom row. -/
def burntInRoom1 : GameModel :=
  runOps GameModel.init
    ([Op.startNewGame 0, Op.advanceToNextRoom 0 0] ++ List.replicate 12 (Op.movePlayer 1 0))

/-- Room 0 of a new game with 65531 points put on the score counter by
`addScore`, the player on the top row at column 4, one step to the right of
the cup at column 3. -/
def nextToCupAt65531 : GameModel :=
  runOps GameModel.init
    ([Op.startNewGame 0, Op.addScore 65531] ++ List.replicate 8 (Op.movePlayer 1 0) ++
      [Op.movePlayer 0 (-1)] ++ List.replicate 4 (Op.movePlayer (-1) 0))

/-! # Theorems -/

/-! ## Cells -/

theorem checkLadderAt_eq_entity (m : GameModel) (column row : Nat) :
    checkLadderAt m column row =
      (getEntityAt m column row == 'H' || getEntityAt m column row == '2') := by
  unfold checkLadderAt getEntityAt
  split <;> simp

theorem checkFireAt_eq_entity (m : GameModel) (column row : Nat) :
    checkFireAt m column row =
      (getEntityAt m column row == 'F' || getEntityAt m column row == '1') := by
  unfold checkFireAt getEntityAt
  split <;> simp

theorem toByte_of_lt (x : Int) (h0 : 0 ≤ x) (h1 : x < 256) : toByte x = x.toNat := by
  unfold toByte
  rw [Int.emod_eq_of_lt h0 h1]

/-! ## The guards of `movePlayer` -/

theorem movePlayer_rejected (m : GameModel) (dc dr : Int) (h : MoveRejected m dc dr) :
    movePlayer m dc dr = (false, m) := by
  unfold movePlayer
  by_cases ha : m.player.isAlive = false
  · simp [ha]
  · rw [if_neg (by simpa using ha)]
    dsimp only
    by_cases hb : ((m.player.column : Int) + dc < 0 ∨ (m.player.column : Int) + dc ≥ 16 ∨
      (m.player.row : Int) + dr < 0 ∨ (m.player.row : Int) + dr ≥ 2)
    · rw [if_pos hb]
    · rw [if_neg hb]
      rcases h with h | h | h
      · exact absurd h ha
      · exact absurd h hb
      · rw [if_pos h]

theorem movePlayer_accepted (m : GameModel) (dc dr : Int) (h : ¬ MoveRejected m dc dr) :
    movePlayer m dc dr =
      (true, moveTo m (toByte ((m.player.column : Int) + dc)) (toByte ((m.player.row : Int) + dr))) := by
  unfold MoveRejected at h
  have ha : ¬ ((!m.player.isAlive) = true) := by
    intro hx; exact h (Or.inl (by simpa using hx))
  have hb : ¬ ((m.player.column : Int) + dc < 0 ∨ (m.player.column : Int) + dc ≥ 16 ∨
      (m.player.row : Int) + dr < 0 ∨ (m.player.row : Int) + dr ≥ 2) :=
    fun hx => h (Or.inr (Or.inl hx))
  have hc : ¬ (dr ≠ 0 ∧ checkLadderAt m m.player.column m.player.row = false) :=
    fun hx => h (Or.inr (Or.inr hx))
  unfold movePlayer moveTo
  rw [if_neg ha]
  dsimp only
  rw [if_neg hb, if_neg hc]

theorem movePlayer_fst_false_iff (m : GameModel) (dc dr : Int) :
    (movePlayer m dc dr).1 = false ↔ MoveRejected m dc dr := by
  by_cases h : MoveRejected m dc dr
  · simp [movePlayer_rejected m dc dr h, h]
  · simp [movePlayer_accepted m dc dr h, h]

/-- An accepted move: the player was alive, the target is inside the grid, and
the result is `moveTo` at the target. -/
theorem movePlayer_true_elim (m : GameModel) (dc dr : Int) (h : (movePlayer m dc dr).1 = true) :
    m.player.isAlive = true ∧
    0 ≤ (m.player.column : Int) + dc ∧ (m.player.column : Int) + dc < 16 ∧
    0 ≤ (m.player.row : Int) + dr ∧ (m.player.row : Int) + dr < 2 ∧
    (movePlayer m dc dr).2 =
      moveTo m ((m.player.column : Int) + dc).toNat ((m.player.row : Int) + dr).toNat := by
  have hr : ¬ MoveRejected m dc dr := by
    intro hx
    rw [(movePlayer_fst_false_iff m dc dr).mpr hx] at h
    exact Bool.noConfusion h
  have hacc := movePlayer_accepted m dc dr hr
  unfold MoveRejected at hr
  push_neg at hr
  obtain ⟨ha, hb, _⟩ := hr
  obtain ⟨h1, h2, h3, h4⟩ := hb
  refine ⟨by simpa using ha, h1, h2, h3, h4, ?_⟩
  rw [hacc, toByte_of_lt _ h1 (by omega), toByte_of_lt _ h3 (by omega)]

/-! ## C1 - C3 -/

/-- C1. With the player alive, a move request that changes the row
(`deltaRow ≠ 0`) made from a cell that holds no ladder (neither `'H'` nor
`'2'`) returns `false` and leaves the player's column, row and aliveness as
they were, whatever the destination cell holds. -/
theorem movePlayer_row_change_without_ladder (m : GameModel) (deltaColumn deltaRow : Int)
    (_hAlive : m.player.isAlive = true) (hRow : deltaRow ≠ 0)
    (hH : getEntityAt m m.player.column m.player.row ≠ 'H')
    (h2 : getEntityAt m m.player.column m.player.row ≠ '2') :
    (movePlayer m deltaColumn deltaRow).1 = false ∧
      (movePlayer m deltaColumn deltaRow).2.player.column = m.player.column ∧
      (movePlayer m deltaColumn deltaRow).2.player.row = m.player.row ∧
      (movePlayer m deltaColumn deltaRow).2.player.isAlive = m.player.isAlive := by
  have hl : checkLadderAt m m.player.column m.player.row = false := by
    rw [checkLadderAt_eq_entity]; simp [hH, h2]
  have hrej : MoveRejected m deltaColumn deltaRow := Or.inr (Or.inr ⟨hRow, hl⟩)
  rw [movePlayer_rejected m deltaColumn deltaRow hrej]
  exact ⟨rfl, rfl, rfl, rfl⟩

/-- Witness for C1: in room 0 right after `startNewGame` the player stands on
the blank start cell (column 0, bottom row) and asks to move up. -/
theorem movePlayer_row_change_without_ladder_witness :
    (startNewGame GameModel.init 0).player.isAlive = true ∧
      (movePlayer (startNewGame GameModel.init 0) 0 (-1)).1 = false ∧
      (movePlayer (startNewGame GameModel.init 0) 0 (-1)).2.player.column = 0 ∧
      (movePlayer (startNewGame GameModel.init 0) 0 (-1)).2.player.row = 1 ∧
      (movePlayer (startNewGame GameModel.init 0) 0 (-1)).2.player.isAlive = true :=
  ⟨by decide,
    movePlayer_row_change_without_ladder (startNewGame GameModel.init 0) 0 (-1)
      (by decide) (by decide) (by decide) (by decide)⟩

/-- C2. `movePlayer` returns `false` exactly when the player is not alive, or
the target `(column + dc, row + dr)` lies outside columns 0..15 / rows 0..1, or
`dr ≠ 0` and the player's current cell is not a ladder; and whenever it returns
`false` the whole game model is returned unchanged. -/
theorem movePlayer_false_iff_guard (m : GameModel) (dc dr : Int) :
    ((movePlayer m dc dr).1 = false ↔
      (m.player.isAlive = false ∨
        ((m.player.column : Int) + dc < 0 ∨ (m.player.column : Int) + dc > 15 ∨
          (m.player.row : Int) + dr < 0 ∨ (m.player.row : Int) + dr > 1) ∨
        (dr ≠ 0 ∧ getEntityAt m m.player.column m.player.row ≠ 'H' ∧
          getEntityAt m m.player.column m.player.row ≠ '2'))) ∧
    ((movePlayer m dc dr).1 = false → (movePlayer m dc dr).2 = m) := by
  have hl : checkLadderAt m m.player.column m.player.row = false ↔
      (getEntityAt m m.player.column m.player.row ≠ 'H' ∧
        getEntityAt m m.player.column m.player.row ≠ '2') := by
    rw [checkLadderAt_eq_entity]; simp
  constructor
  · rw [movePlayer_fst_false_iff]
    unfold MoveRejected
    rw [hl]
    constructor
    · rintro (h | h | h)
      · exact Or.inl h
      · refine Or.inr (Or.inl ?_); omega
      · exact Or.inr (Or.inr h)
    · rintro (h | h | h)
      · exact Or.inl h
      · refine Or.inr (Or.inl ?_); omega
      · exact Or.inr (Or.inr h)
  · intro h
    rw [movePlayer_rejected m dc dr ((movePlayer_fst_false_iff m dc dr).mp h)]

/-! ### Frame facts for `collectCupAt` and `moveTo` -/

theorem collectCupAt_player (m : GameModel) (column row : Nat) :
    (collectCupAt m column row).2.player = m.player := by
  unfold collectCupAt
  split
  · rfl
  · split
    · rfl
    · rfl

theorem moveTo_isAlive (m : GameModel) (column row : Nat) :
    (moveTo m column row).player.isAlive = (m.player.isAlive && !checkFireAt m column row) := by
  unfold moveTo
  have hf : checkFireAt { m with player := { m.player with column := column, row := row } }
      column row = checkFireAt m column row := rfl
  dsimp only
  rw [hf]
  by_cases hfire : checkFireAt m column row = true
  · rw [if_pos hfire]
    split
    · rw [collectCupAt_player]; simp [killPlayer, hfire]
    · simp [killPlayer, hfire]
  · rw [if_neg hfire]
    split
    · rw [collectCupAt_player]; simp [hfire]
    · simp [hfire]

/-- C3. After a successful `movePlayer` the player is not alive if the
destination cell holds fire (`'F'` or `'1'`) and is still alive if it does not. -/
theorem movePlayer_alive_iff_no_fire (m : GameModel) (dc dr : Int)
    (hok : (movePlayer m dc dr).1 = true) :
    ((getEntityAt m ((m.player.column : Int) + dc).toNat ((m.player.row : Int) + dr).toNat = 'F' ∨
        getEntityAt m ((m.player.column : Int) + dc).toNat ((m.player.row : Int) + dr).toNat = '1') →
      (movePlayer m dc dr).2.player.isAlive = false) ∧
    (¬ (getEntityAt m ((m.player.column : Int) + dc).toNat ((m.player.row : Int) + dr).toNat = 'F' ∨
        getEntityAt m ((m.player.column : Int) + dc).toNat ((m.player.row : Int) + dr).toNat = '1') →
      (movePlayer m dc dr).2.player.isAlive = true) := by
  obtain ⟨ha, _, _, _, _, hres⟩ := movePlayer_true_elim m dc dr hok
  rw [hres, moveTo_isAlive, checkFireAt_eq_entity, ha]
  constructor
  · intro h
    rcases h with h | h <;> simp [h]
  · intro h
    push_neg at h
    simp [h.1, h.2]

/-- Witness for C3: in room 1 the player walks right along the bottom row from
the start cell; the twelfth step enters the fire cell at column 12. -/
theorem movePlayer_alive_iff_no_fire_witness :
    (movePlayer room1BeforeFire 1 0).1 = true ∧
      (movePlayer room1BeforeFire 1 0).2.player.isAlive = false :=
  ⟨by decide,
    (movePlayer_alive_iff_no_fire room1BeforeFire 1 0 (by decide)).1 (Or.inl (by decide))⟩

/-! ## Grid reads and writes -/

theorem currentRoom_rooms_set (m : GameModel) (r : Room)
    (h : m.currentRoomIndex < m.rooms.length) :
    currentRoom { m with rooms := m.rooms.set m.currentRoomIndex r } = r := by
  simp [currentRoom, roomAt, List.getD_eq_getElem?_getD, h]

theorem getEntityAt_ne_blank_index (m : GameModel) (column row : Nat)
    (h : getEntityAt m column row ≠ ' ') :
    column < 16 ∧ row < 2 ∧ m.currentRoomIndex < m.rooms.length ∧
      getEntityAt m column row = cellAt m column row := by
  unfold getEntityAt at h ⊢
  by_cases hb : column ≥ 16 ∨ row ≥ 2
  · simp [hb] at h
  · rw [if_neg hb] at h
    rw [if_neg hb]
    push_neg at hb
    refine ⟨hb.1, hb.2, ?_, rfl⟩
    by_contra hlen
    apply h
    have : currentRoom m = Room.blank := by
      simp [currentRoom, roomAt, List.getD_eq_getElem?_getD]
      rw [List.getElem?_eq_none (by omega)]
      rfl
    simp [cellAt, rowData, this, Room.blank]

theorem list_getD_set_self (l : List Char) (i : Nat) (c d : Char) (h : i < l.length) :
    (l.set i c).getD i d = c := by
  simp [List.getD_eq_getElem?_getD, h]

theorem list_getD_set_cases (l : List Char) (i j : Nat) (c d : Char) :
    (l.set i c).getD j d = l.getD j d ∨ (l.set i c).getD j d = c := by
  by_cases hij : i = j
  · subst hij
    by_cases h : i < l.length
    · right; exact list_getD_set_self l i c d h
    · left; rw [List.set_eq_of_length_le (by omega)]
  · left
    simp [List.getD_eq_getElem?_getD, List.getElem?_set_ne hij]

theorem list_length_of_getD_ne (l : List Char) (i : Nat) (d : Char) (h : l.getD i d ≠ d) :
    i < l.length := by
  by_contra hlen
  apply h
  simp [List.getD_eq_getElem?_getD, List.getElem?_eq_none (not_lt.mp hlen)]

/-- What `collectCupAt` does on a cup cell. -/
theorem collectCupAt_cup (m : GameModel) (column row : Nat)
    (hcup : getEntityAt m column row = '3') :
    (collectCupAt m column row).2.score = (m.score + POINTS_PER_CUP) % UINT_RANGE ∧
    (currentRoom (collectCupAt m column row).2).cupsCollected =
      ((currentRoom m).cupsCollected + 1) % BYTE_RANGE ∧
    (currentRoom (collectCupAt m column row).2).cupsInRoom = (currentRoom m).cupsInRoom ∧
    getEntityAt (collectCupAt m column row).2 column row = ' ' := by
  obtain ⟨hc, hr, hidx, hcell⟩ := getEntityAt_ne_blank_index m column row (by rw [hcup]; decide)
  rw [hcup] at hcell
  have hb : ¬ (column ≥ 16 ∨ row ≥ 2) := by omega
  have hlen : column < (rowData m row).length :=
    list_length_of_getD_ne _ _ ' ' (by unfold cellAt at hcell; rw [← hcell]; decide)
  unfold collectCupAt
  rw [if_neg hb, if_pos hcell.symm]
  unfold rowData at hlen
  by_cases hrow : row = 0
  · simp only [hrow, if_true] at hlen
    have hlen1 : column < m.rooms[m.currentRoomIndex].topRow.length := by
      simpa [currentRoom, roomAt, List.getD_eq_getElem?_getD, hidx] using hlen
    simp [setCell, addScore, currentRoom, roomAt, hidx, getEntityAt, cellAt, rowData, hrow, hc,
      List.getD_eq_getElem?_getD, hlen1]
  · simp only [hrow, if_false] at hlen
    have hlen1 : column < m.rooms[m.currentRoomIndex].bottomRow.length := by
      simpa [currentRoom, roomAt, List.getD_eq_getElem?_getD, hidx] using hlen
    simp [setCell, addScore, currentRoom, roomAt, hidx, getEntityAt, cellAt, rowData, hrow, hc, hr,
      List.getD_eq_getElem?_getD, hlen1]

theorem collectCupAt_currentRoomIndex (m : GameModel) (column row : Nat) :
    (collectCupAt m column row).2.currentRoomIndex = m.currentRoomIndex := by
  unfold collectCupAt
  split
  · rfl
  · split
    · rfl
    · rfl

/-- The only cell write of `collectCupAt` stores a blank. -/
theorem collectCupAt_cells (m : GameModel) (column row c r : Nat) :
    getEntityAt (collectCupAt m column row).2 c r = getEntityAt m c r ∨
      getEntityAt (collectCupAt m column row).2 c r = ' ' := by
  unfold collectCupAt
  split
  · left; rfl
  · split
    · by_cases hb : c ≥ 16 ∨ r ≥ 2
      · left; simp [getEntityAt, hb]
      · have hc16 : ¬ 16 ≤ c := fun hx => hb (Or.inl hx)
        have hc16lt : c < 16 := by omega
        have hr2 : ¬ 2 ≤ r := fun hx => hb (Or.inr hx)
        by_cases hidx : m.currentRoomIndex < m.rooms.length
        · by_cases hrow : row = 0
          · by_cases hr0 : r = 0
            · have := list_getD_set_cases (m.rooms[m.currentRoomIndex].topRow) column c ' ' ' '
              simpa [setCell, addScore, currentRoom, roomAt, hidx, getEntityAt, cellAt, rowData,
                hrow, hr0, hc16, hc16lt, hr2, List.getD_eq_getElem?_getD] using this
            · left
              simp [setCell, addScore, currentRoom, roomAt, hidx, getEntityAt, cellAt, rowData,
                hrow, hr0, hc16, hc16lt, hr2, List.getD_eq_getElem?_getD]
          · by_cases hr0 : r = 0
            · left
              simp [setCell, addScore, currentRoom, roomAt, hidx, getEntityAt, cellAt, rowData,
                hrow, hr0, hc16, hc16lt, hr2, List.getD_eq_getElem?_getD]
            · have := list_getD_set_cases (m.rooms[m.currentRoomIndex].bottomRow) column c ' ' ' '
              simpa [setCell, addScore, currentRoom, roomAt, hidx, getEntityAt, cellAt, rowData,
                hrow, hr0, hc16, hc16lt, hr2, List.getD_eq_getElem?_getD] using this
        · left
          have hle : m.rooms.length ≤ m.currentRoomIndex := not_lt.mp hidx
          simp [setCell, addScore, currentRoom, roomAt, getEntityAt, cellAt, rowData,
            List.set_eq_of_length_le hle]
    · left; rfl

theorem moveTo_currentRoomIndex (m : GameModel) (column row : Nat) :
    (moveTo m column row).currentRoomIndex = m.currentRoomIndex := by
  unfold moveTo
  dsimp only
  split
  · rw [collectCupAt_currentRoomIndex]; split <;> rfl
  · split <;> rfl

theorem moveTo_cells (m : GameModel) (column row c r : Nat) :
    getEntityAt (moveTo m column row) c r = getEntityAt m c r ∨
      getEntityAt (moveTo m column row) c r = ' ' := by
  unfold moveTo
  dsimp only
  split
  · split
    · exact collectCupAt_cells (killPlayer _) column row c r
    · exact collectCupAt_cells _ column row c r
  · left; split <;> rfl

/-- An accepted move onto a cell without a cup changes neither the rooms nor the score. -/
theorem moveTo_no_cup (m : GameModel) (column row : Nat) (h : getEntityAt m column row ≠ '3') :
    (moveTo m column row).rooms = m.rooms ∧ (moveTo m column row).score = m.score := by
  unfold moveTo
  dsimp only
  rw [if_neg h]
  split <;> exact ⟨rfl, rfl⟩

/-- An accepted move onto a cup cell collects the cup. -/
theorem moveTo_cup (m : GameModel) (column row : Nat) (h : getEntityAt m column row = '3') :
    (moveTo m column row).score = (m.score + POINTS_PER_CUP) % UINT_RANGE ∧
    (currentRoom (moveTo m column row)).cupsCollected =
      ((currentRoom m).cupsCollected + 1) % BYTE_RANGE ∧
    (currentRoom (moveTo m column row)).cupsInRoom = (currentRoom m).cupsInRoom ∧
    getEntityAt (moveTo m column row) column row = ' ' := by
  have hfire : checkFireAt { m with player := { m.player with column := column, row := row } }
      column row = false := by
    have : checkFireAt { m with player := { m.player with column := column, row := row } }
      column row = checkFireAt m column row := rfl
    rw [this, checkFireAt_eq_entity, h]; decide
  unfold moveTo
  dsimp only
  rw [if_pos h, hfire]
  exact collectCupAt_cup { m with player := { m.player with column := column, row := row } }
    column row h

theorem movePlayer_currentRoomIndex (m : GameModel) (dc dr : Int) :
    (movePlayer m dc dr).2.currentRoomIndex = m.currentRoomIndex := by
  by_cases h : MoveRejected m dc dr
  · rw [movePlayer_rejected m dc dr h]
  · rw [movePlayer_accepted m dc dr h]; exact moveTo_currentRoomIndex _ _ _

theorem movePlayer_cells (m : GameModel) (dc dr : Int) (c r : Nat) :
    getEntityAt (movePlayer m dc dr).2 c r = getEntityAt m c r ∨
      getEntityAt (movePlayer m dc dr).2 c r = ' ' := by
  by_cases h : MoveRejected m dc dr
  · rw [movePlayer_rejected m dc dr h]; left; rfl
  · rw [movePlayer_accepted m dc dr h]; exact moveTo_cells _ _ _ _ _

/-- No sequence of moves puts a cup on a cell that holds none. -/
theorem movePlayerSeq_no_new_cup (moves : List (Int × Int)) (m : GameModel) (c r : Nat)
    (h : getEntityAt m c r ≠ '3') : getEntityAt (movePlayerSeq m moves) c r ≠ '3' := by
  induction moves generalizing m with
  | nil => exact h
  | cons d ds ih =>
    have hstep : getEntityAt (movePlayer m d.1 d.2).2 c r ≠ '3' := by
      rcases movePlayer_cells m d.1 d.2 c r with h1 | h1
      · rw [h1]; exact h
      · rw [h1]; decide
    exact ih (movePlayer m d.1 d.2).2 hstep

/-! ## Cup counting -/

theorem cupsInRow_set_blank_le (l : List Char) (i : Nat) :
    cupsInRow (l.set i ' ') ≤ cupsInRow l := by
  unfold cupsInRow
  rw [List.set_take]
  by_cases h : i < (l.take 16).length
  · rw [List.count_set _ _ _ _ h]
    have : ((' ' : Char) == '3') = false := by decide
    simp [this]
  · rw [List.set_eq_of_length_le (not_lt.mp h)]

theorem cupsInRow_set_cup (l : List Char) (i : Nat) (hi : i < 16) (h : l.getD i ' ' = '3') :
    cupsInRow (l.set i ' ') + 1 = cupsInRow l := by
  have hlen : i < l.length := list_length_of_getD_ne l i ' ' (by rw [h]; decide)
  have hlen16 : i < (l.take 16).length := by
    rw [List.length_take]; omega
  have hget : (l.take 16)[i] = '3' := by
    rw [List.getElem_take]
    simpa [List.getD_eq_getElem?_getD, hlen] using h
  have hmem : '3' ∈ l.take 16 := by
    rw [← hget]; exact List.getElem_mem _
  have hpos : 0 < (l.take 16).count '3' := List.count_pos_iff.mpr hmem
  unfold cupsInRow
  rw [List.set_take, List.count_set _ _ _ _ hlen16, hget]
  have : ((' ' : Char) == '3') = false := by decide
  simp [this]
  omega

/-! ## The room-world invariant -/

theorem WorldOK_of_same_rooms (m m1 : GameModel) (hr : m1.rooms = m.rooms)
    (hi : m1.currentRoomIndex = m.currentRoomIndex) (h : WorldOK m) : WorldOK m1 := by
  unfold WorldOK at h ⊢
  rw [hr, hi]; exact h

theorem currentRoom_mem (m : GameModel) (h : m.currentRoomIndex < m.rooms.length) :
    currentRoom m ∈ m.rooms := by
  unfold currentRoom roomAt
  rw [List.getD_eq_getElem?_getD, List.getElem?_eq_getElem h]
  exact List.getElem_mem _

/-- Replacing the current room by a room that satisfies the counter invariant. -/
theorem WorldOK_set_current (m : GameModel) (r : Room) (h : WorldOK m) (hr : RoomOK r) :
    WorldOK { m with rooms := m.rooms.set m.currentRoomIndex r } := by
  obtain ⟨hlen, hidx, hall⟩ := h
  refine ⟨by simp [hlen], hidx, ?_⟩
  intro x hx
  rcases List.mem_or_eq_of_mem_set hx with hx | hx
  · exact hall x hx
  · rw [hx]; exact hr

theorem WorldOK_currentRoom (m : GameModel) (h : WorldOK m) : RoomOK (currentRoom m) :=
  h.2.2 _ (currentRoom_mem m (by rw [h.1]; exact h.2.1))

theorem resetScan_WorldOK (fuel : Nat) (m : GameModel) (col : Nat) (h : WorldOK m) :
    WorldOK (resetScan m fuel col).1 := by
  induction fuel generalizing col with
  | zero => exact h
  | succ n ih =>
    have hcur := WorldOK_currentRoom m h
    unfold resetScan
    split
    · apply WorldOK_set_current { m with player := { m.player with column := col, row := 0 } }
        _ h
      refine ⟨?_, hcur.2⟩
      have := cupsInRow_set_blank_le (currentRoom m).topRow col
      have h1 := hcur.1
      unfold cupsLeft at h1 ⊢
      show (currentRoom m).cupsCollected + (cupsInRow ((currentRoom m).topRow.set col ' ') +
        cupsInRow (currentRoom m).bottomRow) ≤ (currentRoom m).cupsInRoom
      omega
    · split
      · apply WorldOK_set_current { m with player := { m.player with column := col, row := 1 } }
          _ h
        refine ⟨?_, hcur.2⟩
        have := cupsInRow_set_blank_le (currentRoom m).bottomRow col
        have h1 := hcur.1
        unfold cupsLeft at h1 ⊢
        show (currentRoom m).cupsCollected + (cupsInRow (currentRoom m).topRow +
          cupsInRow ((currentRoom m).bottomRow.set col ' ')) ≤ (currentRoom m).cupsInRoom
        omega
      · exact ih (col + 1)

theorem resetPlayerToRoomStart_WorldOK (m : GameModel) (h : WorldOK m) :
    WorldOK (resetPlayerToRoomStart m) := by
  have h1 := resetScan_WorldOK 16 m 0 h
  unfold resetPlayerToRoomStart
  apply WorldOK_of_same_rooms (resetScan m 16 0).1 _ _ _ h1
  · dsimp only; split <;> rfl
  · dsimp only; split <;> rfl

theorem list_length_six {α : Type} (l : List α) (h : l.length = 6) :
    ∃ a b c d e f, l = [a, b, c, d, e, f] := by
  match l, h with
  | [a, b, c, d, e, f], _ => exact ⟨a, b, c, d, e, f, rfl⟩

theorem clearCollected_eq_map (rooms : List Room) (h : rooms.length = 6) :
    clearCollected rooms = rooms.map (fun r => { r with cupsCollected := 0 }) := by
  obtain ⟨a, b, c, d, e, f, rfl⟩ := list_length_six rooms h
  simp [clearCollected, TOTAL_ROOMS, List.range_succ]

theorem startRoomTimer_WorldOK (m : GameModel) (now : Nat) (h : WorldOK m) :
    WorldOK (startRoomTimer m now) := WorldOK_of_same_rooms m _ rfl rfl h

theorem startNewGame_WorldOK (m : GameModel) (now : Nat) (h : WorldOK m) :
    WorldOK (startNewGame m now) := by
  unfold startNewGame
  dsimp only
  apply startRoomTimer_WorldOK
  apply resetPlayerToRoomStart_WorldOK
  obtain ⟨hlen, _, hall⟩ := h
  refine ⟨?_, (by show (0 : Nat) < 6; omega), ?_⟩
  · show (clearCollected m.rooms).length = 6
    rw [clearCollected_eq_map _ hlen]; simp [hlen]
  · show ∀ r ∈ clearCollected m.rooms, RoomOK r
    rw [clearCollected_eq_map _ hlen]
    intro r hr
    obtain ⟨r0, hr0, rfl⟩ := List.mem_map.mp hr
    have := hall r0 hr0
    unfold RoomOK cupsLeft at this ⊢
    dsimp only
    omega

theorem collectCupAt_WorldOK (m : GameModel) (column row : Nat) (h : WorldOK m) :
    WorldOK (collectCupAt m column row).2 := by
  have hcur := WorldOK_currentRoom m h
  have hidx : m.currentRoomIndex < m.rooms.length := by rw [h.1]; exact h.2.1
  unfold collectCupAt
  split
  · exact h
  · rename_i hb
    split
    · rename_i hcell
      have hc16 : column < 16 := by omega
      have hrooms : ∀ r : Room, RoomOK r →
          WorldOK (addScore { m with rooms := m.rooms.set m.currentRoomIndex r } POINTS_PER_CUP) :=
        fun r hr => WorldOK_of_same_rooms _ _ rfl rfl (WorldOK_set_current m r h hr)
      unfold cellAt rowData at hcell
      by_cases hrow : row = 0
      · rw [if_pos hrow] at hcell
        have hcnt := cupsInRow_set_cup _ _ hc16 hcell
        have hgoal := hrooms { currentRoom m with
          topRow := (currentRoom m).topRow.set column ' '
          cupsCollected := ((currentRoom m).cupsCollected + 1) % BYTE_RANGE } (by
            unfold RoomOK cupsLeft at hcur ⊢
            unfold BYTE_RANGE
            dsimp only
            omega)
        simpa [setCell, hrow, currentRoom, roomAt, hidx, List.getD_eq_getElem?_getD] using hgoal
      · rw [if_neg hrow] at hcell
        have hcnt := cupsInRow_set_cup _ _ hc16 hcell
        have hgoal := hrooms { currentRoom m with
          bottomRow := (currentRoom m).bottomRow.set column ' '
          cupsCollected := ((currentRoom m).cupsCollected + 1) % BYTE_RANGE } (by
            unfold RoomOK cupsLeft at hcur ⊢
            unfold BYTE_RANGE
            dsimp only
            omega)
        simpa [setCell, hrow, currentRoom, roomAt, hidx, List.getD_eq_getElem?_getD] using hgoal
    · exact h

theorem movePlayer_WorldOK (m : GameModel) (dc dr : Int) (h : WorldOK m) :
    WorldOK (movePlayer m dc dr).2 := by
  by_cases hrej : MoveRejected m dc dr
  · rw [movePlayer_rejected m dc dr hrej]; exact h
  · rw [movePlayer_accepted m dc dr hrej]
    unfold moveTo
    dsimp only
    have h1 : ∀ p : Player, WorldOK { m with player := p } :=
      fun p => WorldOK_of_same_rooms m _ rfl rfl h
    have h2 : ∀ p : Player, WorldOK (killPlayer { m with player := p }) :=
      fun p => WorldOK_of_same_rooms m _ rfl rfl h
    split
    · split
      · exact collectCupAt_WorldOK _ _ _ (h2 _)
      · exact collectCupAt_WorldOK _ _ _ (h1 _)
    · split
      · exact h2 _
      · exact h1 _

theorem advanceToNextRoom_WorldOK (m : GameModel) (now later : Nat) (h : WorldOK m) :
    WorldOK (advanceToNextRoom m now later) := by
  unfold advanceToNextRoom
  split
  · rename_i hlt
    dsimp only
    apply startRoomTimer_WorldOK
    apply resetPlayerToRoomStart_WorldOK
    refine ⟨h.1, ?_, h.2.2⟩
    show (m.currentRoomIndex + 1) % BYTE_RANGE < 6
    unfold TOTAL_ROOMS at hlt
    unfold BYTE_RANGE
    omega
  · exact WorldOK_of_same_rooms m _ rfl rfl h

theorem loadHighscoresFromEEPROM_rooms (m : GameModel) (e : EEPROM) (a : Int) :
    (loadHighscoresFromEEPROM m e a).1.rooms = m.rooms ∧
      (loadHighscoresFromEEPROM m e a).1.currentRoomIndex = m.currentRoomIndex := by
  unfold loadHighscoresFromEEPROM
  dsimp only
  split <;> exact ⟨rfl, rfl⟩

set_option maxRecDepth 100000 in
theorem init_WorldOK : WorldOK GameModel.init := by
  refine ⟨by decide!, by decide!, ?_⟩
  have : ∀ r ∈ GameModel.init.rooms, r.cupsCollected + cupsLeft r ≤ r.cupsInRoom ∧ r.cupsInRoom ≤ 32 := by
    decide!
  exact this

theorem applyOp_WorldOK (m : GameModel) (op : Op) (h : WorldOK m) : WorldOK (applyOp m op) := by
  cases op with
  | setState s => exact WorldOK_of_same_rooms m _ rfl rfl h
  | selectNextMenuOption => exact WorldOK_of_same_rooms m _ rfl rfl h
  | selectPreviousMenuOption =>
    show WorldOK (selectPreviousMenuOption m)
    unfold selectPreviousMenuOption
    split <;> exact WorldOK_of_same_rooms m _ rfl rfl h
  | confirmMenuSelection now =>
    show WorldOK (confirmMenuSelection m now)
    unfold confirmMenuSelection
    split
    · exact startNewGame_WorldOK m now h
    · exact h
  | startNewGame now => exact startNewGame_WorldOK m now h
  | resetGame => exact ⟨h.1, (by show (0 : Nat) < 6; omega), h.2.2⟩
  | movePlayer dc dr => exact movePlayer_WorldOK m dc dr h
  | killPlayer => exact WorldOK_of_same_rooms m _ rfl rfl h
  | respawnPlayer => exact resetPlayerToRoomStart_WorldOK m h
  | advanceToNextRoom now later => exact advanceToNextRoom_WorldOK m now later h
  | collectCupAt c r => exact collectCupAt_WorldOK m c r h
  | addScore p => exact WorldOK_of_same_rooms m _ rfl rfl h
  | calculateRoomClearBonus now => exact WorldOK_of_same_rooms m _ rfl rfl h
  | startRoomTimer now => exact WorldOK_of_same_rooms m _ rfl rfl h
  | addHighscore s => exact WorldOK_of_same_rooms m _ rfl rfl h
  | loadHighscoresFromEEPROM e a =>
    exact WorldOK_of_same_rooms m _ (loadHighscoresFromEEPROM_rooms m e a).1
      (loadHighscoresFromEEPROM_rooms m e a).2 h
  | resetHighscores => exact WorldOK_of_same_rooms m _ rfl rfl h
  | setVictory => exact WorldOK_of_same_rooms m _ rfl rfl h
  | setGameOver => exact WorldOK_of_same_rooms m _ rfl rfl h

theorem runOps_WorldOK (ops : List Op) (m : GameModel) (h : WorldOK m) :
    WorldOK (runOps m ops) := by
  induction ops generalizing m with
  | nil => exact h
  | cons op rest ih => exact ih (applyOp m op) (applyOp_WorldOK m op h)

theorem Reachable.worldOK {m : GameModel} (h : Reachable m) : WorldOK m := by
  obtain ⟨ops, rfl⟩ := h
  exact runOps_WorldOK ops _ init_WorldOK

/-! ## C5 -/

/-- C5. In every model state reachable from construction through the public
operations, `isCurrentRoomCleared` is `true` iff the current room's
`cupsCollected` equals its `cupsInRoom`, it is `false` whenever `cupsCollected`
is smaller, and `cupsCollected` never exceeds `cupsInRoom`. -/
theorem isCurrentRoomCleared_iff_all_collected (m : GameModel) (h : Reachable m) :
    (isCurrentRoomCleared m = true ↔
      (currentRoom m).cupsCollected = (currentRoom m).cupsInRoom) ∧
    ((currentRoom m).cupsCollected < (currentRoom m).cupsInRoom →
      isCurrentRoomCleared m = false) ∧
    (currentRoom m).cupsCollected ≤ (currentRoom m).cupsInRoom := by
  have hle : (currentRoom m).cupsCollected ≤ (currentRoom m).cupsInRoom := by
    have := (WorldOK_currentRoom m h.worldOK).1
    omega
  unfold isCurrentRoomCleared
  refine ⟨?_, ?_, hle⟩
  · rw [decide_eq_true_iff]
    constructor
    · intro hge; omega
    · intro heq; omega
  · intro hlt
    rw [decide_eq_false_iff_not]
    omega

set_option maxRecDepth 100000 in
/-- Witness for C5: room 0 of a new game after both of its cups were collected. -/
theorem isCurrentRoomCleared_iff_all_collected_witness :
    Reachable room0Cleared ∧
    (isCurrentRoomCleared room0Cleared = true ↔
      (currentRoom room0Cleared).cupsCollected = (currentRoom room0Cleared).cupsInRoom) :=
  have hreach : Reachable room0Cleared :=
    ⟨[Op.startNewGame 0] ++ List.replicate 8 (Op.movePlayer 1 0) ++ [Op.movePlayer 0 (-1)] ++
      List.replicate 5 (Op.movePlayer (-1) 0) ++ List.replicate 12 (Op.movePlayer 1 0),
      by decide!⟩
  ⟨hreach, (isCurrentRoomCleared_iff_all_collected room0Cleared hreach).1⟩

/-! ## C6 -/

set_option maxRecDepth 100000 in
/-- C6, the claim as stated fails at both ends. Room 0 is cleared with score 20
and the room timer started at 0. With the clock at 60000 ms (60 whole seconds)
the bonus computed is 65526 and the score becomes 10, not 20 + max(1, 50 - 60) = 21.
With the clock at 500 ms (0 whole seconds) the score becomes 69, not
20 + max(1, 50 - 0) = 70. -/
theorem calculateRoomClearBonus_not_max :
    room0Cleared.score = 20 ∧ room0Cleared.roomStartTime = 0 ∧
    elapsedSeconds room0Cleared 60000 = 60 ∧
    roomClearBonus 60 = 65526 ∧
    (calculateRoomClearBonus room0Cleared 60000).score = 10 ∧
    (calculateRoomClearBonus room0Cleared 60000).score ≠ room0Cleared.score + max 1 (50 - 60) ∧
    elapsedSeconds room0Cleared 500 = 0 ∧
    (calculateRoomClearBonus room0Cleared 500).score = 69 ∧
    (calculateRoomClearBonus room0Cleared 500).score ≠ room0Cleared.score + max 1 (50 - 0) := by
  refine ⟨by decide!, by decide!, by decide!, by decide!, by decide!, by decide!, by decide!,
    by decide!, by decide!⟩

theorem roomClearBonus_within_base (e : Nat) (he : e ≤ 50) :
    roomClearBonus e = max 1 (50 - max 1 e) := by
  unfold roomClearBonus ulongSub BASE_ROOM_CLEAR_POINTS ULONG_RANGE UINT_RANGE
  dsimp only
  split <;> split <;> omega

/-- C6, amended. When at most 50 whole seconds `e` have elapsed since the room
timer started, `calculateRoomClearBonus` adds to the 16-bit score exactly
`max(1, 50 - max(1, e))`: the new score is the old one plus that bonus modulo
65536, hence exactly the sum when the old score is at most 65486; the bonus
is 40 for `e = 10`, 49 for `e = 0`, and always between 1 and 49. -/
theorem calculateRoomClearBonus_within_base (m : GameModel) (now : Nat)
    (he : elapsedSeconds m now ≤ 50) :
    (calculateRoomClearBonus m now).score =
      (m.score + max 1 (50 - max 1 (elapsedSeconds m now))) % 65536 ∧
    (m.score ≤ 65486 →
      (calculateRoomClearBonus m now).score =
        m.score + max 1 (50 - max 1 (elapsedSeconds m now))) ∧
    (elapsedSeconds m now = 10 → (calculateRoomClearBonus m now).score = (m.score + 40) % 65536) ∧
    (elapsedSeconds m now = 0 → (calculateRoomClearBonus m now).score = (m.score + 49) % 65536) ∧
    1 ≤ max 1 (50 - max 1 (elapsedSeconds m now)) ∧
    max 1 (50 - max 1 (elapsedSeconds m now)) ≤ 49 := by
  have hb := roomClearBonus_within_base (elapsedSeconds m now) he
  have hs : (calculateRoomClearBonus m now).score =
      (m.score + roomClearBonus (elapsedSeconds m now)) % 65536 := rfl
  rw [hs, hb]
  refine ⟨rfl, ?_, ?_, ?_, ?_, ?_⟩
  · intro hle
    omega
  · intro h10
    rw [h10]; rfl
  · intro h0
    rw [h0]; rfl
  · omega
  · omega

set_option maxRecDepth 100000 in
/-- Witness for C6: room 0 cleared with score 20, bonus taken 10 seconds after
the room timer started; the score becomes 60. -/
theorem calculateRoomClearBonus_within_base_witness :
    elapsedSeconds room0Cleared 10000 ≤ 50 ∧
    (calculateRoomClearBonus room0Cleared 10000).score =
      (room0Cleared.score + max 1 (50 - max 1 (elapsedSeconds room0Cleared 10000))) % 65536 :=
  ⟨by decide!, (calculateRoomClearBonus_within_base room0Cleared 10000 (by decide!)).1⟩

/-! ## High-score insertion -/

/-- `insertHighscore` on a table of three entries, case by case. -/
theorem insertHighscore_three (a b c s : Nat) :
    insertHighscore [a, b, c] s =
      if s > a then [s, a, b]
      else if s = a then [a, b, c]
      else if s > b then [a, s, b]
      else if s = b then [a, b, c]
      else if s > c then [a, b, s]
      else [a, b, c] := by
  unfold insertHighscore HIGHSCORE_COUNT
  by_cases h1 : s > a
  · simp [findInsertPosition, shiftDown, h1]
  · by_cases h2 : s = a
    · simp [findInsertPosition, shiftDown, h2]
    · by_cases h3 : s > b
      · simp [findInsertPosition, shiftDown, h1, h2, h3]
      · by_cases h4 : s = b
        · subst h4
          simp [findInsertPosition, shiftDown, h1, h2]
        · by_cases h5 : s > c
          · simp [findInsertPosition, shiftDown, h1, h2, h3, h4, h5]
          · by_cases h6 : s = c
            · subst h6
              simp [findInsertPosition, shiftDown, h1, h2, h3, h4]
            · simp [findInsertPosition, shiftDown, h1, h2, h3, h4, h5, h6]

/-- The shape kept by the table: three entries, each non-zero entry strictly
below every entry before it. -/
theorem table_shape_insert (t : List Nat) (s : Nat)
    (h : t.length = 3 ∧ t.Pairwise (fun x y => y ≠ 0 → y < x)) :
    (insertHighscore t s).length = 3 ∧
      (insertHighscore t s).Pairwise (fun x y => y ≠ 0 → y < x) := by
  obtain ⟨hlen, hp⟩ := h
  match t, hlen with
  | [a, b, c], _ =>
    simp only [List.pairwise_cons, List.mem_cons, List.mem_singleton, List.not_mem_nil,
      forall_eq_or_imp, forall_eq, List.Pairwise.nil, and_true, IsEmpty.forall_iff,
      implies_true] at hp
    obtain ⟨⟨hab, hac⟩, hbc⟩ := hp
    rw [insertHighscore_three]
    split_ifs with h1 h2 h3 h4 h5
    all_goals
      simp only [List.pairwise_cons, List.mem_cons, List.mem_singleton, List.not_mem_nil,
        forall_eq_or_imp, forall_eq, List.Pairwise.nil, and_true, IsEmpty.forall_iff,
        implies_true, List.length_cons, List.length_nil, true_and]
      refine ⟨⟨?_, ?_⟩, ?_⟩ <;> intro hne <;> omega

/-- Adding a score that the table already holds changes nothing. -/
theorem insertHighscore_mem (t : List Nat) (s : Nat)
    (h : t.length = 3 ∧ t.Pairwise (fun x y => y ≠ 0 → y < x)) (hs : s ∈ t) :
    insertHighscore t s = t := by
  obtain ⟨hlen, hp⟩ := h
  match t, hlen with
  | [a, b, c], _ =>
    simp only [List.pairwise_cons, List.mem_cons, List.mem_singleton, List.not_mem_nil,
      forall_eq_or_imp, forall_eq, List.Pairwise.nil, and_true, IsEmpty.forall_iff,
      implies_true] at hp
    obtain ⟨⟨hab, hac⟩, hbc⟩ := hp
    simp only [List.mem_cons, List.mem_singleton, List.not_mem_nil, or_false] at hs
    rw [insertHighscore_three]
    split_ifs with h1 h2 h3 h4 h5
    · exfalso; omega
    · rfl
    · exfalso; omega
    · rfl
    · exfalso; omega
    · rfl

theorem addHighscore_foldl_shape (scores : List Nat) (m : GameModel)
    (h : m.highscores.length = 3 ∧ m.highscores.Pairwise (fun x y => y ≠ 0 → y < x)) :
    (scores.foldl addHighscore m).highscores.length = 3 ∧
      (scores.foldl addHighscore m).highscores.Pairwise (fun x y => y ≠ 0 → y < x) := by
  induction scores generalizing m with
  | nil => exact h
  | cons s rest ih => exact ih (addHighscore m s) (table_shape_insert m.highscores s h)

theorem addHighscore_eq_self (m : GameModel) (s : Nat)
    (h : insertHighscore m.highscores s = m.highscores) : addHighscore m s = m := by
  cases m
  simp only [addHighscore] at h ⊢
  rw [h]

/-! ## C7 -/

/-- C7. Starting from the all-zero table, after any sequence of `addHighscore`
calls the table has exactly 3 entries, every non-zero entry is strictly below
all entries before it (so the non-zero entries are strictly descending and
zeros stand only at the tail), and `addHighscore` with a score equal to an
existing entry leaves the model unchanged; adding 100 twice to the empty table
yields `[100, 0, 0]`. -/
theorem addHighscore_table_strictly_descending (m0 : GameModel) (scores : List Nat)
    (h0 : m0.highscores = [0, 0, 0]) :
    (scores.foldl addHighscore m0).highscores.length = 3 ∧
    (scores.foldl addHighscore m0).highscores.Pairwise (fun x y => y ≠ 0 → y < x) ∧
    (scores.foldl addHighscore m0).highscores.Pairwise (fun x y => x = 0 → y = 0) ∧
    (∀ s ∈ (scores.foldl addHighscore m0).highscores,
      addHighscore (scores.foldl addHighscore m0) s = scores.foldl addHighscore m0) ∧
    (addHighscore (addHighscore m0 100) 100).highscores = [100, 0, 0] := by
  have hshape := addHighscore_foldl_shape scores m0 (by rw [h0]; decide)
  refine ⟨hshape.1, hshape.2, ?_, ?_, ?_⟩
  · refine hshape.2.imp ?_
    intro x y hxy hx
    by_contra hy
    have := hxy hy
    omega
  · intro s hs
    exact addHighscore_eq_self _ s (insertHighscore_mem _ s hshape hs)
  · show insertHighscore (insertHighscore m0.highscores 100) 100 = [100, 0, 0]
    rw [h0]
    decide

/-- Witness for C7: the constructed model, to which 100 is added twice. -/
theorem addHighscore_table_strictly_descending_witness :
    GameModel.init.highscores = [0, 0, 0] ∧
    ([100, 100].foldl addHighscore GameModel.init).highscores.length = 3 ∧
    (addHighscore (addHighscore GameModel.init 100) 100).highscores = [100, 0, 0] :=
  ⟨rfl,
    (addHighscore_table_strictly_descending GameModel.init [100, 100] rfl).1,
    (addHighscore_table_strictly_descending GameModel.init [100, 100] rfl).2.2.2.2⟩

/-! ## Checksum and storage -/

theorem calculateChecksum_three (a b c : Nat) :
    calculateChecksum [a, b, c] =
      (((((0 ^^^ (a &&& 0xFF)) ^^^ ((a >>> 8) &&& 0xFF)) ^^^ (b &&& 0xFF)) ^^^
        ((b >>> 8) &&& 0xFF)) ^^^ (c &&& 0xFF)) ^^^ ((c >>> 8) &&& 0xFF) := by
  simp [calculateChecksum, HIGHSCORE_COUNT, List.range_succ]

theorem and_byte_lt (x : Nat) : x &&& 0xFF < 2 ^ 8 :=
  Nat.and_lt_two_pow x (by decide)

theorem calculateChecksum_three_lt (a b c : Nat) : calculateChecksum [a, b, c] < 256 := by
  rw [calculateChecksum_three]
  have h0 : (0 : Nat) < 2 ^ 8 := by decide
  exact Nat.xor_lt_two_pow (Nat.xor_lt_two_pow (Nat.xor_lt_two_pow (Nat.xor_lt_two_pow
    (Nat.xor_lt_two_pow (Nat.xor_lt_two_pow h0 (and_byte_lt _)) (and_byte_lt _))
    (and_byte_lt _)) (and_byte_lt _)) (and_byte_lt _)) (and_byte_lt _)

theorem readByte_writeByte (e : EEPROM) (a x : Int) (b : Nat) :
    (e.writeByte a b).readByte x = if x = a then b % 256 else e.readByte x := by
  unfold EEPROM.writeByte EEPROM.readByte
  by_cases h : x = a
  · simp [h]
  · simp [h]

/-- A record of three 16-bit scores and an 8-bit checksum is read back as written. -/
theorem get_put (e : EEPROM) (address : Int) (a b c k : Nat)
    (ha : a < 65536) (hb : b < 65536) (hc : c < 65536) (hk : k < 256) :
    (e.put address { scores := [a, b, c], checksum := k }).get address =
      { scores := [a, b, c], checksum := k } := by
  have n1 : address + 1 ≠ address := by omega
  unfold EEPROM.put EEPROM.get
  simp only [readByte_writeByte, List.getD_cons_zero, List.getD_cons_succ]
  have e1 : ∀ i j : Int, i ≠ j → (address + i = address + j) = False := by
    intro i j hij; simp [hij]
  have e0 : ∀ i : Int, i ≠ 0 → (address + i = address) = False := by
    intro i hi; simp [hi]
  have e0' : ∀ i : Int, i ≠ 0 → (address = address + i) = False := by
    intro i hi; simp [hi]
  simp only [e1 _ _ (by decide : (1 : Int) ≠ 2), e1 _ _ (by decide : (1 : Int) ≠ 3),
    e1 _ _ (by decide : (1 : Int) ≠ 4), e1 _ _ (by decide : (1 : Int) ≠ 5),
    e1 _ _ (by decide : (1 : Int) ≠ 6), e1 _ _ (by decide : (2 : Int) ≠ 3),
    e1 _ _ (by decide : (2 : Int) ≠ 4), e1 _ _ (by decide : (2 : Int) ≠ 5),
    e1 _ _ (by decide : (2 : Int) ≠ 6), e1 _ _ (by decide : (3 : Int) ≠ 4),
    e1 _ _ (by decide : (3 : Int) ≠ 5), e1 _ _ (by decide : (3 : Int) ≠ 6),
    e1 _ _ (by decide : (4 : Int) ≠ 5), e1 _ _ (by decide : (4 : Int) ≠ 6),
    e1 _ _ (by decide : (5 : Int) ≠ 6),
    e0' _ (by decide : (1 : Int) ≠ 0), e0' _ (by decide : (2 : Int) ≠ 0),
    e0' _ (by decide : (3 : Int) ≠ 0), e0' _ (by decide : (4 : Int) ≠ 0),
    e0' _ (by decide : (5 : Int) ≠ 0), e0' _ (by decide : (6 : Int) ≠ 0),
    if_true, if_false]
  have r1 : a % 256 % 256 + 256 * (a / 256 % 256) = a := by omega
  have r2 : b % 256 % 256 + 256 * (b / 256 % 256) = b := by omega
  have r3 : c % 256 % 256 + 256 * (c / 256 % 256) = c := by omega
  have r4 : k % 256 = k := by omega
  rw [r1, r2, r3, r4]

theorem list_length_three {α : Type} (l : List α) (h : l.length = 3) :
    ∃ a b c, l = [a, b, c] := by
  match l, h with
  | [a, b, c], _ => exact ⟨a, b, c, rfl⟩

theorem saveHighscores_three (m : GameModel) (e : EEPROM) (address : Int) (x y z : Nat)
    (h : m.highscores = [x, y, z]) :
    saveHighscoresToEEPROM m e address =
      e.put address { scores := [x, y, z], checksum := calculateChecksum [x, y, z] } := by
  unfold saveHighscoresToEEPROM
  simp [h, HIGHSCORE_COUNT, List.range_succ]

theorem resetHighscores_three (m : GameModel) (h : m.highscores.length = 3) :
    (resetHighscores m).highscores = [0, 0, 0] := by
  obtain ⟨x, y, z, hxyz⟩ := list_length_three _ h
  unfold resetHighscores
  simp [hxyz, HIGHSCORE_COUNT, List.range_succ]

/-- The valid branch of `loadHighscoresFromEEPROM`. -/
theorem load_valid (m : GameModel) (e : EEPROM) (address : Int) (a b c : Nat)
    (hlen : m.highscores.length = 3) (hs : (e.get address).scores = [a, b, c])
    (hv : calculateChecksum (e.get address).scores = (e.get address).checksum) :
    (loadHighscoresFromEEPROM m e address).1.highscores =
        [a, b, c].map (fun x => if x = 0xFFFF then 0 else x) ∧
      (loadHighscoresFromEEPROM m e address).2 = e := by
  obtain ⟨x, y, z, hxyz⟩ := list_length_three _ hlen
  unfold loadHighscoresFromEEPROM
  dsimp only
  rw [if_pos hv, hs, hxyz]
  refine ⟨?_, rfl⟩
  simp only [HIGHSCORE_COUNT, List.range_succ, List.range_zero, List.nil_append,
    List.cons_append, List.foldl_cons, List.foldl_nil, List.map_cons, List.map_nil]
  by_cases ha : a = 0xFFFF <;> by_cases hb : b = 0xFFFF <;> by_cases hc : c = 0xFFFF <;>
    simp [ha, hb, hc]

/-- The mismatch branch of `loadHighscoresFromEEPROM`. -/
theorem load_invalid (m : GameModel) (e : EEPROM) (address : Int)
    (hlen : m.highscores.length = 3)
    (hv : calculateChecksum (e.get address).scores ≠ (e.get address).checksum) :
    (loadHighscoresFromEEPROM m e address).1.highscores = [0, 0, 0] ∧
      (loadHighscoresFromEEPROM m e address).2 =
        e.put address { scores := [0, 0, 0], checksum := 0 } := by
  unfold loadHighscoresFromEEPROM
  dsimp only
  rw [if_neg hv]
  refine ⟨resetHighscores_three m hlen, ?_⟩
  show saveHighscoresToEEPROM (resetHighscores m) e address = _
  rw [saveHighscores_three _ e address 0 0 0 (resetHighscores_three m hlen)]
  rfl

/-! ## C8 -/

/-- C8. For every stored record whose checksum byte differs from the XOR of
the six score bytes, `loadHighscoresFromEEPROM` sets the table to `[0, 0, 0]`
and writes back, at the same address, the record with scores `[0, 0, 0]` and
checksum 0; that record passes the checksum test, and a subsequent load takes
the valid branch: it keeps the table `[0, 0, 0]` and writes nothing. -/
theorem load_checksum_mismatch_resets (m : GameModel) (e : EEPROM) (address : Int)
    (hlen : m.highscores.length = 3)
    (hbad : calculateChecksum (e.get address).scores ≠ (e.get address).checksum) :
    (loadHighscoresFromEEPROM m e address).1.highscores = [0, 0, 0] ∧
    (loadHighscoresFromEEPROM m e address).2.get address =
      { scores := [0, 0, 0], checksum := 0 } ∧
    calculateChecksum ((loadHighscoresFromEEPROM m e address).2.get address).scores =
      ((loadHighscoresFromEEPROM m e address).2.get address).checksum ∧
    (loadHighscoresFromEEPROM (loadHighscoresFromEEPROM m e address).1
        (loadHighscoresFromEEPROM m e address).2 address).1.highscores = [0, 0, 0] ∧
    (loadHighscoresFromEEPROM (loadHighscoresFromEEPROM m e address).1
        (loadHighscoresFromEEPROM m e address).2 address).2 =
      (loadHighscoresFromEEPROM m e address).2 := by
  obtain ⟨h1, h2⟩ := load_invalid m e address hlen hbad
  have hget : (loadHighscoresFromEEPROM m e address).2.get address =
      { scores := [0, 0, 0], checksum := 0 } := by
    rw [h2]
    exact get_put e address 0 0 0 0 (by decide) (by decide) (by decide) (by decide)
  have hvalid : calculateChecksum ((loadHighscoresFromEEPROM m e address).2.get address).scores =
      ((loadHighscoresFromEEPROM m e address).2.get address).checksum := by
    rw [hget]; decide
  have hlen1 : (loadHighscoresFromEEPROM m e address).1.highscores.length = 3 := by
    rw [h1]; rfl
  have hnext := load_valid (loadHighscoresFromEEPROM m e address).1
    (loadHighscoresFromEEPROM m e address).2 address 0 0 0 hlen1 (by rw [hget]) hvalid
  exact ⟨h1, hget, hvalid, hnext.1, hnext.2⟩

/-- Witness for C8: the constructed model loads from erased storage, whose
checksum byte `0xFF` differs from the XOR `0` of six `0xFF` bytes. -/
theorem load_checksum_mismatch_resets_witness :
    calculateChecksum (EEPROM.erased.get 0).scores ≠ (EEPROM.erased.get 0).checksum ∧
    (loadHighscoresFromEEPROM GameModel.init EEPROM.erased 0).1.highscores = [0, 0, 0] ∧
    (loadHighscoresFromEEPROM GameModel.init EEPROM.erased 0).2.get 0 =
      { scores := [0, 0, 0], checksum := 0 } :=
  ⟨by decide,
    (load_checksum_mismatch_resets GameModel.init EEPROM.erased 0 rfl (by decide)).1,
    (load_checksum_mismatch_resets GameModel.init EEPROM.erased 0 rfl (by decide)).2.1⟩

/-! ## C9 -/

/-- C9. For every high-score table `t` of three 16-bit entries, the record
written by `saveHighscoresToEEPROM` passes the checksum test, and
`loadHighscoresFromEEPROM` applied to it takes the valid branch (it writes
nothing) and restores `t` with every entry equal to `0xFFFF` replaced by 0;
so `t` is restored exactly whenever no entry is `0xFFFF`. -/
theorem load_after_save_restores (m m1 : GameModel) (e : EEPROM) (address : Int)
    (hlen : m.highscores.length = 3) (hrange : ∀ x ∈ m.highscores, x < 65536)
    (hlen1 : m1.highscores.length = 3) :
    calculateChecksum ((saveHighscoresToEEPROM m e address).get address).scores =
      ((saveHighscoresToEEPROM m e address).get address).checksum ∧
    (loadHighscoresFromEEPROM m1 (saveHighscoresToEEPROM m e address) address).2 =
      saveHighscoresToEEPROM m e address ∧
    (loadHighscoresFromEEPROM m1 (saveHighscoresToEEPROM m e address) address).1.highscores =
      m.highscores.map (fun x => if x = 0xFFFF then 0 else x) ∧
    ((∀ x ∈ m.highscores, x ≠ 0xFFFF) →
      (loadHighscoresFromEEPROM m1 (saveHighscoresToEEPROM m e address) address).1.highscores =
        m.highscores) := by
  obtain ⟨x, y, z, hxyz⟩ := list_length_three _ hlen
  have hx : x < 65536 := hrange x (by rw [hxyz]; simp)
  have hy : y < 65536 := hrange y (by rw [hxyz]; simp)
  have hz : z < 65536 := hrange z (by rw [hxyz]; simp)
  have hget : (saveHighscoresToEEPROM m e address).get address =
      { scores := [x, y, z], checksum := calculateChecksum [x, y, z] } := by
    rw [saveHighscores_three m e address x y z hxyz]
    exact get_put e address x y z _ hx hy hz (calculateChecksum_three_lt x y z)
  have hvalid : calculateChecksum ((saveHighscoresToEEPROM m e address).get address).scores =
      ((saveHighscoresToEEPROM m e address).get address).checksum := by
    rw [hget]
  have hload := load_valid m1 (saveHighscoresToEEPROM m e address) address x y z hlen1
    (by rw [hget]) hvalid
  refine ⟨hvalid, hload.2, ?_, ?_⟩
  · rw [hload.1, hxyz]
  · intro hne
    rw [hload.1, hxyz]
    have hx1 : x ≠ 0xFFFF := hne x (by rw [hxyz]; simp)
    have hy1 : y ≠ 0xFFFF := hne y (by rw [hxyz]; simp)
    have hz1 : z ≠ 0xFFFF := hne z (by rw [hxyz]; simp)
    simp [hx1, hy1, hz1]

/-- Witness for C9: the table `[300, 200, 100]` saved at address 0 of erased
storage and loaded into the constructed model. -/
theorem load_after_save_restores_witness :
    (loadHighscoresFromEEPROM GameModel.init
      (saveHighscoresToEEPROM
        ([100, 200, 300].foldl addHighscore GameModel.init) EEPROM.erased 0) 0).1.highscores =
      ([100, 200, 300].foldl addHighscore GameModel.init).highscores :=
  (load_after_save_restores ([100, 200, 300].foldl addHighscore GameModel.init) GameModel.init
    EEPROM.erased 0 (by decide) (by decide) (by decide)).2.2.2 (by decide)

/-! ## LED blink scheduler -/

theorem ulongSub_mod_right (a b : Nat) : ulongSub a (b % ULONG_RANGE) = ulongSub a b := by
  unfold ulongSub ULONG_RANGE
  omega

theorem startLEDBlink_running (h : HardwareManager) (pin n interval startTime toggleTime : Nat) :
    BlinkRunning (startLEDBlink h pin n interval startTime toggleTime) pin n interval 0 :=
  ⟨rfl, rfl, rfl, rfl, rfl, rfl, rfl⟩

/-- A tick while toggles remain and the interval has elapsed: one toggle. -/
theorem updateLEDBlink_toggle (h : HardwareManager) (pin n interval k t : Nat)
    (hr : BlinkRunning h pin n interval k) (hk : k < 2 * n) (hn : 2 * n ≤ 255)
    (ht : ulongSub t h.lastLEDToggleTime ≥ interval) :
    (updateLEDBlink h t).2 = [HwEvent.digitalWrite pin (k % 2 == 0)] ∧
    BlinkRunning (updateLEDBlink h t).1 pin n interval (k + 1) ∧
    (updateLEDBlink h t).1.lastLEDToggleTime = t % ULONG_RANGE := by
  obtain ⟨ha, hm, hp, hmax, hint, hcnt, hst⟩ := hr
  have c1 : ¬ (h.ledBlinkActive = false ∧ h.multiLedBlinkActive = false) := by
    rw [ha]; simp
  have c2 : ¬ (h.ledBlinkCount ≥ h.ledBlinkMaxCount * 2) := by
    rw [hcnt, hmax]; omega
  have c3 : ulongSub t h.lastLEDToggleTime ≥ h.ledBlinkInterval := by
    rw [hint]; exact ht
  unfold updateLEDBlink
  rw [if_neg c1, if_neg c2, if_pos c3]
  have hmod : (k + 1) % BYTE_RANGE = k + 1 := by
    unfold BYTE_RANGE; omega
  have hpar : (!(k % 2 == 1)) = (k % 2 == 0) := by
    rcases Nat.mod_two_eq_zero_or_one k with h0 | h1
    · rw [h0]; rfl
    · rw [h1]; rfl
  have hpar1 : (!(k % 2 == 1)) = ((k + 1) % 2 == 1) := by
    rcases Nat.mod_two_eq_zero_or_one k with h0 | h1
    · have : (k + 1) % 2 = 1 := by omega
      rw [h0, this]; rfl
    · have : (k + 1) % 2 = 0 := by omega
      rw [h1, this]; rfl
  refine ⟨?_, ⟨ha, hm, hp, hmax, hint, ?_, ?_⟩, rfl⟩
  · simp [ha, hm, hp, hst, hpar]
  · show (h.ledBlinkCount + 1) % BYTE_RANGE = k + 1
    rw [hcnt, hmod]
  · show (!h.ledBlinkState) = ((k + 1) % 2 == 1)
    rw [hst, hpar1]

/-- A tick while toggles remain and the interval has not elapsed: nothing. -/
theorem updateLEDBlink_idle (h : HardwareManager) (pin n interval k t : Nat)
    (hr : BlinkRunning h pin n interval k) (hk : k < 2 * n)
    (ht : ulongSub t h.lastLEDToggleTime < interval) :
    updateLEDBlink h t = (h, []) := by
  obtain ⟨ha, hm, hp, hmax, hint, hcnt, hst⟩ := hr
  have c1 : ¬ (h.ledBlinkActive = false ∧ h.multiLedBlinkActive = false) := by
    rw [ha]; simp
  have c2 : ¬ (h.ledBlinkCount ≥ h.ledBlinkMaxCount * 2) := by
    rw [hcnt, hmax]; omega
  have c3 : ¬ (ulongSub t h.lastLEDToggleTime ≥ h.ledBlinkInterval) := by
    rw [hint]; omega
  unfold updateLEDBlink
  rw [if_neg c1, if_neg c2, if_neg c3]

/-- A tick after the last toggle: the line is driven low and the blink ends. -/
theorem updateLEDBlink_teardown (h : HardwareManager) (pin n interval t : Nat)
    (hr : BlinkRunning h pin n interval (2 * n)) :
    updateLEDBlink h t = ({ h with ledBlinkActive := false }, [HwEvent.digitalWrite pin false]) := by
  obtain ⟨ha, hm, hp, hmax, hint, hcnt, hst⟩ := hr
  have c1 : ¬ (h.ledBlinkActive = false ∧ h.multiLedBlinkActive = false) := by
    rw [ha]; simp
  have c2 : h.ledBlinkCount ≥ h.ledBlinkMaxCount * 2 := by
    rw [hcnt, hmax]; omega
  unfold updateLEDBlink
  rw [if_neg c1, if_pos c2]
  simp [ha, hm, hp]

/-- A run of ticks, each with the interval elapsed, while toggles remain. -/
theorem tickLEDBlink_toggles (times : List Nat) (h : HardwareManager)
    (pin n interval k last : Nat) (hr : BlinkRunning h pin n interval k)
    (hn : 2 * n ≤ 255) (hk : k + times.length ≤ 2 * n)
    (hlast : h.lastLEDToggleTime = last % ULONG_RANGE)
    (hsp : IntervalElapsed interval last times) :
    (tickLEDBlink h times).2 =
      (List.range times.length).map (fun i => HwEvent.digitalWrite pin ((k + i) % 2 == 0)) ∧
    BlinkRunning (tickLEDBlink h times).1 pin n interval (k + times.length) := by
  induction times generalizing h k last with
  | nil => exact ⟨rfl, hr⟩
  | cons t ts ih =>
    obtain ⟨ht, hrest⟩ := hsp
    have hk1 : k < 2 * n := by
      have : (t :: ts).length = ts.length + 1 := rfl
      omega
    have hk2 : (k + 1) + ts.length ≤ 2 * n := by
      have : (t :: ts).length = ts.length + 1 := rfl
      omega
    have ht1 : ulongSub t h.lastLEDToggleTime ≥ interval := by
      rw [hlast, ulongSub_mod_right]; exact ht
    obtain ⟨hw, hr1, hl1⟩ := updateLEDBlink_toggle h pin n interval k t hr hk1 hn ht1
    obtain ⟨hw2, hr2⟩ := ih (updateLEDBlink h t).1 (k + 1) t hr1 hk2 hl1 hrest
    have hlen : (t :: ts).length = ts.length + 1 := rfl
    constructor
    · show (updateLEDBlink h t).2 ++ (tickLEDBlink (updateLEDBlink h t).1 ts).2 = _
      rw [hw, hw2, hlen, List.range_succ_eq_map]
      simp only [List.map_cons, List.map_map, List.singleton_append, Nat.add_zero]
      congr 1
      apply List.map_congr_left
      intro i _
      show HwEvent.digitalWrite pin ((k + 1 + i) % 2 == 0) =
        HwEvent.digitalWrite pin ((k + (i + 1)) % 2 == 0)
      rw [Nat.add_assoc, Nat.add_comm 1 i]
    · show BlinkRunning (tickLEDBlink (updateLEDBlink h t).1 ts).1 pin n interval
        (k + (t :: ts).length)
      have harith : k + (ts.length + 1) = k + 1 + ts.length := by omega
      rw [hlen, harith]
      exact hr2

theorem IntervalElapsed_take (times : List Nat) (interval last k : Nat)
    (h : IntervalElapsed interval last times) : IntervalElapsed interval last (times.take k) := by
  induction times generalizing last k with
  | nil => simpa using h
  | cons t ts ih =>
    cases k with
    | zero => exact trivial
    | succ k => exact ⟨h.1, ih t k h.2⟩

theorem togglePattern_succ_succ (pin n : Nat) :
    togglePattern pin (2 * (n + 1)) =
      togglePattern pin (2 * n) ++
        [HwEvent.digitalWrite pin true, HwEvent.digitalWrite pin false] := by
  have h2 : 2 * (n + 1) = 2 * n + 1 + 1 := by omega
  have e0 : (2 * n) % 2 = 0 := by omega
  have e1 : (2 * n + 1) % 2 = 1 := by omega
  unfold togglePattern
  rw [h2, List.range_succ, List.range_succ]
  simp [e0, e1]

/-- Among the writes of `2 * n` toggles, `n` are `HIGH` and `n` are `LOW`. -/
theorem togglePattern_counts (pin n : Nat) :
    (togglePattern pin (2 * n)).length = 2 * n ∧
    (togglePattern pin (2 * n)).count (HwEvent.digitalWrite pin true) = n ∧
    (togglePattern pin (2 * n)).count (HwEvent.digitalWrite pin false) = n := by
  induction n with
  | zero => exact ⟨rfl, rfl, rfl⟩
  | succ n ih =>
    obtain ⟨h1, h2, h3⟩ := ih
    rw [togglePattern_succ_succ]
    refine ⟨?_, ?_, ?_⟩
    · rw [List.length_append, h1]; rfl
    · rw [List.count_append, h2]
      simp [List.count_cons]
    · rw [List.count_append, h3]
      simp [List.count_cons]

/-- A blink of `n` with its `2 * n` toggles made. -/
theorem blink_all_toggles (h : HardwareManager) (pin n interval startTime toggleTime : Nat)
    (times : List Nat) (hn : 2 * n ≤ 255) (hlen : times.length ≤ 2 * n)
    (hsp : IntervalElapsed interval toggleTime times) :
    (tickLEDBlink (startLEDBlink h pin n interval startTime toggleTime) times).2 =
      togglePattern pin times.length ∧
    BlinkRunning (tickLEDBlink (startLEDBlink h pin n interval startTime toggleTime) times).1
      pin n interval times.length := by
  have h0 := startLEDBlink_running h pin n interval startTime toggleTime
  obtain ⟨hw, hr⟩ := tickLEDBlink_toggles times _ pin n interval 0 toggleTime h0 hn
    (by omega) rfl hsp
  rw [Nat.zero_add] at hr
  refine ⟨?_, hr⟩
  rw [hw]
  unfold togglePattern
  apply List.map_congr_left
  intro i _
  rw [Nat.zero_add]

/-! ## C10 -/

/-- C10, the last clause of the claim as stated fails: a blink of 3 with
interval 100 ms has made its six toggles, the last at 600 ms. A tick at the
same clock value, 0 ms after that toggle and so before the interval has
elapsed, drives the line low and clears `ledBlinkActive`. -/
theorem updateLEDBlink_teardown_ignores_interval :
    blinkAfterSixToggles.ledBlinkActive = true ∧
    blinkAfterSixToggles.ledBlinkCount = 6 ∧
    blinkAfterSixToggles.ledBlinkInterval = 100 ∧
    ulongSub 600 blinkAfterSixToggles.lastLEDToggleTime = 0 ∧
    (updateLEDBlink blinkAfterSixToggles 600).1.ledBlinkActive = false ∧
    (updateLEDBlink blinkAfterSixToggles 600).2 = [HwEvent.digitalWrite 11 false] ∧
    updateLEDBlink blinkAfterSixToggles 600 ≠ (blinkAfterSixToggles, []) := by
  refine ⟨by decide, by decide, by decide, by decide, by decide, by decide, by decide⟩

/-- C10, amended. A single-line blink started by `startLEDBlink` with count `n`
(`2 * n ≤ 255`) and ticked `2 * n` times, the interval elapsed before each
tick, makes exactly `2 * n` writes to its line, alternating `HIGH`, `LOW`, ...
starting with `HIGH` (`n` of each), and is still active; the following tick, at
any clock value, drives the line `LOW` and sets `ledBlinkActive` to `false`,
changing nothing else; and while fewer than `2 * n` toggles have been made, a
tick before the interval has elapsed changes nothing and writes nothing. -/
theorem blink_single_line (h : HardwareManager) (pin n interval startTime toggleTime : Nat)
    (times : List Nat) (hn : 2 * n ≤ 255) (hlen : times.length = 2 * n)
    (hsp : IntervalElapsed interval toggleTime times) :
    (tickLEDBlink (startLEDBlink h pin n interval startTime toggleTime) times).2 =
      togglePattern pin (2 * n) ∧
    (togglePattern pin (2 * n)).length = 2 * n ∧
    (togglePattern pin (2 * n)).count (HwEvent.digitalWrite pin true) = n ∧
    (togglePattern pin (2 * n)).count (HwEvent.digitalWrite pin false) = n ∧
    (tickLEDBlink (startLEDBlink h pin n interval startTime toggleTime) times).1.ledBlinkActive =
      true ∧
    (∀ t : Nat,
      updateLEDBlink (tickLEDBlink (startLEDBlink h pin n interval startTime toggleTime) times).1 t =
        ({ (tickLEDBlink (startLEDBlink h pin n interval startTime toggleTime) times).1 with
            ledBlinkActive := false },
          [HwEvent.digitalWrite pin false])) ∧
    (∀ k t : Nat, k < 2 * n →
      ulongSub t (tickLEDBlink (startLEDBlink h pin n interval startTime toggleTime)
          (times.take k)).1.lastLEDToggleTime < interval →
      updateLEDBlink (tickLEDBlink (startLEDBlink h pin n interval startTime toggleTime)
          (times.take k)).1 t =
        ((tickLEDBlink (startLEDBlink h pin n interval startTime toggleTime) (times.take k)).1,
          [])) := by
  obtain ⟨hw, hr⟩ := blink_all_toggles h pin n interval startTime toggleTime times hn
    (by omega) hsp
  rw [hlen] at hw hr
  obtain ⟨c1, c2, c3⟩ := togglePattern_counts pin n
  refine ⟨hw, c1, c2, c3, hr.1, ?_, ?_⟩
  · intro t
    exact updateLEDBlink_teardown _ pin n interval t hr
  · intro k t hk ht
    have hlk : (times.take k).length = k := by
      rw [List.length_take]; omega
    obtain ⟨_, hrk⟩ := blink_all_toggles h pin n interval startTime toggleTime (times.take k) hn
      (by omega) (IntervalElapsed_take times interval toggleTime k hsp)
    rw [hlk] at hrk
    exact updateLEDBlink_idle _ pin n interval k t hrk hk ht

/-- Witness for C10: the defeat light on line 11, a blink of 3 with interval
100 ms started at clock 0 and ticked at 100, 200, ..., 600 ms; six writes,
`HIGH` first. -/
theorem blink_single_line_witness :
    IntervalElapsed 100 0 [100, 200, 300, 400, 500, 600] ∧
    (tickLEDBlink (startLEDBlink (HardwareManager.init 14 10 11 12 13 9) 11 3 100 0 0)
        [100, 200, 300, 400, 500, 600]).2 =
      [HwEvent.digitalWrite 11 true, HwEvent.digitalWrite 11 false,
        HwEvent.digitalWrite 11 true, HwEvent.digitalWrite 11 false,
        HwEvent.digitalWrite 11 true, HwEvent.digitalWrite 11 false] :=
  ⟨by decide,
    (blink_single_line (HardwareManager.init 14 10 11 12 13 9) 11 3 100 0 0
      [100, 200, 300, 400, 500, 600] (by decide) rfl (by decide)).1⟩

/-! ## Exclusion of the two blink modes -/

/-- `updateLEDBlink` never sets an activity flag. -/
theorem updateLEDBlink_flags (h : HardwareManager) (t : Nat) :
    ((updateLEDBlink h t).1.ledBlinkActive = true → h.ledBlinkActive = true) ∧
    ((updateLEDBlink h t).1.multiLedBlinkActive = true → h.multiLedBlinkActive = true) := by
  unfold updateLEDBlink
  by_cases c1 : h.ledBlinkActive = false ∧ h.multiLedBlinkActive = false
  · rw [if_pos c1]; exact ⟨id, id⟩
  · rw [if_neg c1]
    by_cases c2 : h.ledBlinkCount ≥ h.ledBlinkMaxCount * 2
    · rw [if_pos c2]
      cases ha : h.ledBlinkActive <;> cases hm : h.multiLedBlinkActive <;> simp [ha, hm]
    · rw [if_neg c2]
      by_cases c3 : ulongSub t h.lastLEDToggleTime ≥ h.ledBlinkInterval
      · rw [if_pos c3]; exact ⟨id, id⟩
      · rw [if_neg c3]; exact ⟨id, id⟩

theorem applyBlinkOp_exclusive (h : HardwareManager) (op : BlinkOp)
    (hx : ¬ (h.ledBlinkActive = true ∧ h.multiLedBlinkActive = true)) :
    ¬ ((applyBlinkOp h op).ledBlinkActive = true ∧
      (applyBlinkOp h op).multiLedBlinkActive = true) := by
  cases op with
  | startLEDBlink pin count interval startTime toggleTime =>
    intro hboth
    exact Bool.noConfusion hboth.2
  | startMultiLEDBlink pins pinCount count interval startTime toggleTime =>
    intro hboth
    exact Bool.noConfusion hboth.1
  | updateLEDBlink t =>
    intro hboth
    exact hx ⟨(updateLEDBlink_flags h t).1 hboth.1, (updateLEDBlink_flags h t).2 hboth.2⟩

theorem foldl_applyBlinkOp_exclusive (ops : List BlinkOp) (h : HardwareManager)
    (hx : ¬ (h.ledBlinkActive = true ∧ h.multiLedBlinkActive = true)) :
    ¬ ((ops.foldl applyBlinkOp h).ledBlinkActive = true ∧
      (ops.foldl applyBlinkOp h).multiLedBlinkActive = true) := by
  induction ops generalizing h with
  | nil => exact hx
  | cons op rest ih => exact ih (applyBlinkOp h op) (applyBlinkOp_exclusive h op hx)

/-! ## C11 -/

/-- C11. In every state reachable through `startLEDBlink`,
`startMultiLEDBlink` and `updateLEDBlink`, `ledBlinkActive` and
`multiLedBlinkActive` are not both true; `startMultiLEDBlink` called on such a
state (in particular while a single-line blink is active) leaves
`ledBlinkActive` false and the multi-line blink active, and `startLEDBlink`
(in particular while a multi-line blink is active) leaves `multiLedBlinkActive`
false and the single-line blink active. -/
theorem blink_modes_exclusive (h : HardwareManager) (hr : BlinkReachable h) :
    ¬ (h.ledBlinkActive = true ∧ h.multiLedBlinkActive = true) ∧
    (∀ pins pinCount count interval startTime toggleTime,
      (startMultiLEDBlink h pins pinCount count interval startTime toggleTime).ledBlinkActive =
          false ∧
        (startMultiLEDBlink h pins pinCount count interval startTime
          toggleTime).multiLedBlinkActive = true) ∧
    (∀ pin count interval startTime toggleTime,
      (startLEDBlink h pin count interval startTime toggleTime).multiLedBlinkActive = false ∧
        (startLEDBlink h pin count interval startTime toggleTime).ledBlinkActive = true) := by
  obtain ⟨p1, p2, p3, p4, p5, p6, ops, rfl⟩ := hr
  refine ⟨?_, ?_, ?_⟩
  · apply foldl_applyBlinkOp_exclusive
    intro hboth
    exact Bool.noConfusion hboth.1
  · intro pins pinCount count interval startTime toggleTime
    exact ⟨rfl, rfl⟩
  · intro pin count interval startTime toggleTime
    exact ⟨rfl, rfl⟩

/-- Witness for C11: the defeat light blinks on line 17 when the two-line win
blink is started; the single-line blink is cancelled. -/
theorem blink_modes_exclusive_witness :
    BlinkReachable (startLEDBlink (HardwareManager.init 16 10 17 18 19 11) 17 6 100 0 0) ∧
    (startLEDBlink (HardwareManager.init 16 10 17 18 19 11) 17 6 100 0 0).ledBlinkActive = true ∧
    (startMultiLEDBlink (startLEDBlink (HardwareManager.init 16 10 17 18 19 11) 17 6 100 0 0)
      [18, 19] 2 3 200 50 50).ledBlinkActive = false :=
  have hr : BlinkReachable (startLEDBlink (HardwareManager.init 16 10 17 18 19 11) 17 6 100 0 0) :=
    ⟨16, 10, 17, 18, 19, 11, [BlinkOp.startLEDBlink 17 6 100 0 0], rfl⟩
  ⟨hr, rfl,
    ((blink_modes_exclusive _ hr).2.1 [18, 19] 2 3 200 50 50).1⟩

/-! ## C12 -/

/-- A blink whose count is 128 or more: the byte counter stays below 256 and
so below twice the count. -/
theorem updateLEDBlink_never_done (h : HardwareManager) (t n : Nat) (hn : 128 ≤ n)
    (hmax : h.ledBlinkMaxCount = n) (hcnt : h.ledBlinkCount < 256) :
    (updateLEDBlink h t).1.ledBlinkActive = h.ledBlinkActive ∧
    (updateLEDBlink h t).1.multiLedBlinkActive = h.multiLedBlinkActive ∧
    (updateLEDBlink h t).1.ledBlinkMaxCount = n ∧
    (updateLEDBlink h t).1.ledBlinkCount < 256 := by
  have c2 : ¬ (h.ledBlinkCount ≥ h.ledBlinkMaxCount * 2) := by
    rw [hmax]; omega
  unfold updateLEDBlink
  by_cases c1 : h.ledBlinkActive = false ∧ h.multiLedBlinkActive = false
  · rw [if_pos c1]; exact ⟨rfl, rfl, hmax, hcnt⟩
  · rw [if_neg c1, if_neg c2]
    by_cases c3 : ulongSub t h.lastLEDToggleTime ≥ h.ledBlinkInterval
    · rw [if_pos c3]
      refine ⟨rfl, rfl, hmax, ?_⟩
      show (h.ledBlinkCount + 1) % BYTE_RANGE < 256
      unfold BYTE_RANGE; omega
    · rw [if_neg c3]; exact ⟨rfl, rfl, hmax, hcnt⟩

theorem tickLEDBlink_never_done (times : List Nat) (h : HardwareManager) (n : Nat)
    (hn : 128 ≤ n) (hmax : h.ledBlinkMaxCount = n) (hcnt : h.ledBlinkCount < 256) :
    (tickLEDBlink h times).1.ledBlinkActive = h.ledBlinkActive ∧
    (tickLEDBlink h times).1.multiLedBlinkActive = h.multiLedBlinkActive := by
  induction times generalizing h with
  | nil => exact ⟨rfl, rfl⟩
  | cons t ts ih =>
    obtain ⟨h1, h2, h3, h4⟩ := updateLEDBlink_never_done h t n hn hmax hcnt
    obtain ⟨i1, i2⟩ := ih (updateLEDBlink h t).1 h3 h4
    exact ⟨i1.trans h1, i2.trans h2⟩

/-- Once both descriptors are inactive, ticks change nothing. -/
theorem tickLEDBlink_inactive (times : List Nat) (h : HardwareManager)
    (h1 : h.ledBlinkActive = false) (h2 : h.multiLedBlinkActive = false) :
    tickLEDBlink h times = (h, []) := by
  induction times with
  | nil => rfl
  | cons t ts ih =>
    have hu : updateLEDBlink h t = (h, []) := by
      unfold updateLEDBlink
      rw [if_pos ⟨h1, h2⟩]
    show ((tickLEDBlink (updateLEDBlink h t).1 ts).1,
      (updateLEDBlink h t).2 ++ (tickLEDBlink (updateLEDBlink h t).1 ts).2) = (h, [])
    rw [hu, ih]
    rfl

/-- A tick with the toggle budget used up leaves both descriptors inactive. -/
theorem updateLEDBlink_done_flags (h : HardwareManager) (t : Nat)
    (hdone : h.ledBlinkCount ≥ h.ledBlinkMaxCount * 2) :
    (updateLEDBlink h t).1.ledBlinkActive = false ∧
    (updateLEDBlink h t).1.multiLedBlinkActive = false := by
  unfold updateLEDBlink
  by_cases c1 : h.ledBlinkActive = false ∧ h.multiLedBlinkActive = false
  · rw [if_pos c1]
    exact c1
  · rw [if_neg c1, if_pos hdone]
    dsimp only
    by_cases ha : h.ledBlinkActive = true
    · rw [if_pos ha]
      by_cases hm : h.multiLedBlinkActive = true
      · rw [if_pos hm]
        exact ⟨rfl, rfl⟩
      · rw [if_neg hm]
        exact ⟨rfl, by simpa using hm⟩
    · rw [if_neg ha]
      by_cases hm : h.multiLedBlinkActive = true
      · rw [if_pos hm]
        exact ⟨by simpa using ha, rfl⟩
      · rw [if_neg hm]
        exact ⟨by simpa using ha, by simpa using hm⟩

/-- A blink with `k` of its `2 * n ≤ 255` toggles made is inactive after
`2 * n + 1 - k` further ticks that each find the interval elapsed. -/
theorem tickLEDBlink_ends (times : List Nat) (h : HardwareManager) (n interval k last : Nat)
    (hmax : h.ledBlinkMaxCount = n) (hint : h.ledBlinkInterval = interval)
    (hcnt : h.ledBlinkCount = k) (hn : 2 * n ≤ 255) (hk : k ≤ 2 * n)
    (hlast : h.lastLEDToggleTime = last % ULONG_RANGE)
    (hsp : IntervalElapsed interval last times) (hlen : 2 * n + 1 ≤ k + times.length) :
    (tickLEDBlink h times).1.ledBlinkActive = false ∧
    (tickLEDBlink h times).1.multiLedBlinkActive = false := by
  induction times generalizing h k last with
  | nil =>
    have : ([] : List Nat).length = 0 := rfl
    omega
  | cons t ts ih =>
    have hl : (t :: ts).length = ts.length + 1 := rfl
    show (tickLEDBlink (updateLEDBlink h t).1 ts).1.ledBlinkActive = false ∧
      (tickLEDBlink (updateLEDBlink h t).1 ts).1.multiLedBlinkActive = false
    by_cases hdone : h.ledBlinkCount ≥ h.ledBlinkMaxCount * 2
    · obtain ⟨f1, f2⟩ := updateLEDBlink_done_flags h t hdone
      rw [tickLEDBlink_inactive ts _ f1 f2]
      exact ⟨f1, f2⟩
    · by_cases c1 : h.ledBlinkActive = false ∧ h.multiLedBlinkActive = false
      · have hu : updateLEDBlink h t = (h, []) := by
          unfold updateLEDBlink
          rw [if_pos c1]
        rw [hu, tickLEDBlink_inactive ts h c1.1 c1.2]
        exact c1
      · obtain ⟨ht, hrest⟩ := hsp
        have c3 : ulongSub t h.lastLEDToggleTime ≥ h.ledBlinkInterval := by
          rw [hlast, ulongSub_mod_right, hint]
          exact ht
        have hu : updateLEDBlink h t =
            ({ h with
                ledBlinkState := !h.ledBlinkState
                ledBlinkCount := (h.ledBlinkCount + 1) % BYTE_RANGE
                lastLEDToggleTime := t % ULONG_RANGE },
              (if h.ledBlinkActive then [HwEvent.digitalWrite h.ledBlinkPin (!h.ledBlinkState)]
                else []) ++
              (if h.multiLedBlinkActive then
                writeMultiLeds { h with ledBlinkState := !h.ledBlinkState } (!h.ledBlinkState)
                else [])) := by
          unfold updateLEDBlink
          rw [if_neg c1, if_neg hdone, if_pos c3]
        rw [hu]
        have hk1 : k < 2 * n := by
          rw [hcnt, hmax] at hdone
          omega
        have hcnt1 : (h.ledBlinkCount + 1) % BYTE_RANGE = k + 1 := by
          rw [hcnt]
          unfold BYTE_RANGE
          omega
        exact ih
          { h with
            ledBlinkState := !h.ledBlinkState
            ledBlinkCount := (h.ledBlinkCount + 1) % BYTE_RANGE
            lastLEDToggleTime := t % ULONG_RANGE }
          (k + 1) t hmax hint hcnt1 (by omega) rfl hrest (by omega)

/-- C12, the claim as stated fails for every count from 128 to 255: a blink of
count `128 + k` (`k < 128`) with interval 1 ms, started on the hardware of the
sketch by `startLEDBlink` on line 17 or by `startMultiLEDBlink` on lines 18
and 19, is still active after every finite run of `updateLEDBlink` ticks,
whatever the clock values: the byte `ledBlinkCount` never reaches
`2 * (128 + k) ≥ 256`. -/
theorem blink_of_128_stays_active :
    (∀ (k : Fin 128) (times : List Nat),
      (tickLEDBlink (startLEDBlink (HardwareManager.init 16 10 17 18 19 11) 17 (128 + k.val) 1 0
        0) times).1.ledBlinkActive = true) ∧
    (∀ (k : Fin 128) (times : List Nat),
      (tickLEDBlink (startMultiLEDBlink (HardwareManager.init 16 10 17 18 19 11) [18, 19] 2
        (128 + k.val) 1 0 0) times).1.multiLedBlinkActive = true) ∧
    (tickLEDBlink (startLEDBlink (HardwareManager.init 16 10 17 18 19 11) 17 128 1 0 0)
      [1, 2, 3, 4, 5, 6, 7, 8]).1.ledBlinkCount = 8 :=
  ⟨fun k times => (tickLEDBlink_never_done times _ (128 + k.val) (Nat.le_add_right 128 k.val) rfl
      (by show (0 : Nat) < 256; omega)).1,
    fun k times => (tickLEDBlink_never_done times _ (128 + k.val) (Nat.le_add_right 128 k.val) rfl
      (by show (0 : Nat) < 256; omega)).2,
    by decide⟩

/-- C12, amended. For every blink count `n` in 0..127 (so that `2 * n` fits the
byte counter) and every interval, a blink started by `startLEDBlink` or by
`startMultiLEDBlink` is inactive after `2 * n + 1` or more `updateLEDBlink`
ticks when the clock advances by at least the interval between ticks: both
descriptors are inactive afterwards. -/
theorem blink_ends_within_byte_budget (h : HardwareManager)
    (n interval startTime toggleTime : Nat) (times : List Nat) (hn : n ≤ 127)
    (hsp : IntervalElapsed interval toggleTime times) (hlen : 2 * n + 1 ≤ times.length) :
    (∀ pin,
      (tickLEDBlink (startLEDBlink h pin n interval startTime toggleTime)
        times).1.ledBlinkActive = false ∧
      (tickLEDBlink (startLEDBlink h pin n interval startTime toggleTime)
        times).1.multiLedBlinkActive = false) ∧
    (∀ pins pinCount,
      (tickLEDBlink (startMultiLEDBlink h pins pinCount n interval startTime toggleTime)
        times).1.ledBlinkActive = false ∧
      (tickLEDBlink (startMultiLEDBlink h pins pinCount n interval startTime toggleTime)
        times).1.multiLedBlinkActive = false) := by
  constructor
  · intro pin
    exact tickLEDBlink_ends times _ n interval 0 toggleTime rfl rfl rfl (by omega) (by omega) rfl
      hsp (by omega)
  · intro pins pinCount
    exact tickLEDBlink_ends times _ n interval 0 toggleTime rfl rfl rfl (by omega) (by omega) rfl
      hsp (by omega)

/-- C12, amended, on the three blinks of the program: the defeat blink (count
6, 100 ms) is inactive after 13 ticks 100 ms apart, the win blink (count 3,
200 ms, two lines) after 7 ticks 200 ms apart, and the bonus blink (count 2,
100 ms) after 5 ticks. -/
theorem blink_ends_within_byte_budget_witness :
    IntervalElapsed 100 0
      [100, 200, 300, 400, 500, 600, 700, 800, 900, 1000, 1100, 1200, 1300] ∧
    (tickLEDBlink (blinkDefeatLED (HardwareManager.init 16 10 17 18 19 11) 0)
      [100, 200, 300, 400, 500, 600, 700, 800, 900, 1000, 1100, 1200, 1300]).1.ledBlinkActive =
        false ∧
    (tickLEDBlink (blinkWinLED (HardwareManager.init 16 10 17 18 19 11) 0)
      [200, 400, 600, 800, 1000, 1200, 1400]).1.multiLedBlinkActive = false ∧
    (tickLEDBlink (blinkBonusLED (HardwareManager.init 16 10 17 18 19 11) 0)
      [100, 200, 300, 400, 500]).1.ledBlinkActive = false :=
  ⟨by decide,
    ((blink_ends_within_byte_budget (HardwareManager.init 16 10 17 18 19 11) 6 100 0 0
      [100, 200, 300, 400, 500, 600, 700, 800, 900, 1000, 1100, 1200, 1300] (by decide)
      (by decide) (by decide)).1 17).1,
    ((blink_ends_within_byte_budget (HardwareManager.init 16 10 17 18 19 11) 3 200 0 0
      [200, 400, 600, 800, 1000, 1200, 1400] (by decide) (by decide) (by decide)).2
      [18, 19] 2).2,
    ((blink_ends_within_byte_budget (HardwareManager.init 16 10 17 18 19 11) 2 100 0 0
      [100, 200, 300, 400, 500] (by decide) (by decide) (by decide)).1 19).1⟩

/-! ## C15 and C16: the room-clear flag after a win -/

/-- `handleSelectButton` writes neither sub-phase flag. -/
theorem handleSelectButton_flags (c : GameController) (now : Nat) :
    (handleSelectButton c now).waitingForRespawn = c.waitingForRespawn ∧
    (handleSelectButton c now).roomClearMessageShown = c.roomClearMessageShown := by
  unfold handleSelectButton
  split <;> exact ⟨rfl, rfl⟩

/-- `handleSelectButton` in `GAME_OVER` or `VICTORY` resets the model. -/
theorem handleSelectButton_resets_model (c : GameController) (now : Nat)
    (h : c.model.currentState = .GAME_OVER ∨ c.model.currentState = .VICTORY) :
    (handleSelectButton c now).model = resetGame c.model := by
  unfold handleSelectButton
  rcases h with h | h <;> rw [h]

set_option maxRecDepth 1000000 in
/-- C15, the code at the failing input: the first game has just been won
(`afterVictory`, reached from power-on by `victoryOps`); the model is in
`VICTORY` and `roomClearMessageShown` is true. `handleSelectButton` leaves the
model in `MENU` with score 0, room index 0 and room timer 0, but
`roomClearMessageShown` is still true afterwards. -/
theorem select_after_victory_keeps_flag :
    CtrlReachable afterVictory ∧
    afterVictory.model.currentState = .VICTORY ∧
    afterVictory.roomClearMessageShown = true ∧
    (handleSelectButton afterVictory 47000).model.currentState = .MENU ∧
    (handleSelectButton afterVictory 47000).model.score = 0 ∧
    (handleSelectButton afterVictory 47000).model.currentRoomIndex = 0 ∧
    (handleSelectButton afterVictory 47000).model.roomStartTime = 0 ∧
    (handleSelectButton afterVictory 47000).waitingForRespawn = false ∧
    (handleSelectButton afterVictory 47000).roomClearMessageShown = true := by
  refine ⟨⟨EEPROM.erased, victoryOps, rfl⟩, ?_⟩
  decide!

set_option maxRecDepth 1000000 in
/-- C16, the code at the failing input: a second game has just been started
after a win (`secondGameStart`, reached from power-on by `secondGameOps`). The
model is in `PLAYING` in room 0, which is not cleared (0 of 2 cups), but
`roomClearMessageShown` is still true with `roomClearTime` = 44600 from the
first game. The update tick at 47600 ms, joystick at rest, moves the game to
room 1 and adds a room-clear bonus of 49. -/
theorem stale_flag_advances_uncleared_room :
    CtrlReachable secondGameStart ∧
    secondGameStart.model.currentState = .PLAYING ∧
    secondGameStart.model.currentRoomIndex = 0 ∧
    isCurrentRoomCleared secondGameStart.model = false ∧
    (currentRoom secondGameStart.model).cupsCollected = 0 ∧
    (currentRoom secondGameStart.model).cupsInRoom = 2 ∧
    secondGameStart.roomClearMessageShown = true ∧
    secondGameStart.roomClearTime = 44600 ∧
    (runCtrl (powerOn EEPROM.erased)
      (secondGameOps ++ [tickAt 47600 joyNeutral])).1.model.currentState = .PLAYING ∧
    (runCtrl (powerOn EEPROM.erased)
      (secondGameOps ++ [tickAt 47600 joyNeutral])).1.model.currentRoomIndex = 1 ∧
    (runCtrl (powerOn EEPROM.erased)
      (secondGameOps ++ [tickAt 47600 joyNeutral])).1.model.score = 49 := by
  refine ⟨⟨EEPROM.erased, secondGameOps, rfl⟩, ?_⟩
  decide!

/-! ## Start markers and the room start -/

theorem list_getD_mem_or_default {α : Type} (l : List α) (i : Nat) (d : α) :
    l.getD i d ∈ l ∨ l.getD i d = d := by
  by_cases h : i < l.length
  · left
    rw [List.getD_eq_getElem?_getD, List.getElem?_eq_getElem h]
    exact List.getElem_mem _
  · right
    rw [List.getD_eq_getElem?_getD, List.getElem?_eq_none (not_lt.mp h)]
    rfl

theorem list_mem_tail_set {α : Type} (l : List α) (i : Nat) (x c : α)
    (h : c ∈ (l.set i x).tail) : c ∈ l.tail ∨ c = x := by
  cases l with
  | nil => simp at h
  | cons a t =>
    cases i with
    | zero => left; simpa using h
    | succ j =>
      have h1 : c ∈ t.set j x := by simpa using h
      rcases List.mem_or_eq_of_mem_set h1 with h2 | h2
      · left; simpa using h2
      · right; exact h2

theorem list_getD_succ_mem_tail {α : Type} (l : List α) (i : Nat) (d : α) :
    l.getD (i + 1) d ∈ l.tail ∨ l.getD (i + 1) d = d := by
  cases l with
  | nil => right; rfl
  | cons a t =>
    have := list_getD_mem_or_default t i d
    simpa using this

theorem NoStrayStart_top (r : Room) (h : NoStrayStart r) (i : Nat) :
    r.topRow.getD i ' ' ≠ 'P' := by
  rcases list_getD_mem_or_default r.topRow i ' ' with h1 | h1
  · exact h.1 _ h1
  · rw [h1]; decide

theorem NoStrayStart_bottom (r : Room) (h : NoStrayStart r) (i : Nat) :
    r.bottomRow.getD (i + 1) ' ' ≠ 'P' := by
  rcases list_getD_succ_mem_tail r.bottomRow i ' ' with h1 | h1
  · exact h.2 _ h1
  · rw [h1]; decide

theorem NoStrayStart_blank : NoStrayStart Room.blank := by decide

theorem NoStrayStart_set_top (r : Room) (h : NoStrayStart r) (i : Nat) :
    NoStrayStart { r with topRow := r.topRow.set i ' ' } := by
  refine ⟨?_, h.2⟩
  intro c hc
  rcases List.mem_or_eq_of_mem_set hc with h1 | h1
  · exact h.1 c h1
  · rw [h1]; decide

theorem NoStrayStart_set_bottom (r : Room) (h : NoStrayStart r) (i : Nat) :
    NoStrayStart { r with bottomRow := r.bottomRow.set i ' ' } := by
  refine ⟨h.1, ?_⟩
  intro c hc
  rcases list_mem_tail_set r.bottomRow i ' ' c hc with h1 | h1
  · exact h.2 c h1
  · rw [h1]; decide

/-- The scan finds nothing from column `col` on when no marker is there. -/
theorem resetScan_none (fuel : Nat) (m : GameModel) (col : Nat)
    (h : ∀ i, col ≤ i → (currentRoom m).topRow.getD i ' ' ≠ 'P' ∧
      (currentRoom m).bottomRow.getD i ' ' ≠ 'P') :
    resetScan m fuel col = (m, false) := by
  induction fuel generalizing col with
  | zero => rfl
  | succ n ih =>
    unfold resetScan
    rw [if_neg (h col (Nat.le_refl col)).1, if_neg (h col (Nat.le_refl col)).2]
    exact ih (col + 1) (fun i hi => h i (by omega))

/-- `resetPlayerToRoomStart` in a room whose only possible marker is in column 0
of the bottom row: the player is put at column 0, row 1, alive, and that
marker, if present, is erased. -/
theorem resetPlayerToRoomStart_eq (m : GameModel) (h : NoStrayStart (currentRoom m)) :
    resetPlayerToRoomStart m =
      if (currentRoom m).bottomRow.getD 0 ' ' = 'P' then
        { m with
          player := { column := 0, row := 1, isAlive := true }
          rooms := m.rooms.set m.currentRoomIndex
            { currentRoom m with bottomRow := (currentRoom m).bottomRow.set 0 ' ' } }
      else { m with player := { column := 0, row := 1, isAlive := true } } := by
  have htop := NoStrayStart_top _ h
  unfold resetPlayerToRoomStart
  by_cases hb : (currentRoom m).bottomRow.getD 0 ' ' = 'P'
  · have hscan : resetScan m 16 0 =
        ({ m with
            player := { m.player with column := 0, row := 1 }
            rooms := m.rooms.set m.currentRoomIndex
              { currentRoom m with bottomRow := (currentRoom m).bottomRow.set 0 ' ' } }, true) := by
      show resetScan m (15 + 1) 0 = _
      unfold resetScan
      rw [if_neg (htop 0), if_pos hb]
      rfl
    rw [hscan, if_pos hb]
    rfl
  · have hscan : resetScan m 16 0 = (m, false) := by
      apply resetScan_none
      intro i _
      refine ⟨htop i, ?_⟩
      cases i with
      | zero => exact hb
      | succ j => exact NoStrayStart_bottom _ h j
    rw [hscan, if_neg hb]
    rfl


theorem currentRoom_NoStrayStart (m : GameModel) (h : PlayOK m) :
    NoStrayStart (currentRoom m) := by
  unfold currentRoom roomAt
  rcases list_getD_mem_or_default m.rooms m.currentRoomIndex Room.blank with h1 | h1
  · exact h.1 _ h1
  · rw [h1]; exact NoStrayStart_blank

theorem list_mem_head_or_tail {α : Type} (l : List α) (c d : α) (h : c ∈ l) :
    c = l.getD 0 d ∨ c ∈ l.tail := by
  cases l with
  | nil => simp at h
  | cons a t =>
    rcases List.mem_cons.mp h with h1 | h1
    · left; rw [h1]; rfl
    · right; exact h1

theorem PlayOK_set_current (m : GameModel) (r : Room) (p : Player) (h : PlayOK m)
    (hr : NoStrayStart r) (hc : p.column < 16) (hrow : p.row < 2) :
    PlayOK { m with player := p, rooms := m.rooms.set m.currentRoomIndex r } := by
  refine ⟨?_, hc, hrow⟩
  intro x hx
  rcases List.mem_or_eq_of_mem_set hx with hx | hx
  · exact h.1 x hx
  · rw [hx]; exact hr

theorem PlayOK_of_same (m m1 : GameModel) (hr : m1.rooms = m.rooms)
    (hc : m1.player.column = m.player.column) (hrow : m1.player.row = m.player.row)
    (h : PlayOK m) : PlayOK m1 := by
  unfold PlayOK at h ⊢
  rw [hr, hc, hrow]; exact h

/-- After `resetPlayerToRoomStart` the player is alive at column 0, row 1 and
the current room holds no start marker; nothing but the player and the rooms
has changed. -/
theorem resetPlayerToRoomStart_spec (m : GameModel) (h : PlayOK m) :
    (resetPlayerToRoomStart m).player = { column := 0, row := 1, isAlive := true } ∧
    (∀ c ∈ (currentRoom (resetPlayerToRoomStart m)).topRow, c ≠ 'P') ∧
    (∀ c ∈ (currentRoom (resetPlayerToRoomStart m)).bottomRow, c ≠ 'P') ∧
    PlayOK (resetPlayerToRoomStart m) ∧
    (resetPlayerToRoomStart m).currentRoomIndex = m.currentRoomIndex ∧
    (resetPlayerToRoomStart m).currentState = m.currentState ∧
    (resetPlayerToRoomStart m).score = m.score ∧
    (resetPlayerToRoomStart m).roomStartTime = m.roomStartTime := by
  have hcur := currentRoom_NoStrayStart m h
  rw [resetPlayerToRoomStart_eq m hcur]
  by_cases hb : (currentRoom m).bottomRow.getD 0 ' ' = 'P'
  · rw [if_pos hb]
    have hidx : m.currentRoomIndex < m.rooms.length := by
      by_contra hlen
      have hblank : currentRoom m = Room.blank := by
        unfold currentRoom roomAt
        rw [List.getD_eq_getElem?_getD, List.getElem?_eq_none (not_lt.mp hlen)]
        rfl
      rw [hblank] at hb
      exact absurd hb (by decide)
    have hroom : currentRoom { m with
        player := { column := 0, row := 1, isAlive := true }
        rooms := m.rooms.set m.currentRoomIndex
          { currentRoom m with bottomRow := (currentRoom m).bottomRow.set 0 ' ' } } =
        { currentRoom m with bottomRow := (currentRoom m).bottomRow.set 0 ' ' } := by
      simp [currentRoom, roomAt, List.getD_eq_getElem?_getD, hidx]
    refine ⟨rfl, ?_, ?_, ?_, rfl, rfl, rfl, rfl⟩
    · rw [hroom]; exact hcur.1
    · rw [hroom]
      intro c hc
      rcases list_mem_head_or_tail _ c ' ' hc with h1 | h1
      · have hlen : 0 < (currentRoom m).bottomRow.length :=
          list_length_of_getD_ne _ 0 ' ' (by rw [hb]; decide)
        rw [h1, list_getD_set_self _ 0 ' ' ' ' hlen]; decide
      · rcases list_mem_tail_set _ 0 ' ' c h1 with h2 | h2
        · exact hcur.2 c h2
        · rw [h2]; decide
    · exact PlayOK_set_current m _ _ h (NoStrayStart_set_bottom _ hcur 0)
        (by show (0 : Nat) < 16; omega) (by show (1 : Nat) < 2; omega)
  · rw [if_neg hb]
    refine ⟨rfl, hcur.1, ?_, ⟨h.1, (by show (0 : Nat) < 16; omega),
      (by show (1 : Nat) < 2; omega)⟩, rfl, rfl, rfl, rfl⟩
    intro c hc
    rcases list_mem_head_or_tail _ c ' ' hc with h1 | h1
    · rw [h1]; exact hb
    · exact hcur.2 c h1

theorem foldl_clear_NoStrayStart (idx : List Nat) (rooms : List Room)
    (h : ∀ r ∈ rooms, NoStrayStart r) :
    ∀ r ∈ idx.foldl (fun rs i => rs.set i { rs.getD i Room.blank with cupsCollected := 0 }) rooms,
      NoStrayStart r := by
  induction idx generalizing rooms with
  | nil => exact h
  | cons i rest ih =>
    apply ih
    intro r hr
    rcases List.mem_or_eq_of_mem_set hr with h1 | h1
    · exact h r h1
    · have hx : NoStrayStart (rooms.getD i Room.blank) := by
        rcases list_getD_mem_or_default rooms i Room.blank with h2 | h2
        · exact h _ h2
        · rw [h2]; exact NoStrayStart_blank
      rw [h1]
      exact ⟨hx.1, hx.2⟩

theorem startNewGame_spec (m : GameModel) (now : Nat) (h : PlayOK m) :
    (startNewGame m now).currentState = .PLAYING ∧
    (startNewGame m now).score = 0 ∧
    (startNewGame m now).currentRoomIndex = 0 ∧
    (startNewGame m now).player = { column := 0, row := 1, isAlive := true } ∧
    (∀ c ∈ (roomAt (startNewGame m now) 0).topRow, c ≠ 'P') ∧
    (∀ c ∈ (roomAt (startNewGame m now) 0).bottomRow, c ≠ 'P') ∧
    PlayOK (startNewGame m now) := by
  have h2 : PlayOK { m with currentState := .PLAYING, currentRoomIndex := 0, score := 0,
                              rooms := clearCollected m.rooms } :=
    ⟨foldl_clear_NoStrayStart _ _ h.1, h.2.1, h.2.2⟩
  obtain ⟨s1, s2, s3, s4, s5, s6, s7, _⟩ := resetPlayerToRoomStart_spec _ h2
  have e : startNewGame m now = startRoomTimer (resetPlayerToRoomStart
      { m with currentState := .PLAYING, currentRoomIndex := 0, score := 0,
               rooms := clearCollected m.rooms }) now := rfl
  rw [e]
  generalize resetPlayerToRoomStart
    { m with currentState := .PLAYING, currentRoomIndex := 0, score := 0,
             rooms := clearCollected m.rooms } = x at s1 s2 s3 s4 s5 s6 s7
  have s5a : x.currentRoomIndex = 0 := s5
  refine ⟨s6, s7, s5a, s1, ?_, ?_, PlayOK_of_same x _ rfl rfl rfl s4⟩
  · intro c hc
    apply s2 c
    unfold currentRoom
    rw [s5a]; exact hc
  · intro c hc
    apply s3 c
    unfold currentRoom
    rw [s5a]; exact hc

theorem PlayOK_addScore_set (m : GameModel) (r : Room) (h : PlayOK m) (hr : NoStrayStart r) :
    PlayOK (addScore { m with rooms := m.rooms.set m.currentRoomIndex r } POINTS_PER_CUP) :=
  PlayOK_of_same _ _ rfl rfl rfl (PlayOK_set_current m r m.player h hr h.2.1 h.2.2)

theorem collectCupAt_PlayOK (m : GameModel) (column row : Nat) (h : PlayOK m) :
    PlayOK (collectCupAt m column row).2 := by
  have hcur := currentRoom_NoStrayStart m h
  unfold collectCupAt
  split
  · exact h
  · split
    · by_cases hidx : m.currentRoomIndex < m.rooms.length
      · by_cases hrow : row = 0
        · have hg := PlayOK_addScore_set m
            { topRow := (currentRoom m).topRow.set column ' ',
              bottomRow := (currentRoom m).bottomRow,
              cupsInRoom := (currentRoom m).cupsInRoom,
              cupsCollected := ((currentRoom m).cupsCollected + 1) % BYTE_RANGE } h
            (NoStrayStart_set_top _ hcur column)
          simpa [setCell, hrow, currentRoom, roomAt, hidx, List.getD_eq_getElem?_getD] using hg
        · have hg := PlayOK_addScore_set m
            { topRow := (currentRoom m).topRow,
              bottomRow := (currentRoom m).bottomRow.set column ' ',
              cupsInRoom := (currentRoom m).cupsInRoom,
              cupsCollected := ((currentRoom m).cupsCollected + 1) % BYTE_RANGE } h
            (NoStrayStart_set_bottom _ hcur column)
          simpa [setCell, hrow, currentRoom, roomAt, hidx, List.getD_eq_getElem?_getD] using hg
      · have hle : m.rooms.length ≤ m.currentRoomIndex := not_lt.mp hidx
        refine PlayOK_of_same m _ ?_ rfl rfl h
        simp [setCell, addScore, List.set_eq_of_length_le hle]
    · exact h

theorem movePlayer_PlayOK (m : GameModel) (dc dr : Int) (h : PlayOK m) :
    PlayOK (movePlayer m dc dr).2 := by
  by_cases hrej : MoveRejected m dc dr
  · rw [movePlayer_rejected m dc dr hrej]; exact h
  · have hacc := movePlayer_accepted m dc dr hrej
    have hok : (movePlayer m dc dr).1 = true := by rw [hacc]
    obtain ⟨_, b1, b2, b3, b4, hres⟩ := movePlayer_true_elim m dc dr hok
    rw [hres]
    have hp : PlayOK { m with player := { m.player with
        column := ((m.player.column : Int) + dc).toNat
        row := ((m.player.row : Int) + dr).toNat } } :=
      ⟨h.1, by show ((m.player.column : Int) + dc).toNat < 16; omega,
        by show ((m.player.row : Int) + dr).toNat < 2; omega⟩
    have hk : PlayOK (killPlayer { m with player := { m.player with
        column := ((m.player.column : Int) + dc).toNat
        row := ((m.player.row : Int) + dr).toNat } }) :=
      PlayOK_of_same _ _ rfl rfl rfl hp
    unfold moveTo
    dsimp only
    split
    · split
      · exact collectCupAt_PlayOK _ _ _ hk
      · exact collectCupAt_PlayOK _ _ _ hp
    · split
      · exact hk
      · exact hp

theorem advanceToNextRoom_PlayOK (m : GameModel) (now later : Nat) (h : PlayOK m) :
    PlayOK (advanceToNextRoom m now later) := by
  unfold advanceToNextRoom
  split
  · dsimp only
    have h2 : PlayOK { calculateRoomClearBonus m now with
        currentRoomIndex :=
          ((calculateRoomClearBonus m now).currentRoomIndex + 1) % BYTE_RANGE } :=
      ⟨h.1, h.2.1, h.2.2⟩
    exact PlayOK_of_same _ _ rfl rfl rfl (resetPlayerToRoomStart_spec _ h2).2.2.2.1
  · exact PlayOK_of_same m _ rfl rfl rfl h

theorem loadHighscoresFromEEPROM_player (m : GameModel) (e : EEPROM) (a : Int) :
    (loadHighscoresFromEEPROM m e a).1.player = m.player := by
  unfold loadHighscoresFromEEPROM
  dsimp only
  split <;> rfl

set_option maxRecDepth 100000 in
theorem init_PlayOK : PlayOK GameModel.init := by decide!

theorem applyOp_PlayOK (m : GameModel) (op : Op) (h : PlayOK m) : PlayOK (applyOp m op) := by
  cases op with
  | setState s => exact PlayOK_of_same m _ rfl rfl rfl h
  | selectNextMenuOption => exact PlayOK_of_same m _ rfl rfl rfl h
  | selectPreviousMenuOption =>
    show PlayOK (selectPreviousMenuOption m)
    unfold selectPreviousMenuOption
    split <;> exact PlayOK_of_same m _ rfl rfl rfl h
  | confirmMenuSelection now =>
    show PlayOK (confirmMenuSelection m now)
    unfold confirmMenuSelection
    split
    · exact (startNewGame_spec m now h).2.2.2.2.2.2
    · exact h
  | startNewGame now => exact (startNewGame_spec m now h).2.2.2.2.2.2
  | resetGame => exact PlayOK_of_same m _ rfl rfl rfl h
  | movePlayer dc dr => exact movePlayer_PlayOK m dc dr h
  | killPlayer => exact PlayOK_of_same m _ rfl rfl rfl h
  | respawnPlayer => exact (resetPlayerToRoomStart_spec m h).2.2.2.1
  | advanceToNextRoom now later => exact advanceToNextRoom_PlayOK m now later h
  | collectCupAt c r => exact collectCupAt_PlayOK m c r h
  | addScore p => exact PlayOK_of_same m _ rfl rfl rfl h
  | calculateRoomClearBonus now => exact PlayOK_of_same m _ rfl rfl rfl h
  | startRoomTimer now => exact PlayOK_of_same m _ rfl rfl rfl h
  | addHighscore s => exact PlayOK_of_same m _ rfl rfl rfl h
  | loadHighscoresFromEEPROM e a =>
    have hp := loadHighscoresFromEEPROM_player m e a
    exact PlayOK_of_same m _ (loadHighscoresFromEEPROM_rooms m e a).1
      (by show (loadHighscoresFromEEPROM m e a).1.player.column = _; rw [hp])
      (by show (loadHighscoresFromEEPROM m e a).1.player.row = _; rw [hp]) h
  | resetHighscores => exact PlayOK_of_same m _ rfl rfl rfl h
  | setVictory => exact PlayOK_of_same m _ rfl rfl rfl h
  | setGameOver => exact PlayOK_of_same m _ rfl rfl rfl h

theorem runOps_PlayOK (ops : List Op) (m : GameModel) (h : PlayOK m) :
    PlayOK (runOps m ops) := by
  induction ops generalizing m with
  | nil => exact h
  | cons op rest ih => exact ih (applyOp m op) (applyOp_PlayOK m op h)

theorem Reachable.playOK {m : GameModel} (h : Reachable m) : PlayOK m := by
  obtain ⟨ops, rfl⟩ := h
  exact runOps_PlayOK ops _ init_PlayOK

/-! ## C13 -/

/-- C13. For every sequencer state with `isMelodyPlaying` true and
`currentSound = t`, `playSound t` returns the hardware state unchanged (so the
current melody, `currentNoteIndex`, `noteStartTime` and `currentSound` are
unchanged) and makes no board call: no tone is started. -/
theorem playSound_same_sound_noop (h : HardwareManager) (t : SoundType) (now : Nat)
    (hplay : h.isMelodyPlaying = true) (hsound : h.currentSound = t) :
    playSound h t now = (h, []) := by
  unfold playSound
  by_cases hb : h.buzzerEnabled = false
  · rw [if_pos hb]
  · rw [if_neg hb, if_pos ⟨hsound.symm, hplay⟩]

/-- Witness for C13: the cup melody was started at 0 ms and is requested again
at 10 ms. -/
theorem playSound_same_sound_noop_witness :
    (playSound (HardwareManager.init 16 10 17 18 19 11) .SOUND_CUP_COLLECT 0).1.isMelodyPlaying =
      true ∧
    playSound (playSound (HardwareManager.init 16 10 17 18 19 11) .SOUND_CUP_COLLECT 0).1
        .SOUND_CUP_COLLECT 10 =
      ((playSound (HardwareManager.init 16 10 17 18 19 11) .SOUND_CUP_COLLECT 0).1, []) :=
  ⟨by decide,
    playSound_same_sound_noop _ .SOUND_CUP_COLLECT 10 (by decide) (by decide)⟩

/-! ## C14 -/

set_option maxRecDepth 100000 in
/-- On the constructed model `startNewGame` erases the marker of room 0 and
leaves the other five rooms as they were, each with its marker in column 0 of
the bottom row. -/
theorem startNewGame_fresh_rooms (now : Nat) :
    (startNewGame GameModel.init now).rooms.drop 1 = GameModel.init.rooms.drop 1 ∧
    (startNewGame GameModel.init now).rooms.length = 6 ∧
    (∀ r ∈ (startNewGame GameModel.init now).rooms.drop 1, r.bottomRow.getD 0 ' ' = 'P') ∧
    roomAt (startNewGame GameModel.init now) 0 =
      { roomAt GameModel.init 0 with
        bottomRow := (roomAt GameModel.init 0).bottomRow.set 0 ' ' } := by
  have e : (startNewGame GameModel.init now).rooms = (startNewGame GameModel.init 0).rooms := rfl
  have e0 : roomAt (startNewGame GameModel.init now) 0 = roomAt (startNewGame GameModel.init 0) 0 :=
    rfl
  rw [e, e0]
  decide!

/-- C14. After `startNewGame`, called in any reachable model state, the game
state is `PLAYING`, the score is 0, `currentRoomIndex` is 0, the player is alive
at column 0, row 1 (the start cell of room 0) and no cell of room 0 holds
`'P'`; when called on the freshly constructed model, rooms 1..5 are unchanged,
each still with its `'P'` marker, and room 0 differs from its layout only in
the erased marker. -/
theorem startNewGame_resets (m : GameModel) (now : Nat) (h : Reachable m) :
    (startNewGame m now).currentState = .PLAYING ∧
    (startNewGame m now).score = 0 ∧
    (startNewGame m now).currentRoomIndex = 0 ∧
    (startNewGame m now).player = { column := 0, row := 1, isAlive := true } ∧
    (∀ c ∈ (roomAt (startNewGame m now) 0).topRow, c ≠ 'P') ∧
    (∀ c ∈ (roomAt (startNewGame m now) 0).bottomRow, c ≠ 'P') ∧
    (startNewGame GameModel.init now).rooms.drop 1 = GameModel.init.rooms.drop 1 ∧
    (∀ r ∈ (startNewGame GameModel.init now).rooms.drop 1, r.bottomRow.getD 0 ' ' = 'P') ∧
    roomAt (startNewGame GameModel.init now) 0 =
      { roomAt GameModel.init 0 with
        bottomRow := (roomAt GameModel.init 0).bottomRow.set 0 ' ' } := by
  obtain ⟨s1, s2, s3, s4, s5, s6, _⟩ := startNewGame_spec m now h.playOK
  obtain ⟨f1, _, f3, f4⟩ := startNewGame_fresh_rooms now
  exact ⟨s1, s2, s3, s4, s5, s6, f1, f3, f4⟩

set_option maxRecDepth 100000 in
/-- Witness for C14: a second game started after room 0 was cleared in the first. -/
theorem startNewGame_resets_witness :
    Reachable room0Cleared ∧
    (startNewGame room0Cleared 9000).currentState = .PLAYING ∧
    (startNewGame room0Cleared 9000).score = 0 ∧
    (startNewGame room0Cleared 9000).player = { column := 0, row := 1, isAlive := true } :=
  have hreach : Reachable room0Cleared :=
    ⟨[Op.startNewGame 0] ++ List.replicate 8 (Op.movePlayer 1 0) ++ [Op.movePlayer 0 (-1)] ++
      List.replicate 5 (Op.movePlayer (-1) 0) ++ List.replicate 12 (Op.movePlayer 1 0),
      by decide!⟩
  ⟨hreach, (startNewGame_resets room0Cleared 9000 hreach).1,
    (startNewGame_resets room0Cleared 9000 hreach).2.1,
    (startNewGame_resets room0Cleared 9000 hreach).2.2.2.1⟩

/-! ## C17 -/

set_option maxRecDepth 100000 in
/-- C17, the code at the failing input: room 0 of a game started at clock 0 is
cleared with score 20 (`room0Cleared`). With the clock at 60000 ms the bonus
is `50 - 60` in unsigned arithmetic, 65526, and the 16-bit score drops from
20 to 10, through `calculateRoomClearBonus` and through `advanceToNextRoom`
alike. In the game of `room1NextToCup` the same bonus has left the score at
65531, and collecting a cup by `movePlayer` takes it down to 5. -/
theorem score_drops_after_slow_room :
    Reachable room0Cleared ∧
    room0Cleared.currentState = .PLAYING ∧
    room0Cleared.score = 20 ∧
    elapsedSeconds room0Cleared 60000 = 60 ∧
    (calculateRoomClearBonus room0Cleared 60000).score = 10 ∧
    (calculateRoomClearBonus room0Cleared 60000).score < room0Cleared.score ∧
    (advanceToNextRoom room0Cleared 60000 60000).score = 10 ∧
    (advanceToNextRoom room0Cleared 60000 60000).score < room0Cleared.score ∧
    room1NextToCup.score = 65531 ∧
    (movePlayer room1NextToCup (-1) 0).2.score = 5 ∧
    (movePlayer room1NextToCup (-1) 0).2.score < room1NextToCup.score := by
  refine ⟨⟨[Op.startNewGame 0] ++ List.replicate 8 (Op.movePlayer 1 0) ++ [Op.movePlayer 0 (-1)] ++
      List.replicate 5 (Op.movePlayer (-1) 0) ++ List.replicate 12 (Op.movePlayer 1 0),
      by decide!⟩, ?_⟩
  decide!

/-! ## C18 -/

/-- C18. In every state reachable from construction through the public
operations (among them `startNewGame`, `movePlayer` with arbitrary integer
deltas, `respawnPlayer`, `advanceToNextRoom` and `resetGame`),
`player.column < 16` and `player.row < 2`. -/
theorem player_stays_in_grid (m : GameModel) (h : Reachable m) :
    m.player.column < 16 ∧ m.player.row < 2 :=
  h.playOK.2

/-- Witness for C18: a new game, then a request to move 40 columns to the left
and one to move right; the player is at column 1 of the bottom row. -/
theorem player_stays_in_grid_witness :
    Reachable (runOps GameModel.init
      [Op.startNewGame 0, Op.movePlayer (-40) 0, Op.movePlayer 1 0]) ∧
    (runOps GameModel.init
      [Op.startNewGame 0, Op.movePlayer (-40) 0, Op.movePlayer 1 0]).player.column < 16 ∧
    (runOps GameModel.init
      [Op.startNewGame 0, Op.movePlayer (-40) 0, Op.movePlayer 1 0]).player.row < 2 :=
  ⟨⟨_, rfl⟩, player_stays_in_grid _ ⟨_, rfl⟩⟩

/-! ## C19 -/

theorem resetScan_currentRoomIndex (fuel : Nat) (m : GameModel) (col : Nat) :
    (resetScan m fuel col).1.currentRoomIndex = m.currentRoomIndex := by
  induction fuel generalizing col with
  | zero => rfl
  | succ n ih =>
    unfold resetScan
    split
    · rfl
    · split
      · rfl
      · exact ih (col + 1)

theorem resetPlayerToRoomStart_currentRoomIndex (m : GameModel) :
    (resetPlayerToRoomStart m).currentRoomIndex = m.currentRoomIndex := by
  unfold resetPlayerToRoomStart
  dsimp only
  split <;> exact resetScan_currentRoomIndex 16 m 0

theorem advanceToNextRoom_currentRoomIndex (m : GameModel) (now later : Nat)
    (hlt : m.currentRoomIndex < 5) :
    (advanceToNextRoom m now later).currentRoomIndex = m.currentRoomIndex + 1 := by
  have hlt1 : m.currentRoomIndex < TOTAL_ROOMS - 1 := hlt
  unfold advanceToNextRoom
  rw [if_pos hlt1]
  show (resetPlayerToRoomStart _).currentRoomIndex = _
  rw [resetPlayerToRoomStart_currentRoomIndex]
  show (m.currentRoomIndex + 1) % BYTE_RANGE = _
  unfold BYTE_RANGE
  omega

theorem advanceToNextRoom_last (m : GameModel) (now later : Nat)
    (hge : ¬ m.currentRoomIndex < 5) :
    advanceToNextRoom m now later = setVictory m := by
  have hge1 : ¬ m.currentRoomIndex < TOTAL_ROOMS - 1 := hge
  unfold advanceToNextRoom
  rw [if_neg hge1]

/-- An operation that lowers the room index is `startNewGame` or `resetGame`,
called directly or, for `startNewGame`, through `confirmMenuSelection`. -/
theorem applyOp_lowers_index (m : GameModel) (op : Op)
    (hlow : (applyOp m op).currentRoomIndex < m.currentRoomIndex) :
    (∃ now, op = Op.startNewGame now) ∨ op = Op.resetGame ∨
      (∃ now, op = Op.confirmMenuSelection now ∧ applyOp m op = startNewGame m now) := by
  cases op with
  | startNewGame now => exact Or.inl ⟨now, rfl⟩
  | resetGame => exact Or.inr (Or.inl rfl)
  | confirmMenuSelection now =>
    refine Or.inr (Or.inr ⟨now, rfl, ?_⟩)
    show confirmMenuSelection m now = startNewGame m now
    unfold confirmMenuSelection
    by_cases hs : m.selectedMenuOption = .START_GAME
    · rw [if_pos hs]
    · exfalso
      have : (applyOp m (Op.confirmMenuSelection now)).currentRoomIndex = m.currentRoomIndex := by
        show (confirmMenuSelection m now).currentRoomIndex = _
        unfold confirmMenuSelection
        rw [if_neg hs]
      omega
  | movePlayer dc dr =>
    exfalso
    have : (applyOp m (Op.movePlayer dc dr)).currentRoomIndex = m.currentRoomIndex :=
      movePlayer_currentRoomIndex m dc dr
    omega
  | collectCupAt c r =>
    exfalso
    have : (applyOp m (Op.collectCupAt c r)).currentRoomIndex = m.currentRoomIndex :=
      collectCupAt_currentRoomIndex m c r
    omega
  | advanceToNextRoom now later =>
    exfalso
    have : m.currentRoomIndex ≤ (applyOp m (Op.advanceToNextRoom now later)).currentRoomIndex := by
      show m.currentRoomIndex ≤ (advanceToNextRoom m now later).currentRoomIndex
      by_cases hlt : m.currentRoomIndex < 5
      · rw [advanceToNextRoom_currentRoomIndex m now later hlt]; omega
      · rw [advanceToNextRoom_last m now later hlt]; exact Nat.le_refl _
    omega
  | loadHighscoresFromEEPROM e a =>
    exfalso
    have : (applyOp m (Op.loadHighscoresFromEEPROM e a)).currentRoomIndex = m.currentRoomIndex :=
      (loadHighscoresFromEEPROM_rooms m e a).2
    omega
  | selectPreviousMenuOption =>
    exfalso
    have : (applyOp m Op.selectPreviousMenuOption).currentRoomIndex = m.currentRoomIndex := by
      show (selectPreviousMenuOption m).currentRoomIndex = _
      unfold selectPreviousMenuOption
      split <;> rfl
    omega
  | respawnPlayer =>
    exfalso
    have : (applyOp m Op.respawnPlayer).currentRoomIndex = m.currentRoomIndex :=
      resetPlayerToRoomStart_currentRoomIndex m
    omega
  | setState s => exact absurd hlow (Nat.lt_irrefl _)
  | selectNextMenuOption => exact absurd hlow (Nat.lt_irrefl _)
  | killPlayer => exact absurd hlow (Nat.lt_irrefl _)
  | addScore p => exact absurd hlow (Nat.lt_irrefl _)
  | calculateRoomClearBonus now => exact absurd hlow (Nat.lt_irrefl _)
  | startRoomTimer now => exact absurd hlow (Nat.lt_irrefl _)
  | addHighscore s => exact absurd hlow (Nat.lt_irrefl _)
  | resetHighscores => exact absurd hlow (Nat.lt_irrefl _)
  | setVictory => exact absurd hlow (Nat.lt_irrefl _)
  | setGameOver => exact absurd hlow (Nat.lt_irrefl _)

/-- C19. In every reachable model state `currentRoomIndex < 6`. When it is
below 5, `advanceToNextRoom` increases it by exactly 1, the score becomes the
one left by `calculateRoomClearBonus`, the player is alive at the start cell
(column 0, row 1) of the new room, whose marker is erased, and the room timer
is restarted; when it is 5, `advanceToNextRoom` only sets the state to
`VICTORY`, leaving index, score, player and everything else unchanged. No
public operation lowers the index except `startNewGame` and `resetGame`
(`confirmMenuSelection` lowers it only by being a call of `startNewGame`). -/
theorem room_index_moves_forward (m : GameModel) (h : Reachable m) :
    m.currentRoomIndex < 6 ∧
    (m.currentRoomIndex < 5 → ∀ now later : Nat,
      (advanceToNextRoom m now later).currentRoomIndex = m.currentRoomIndex + 1 ∧
      (advanceToNextRoom m now later).score = (calculateRoomClearBonus m now).score ∧
      (advanceToNextRoom m now later).player = { column := 0, row := 1, isAlive := true } ∧
      (∀ c ∈ (currentRoom (advanceToNextRoom m now later)).topRow, c ≠ 'P') ∧
      (∀ c ∈ (currentRoom (advanceToNextRoom m now later)).bottomRow, c ≠ 'P') ∧
      (advanceToNextRoom m now later).roomStartTime = later % ULONG_RANGE ∧
      (advanceToNextRoom m now later).currentState = m.currentState) ∧
    (m.currentRoomIndex = 5 → ∀ now later : Nat,
      advanceToNextRoom m now later = { m with currentState := .VICTORY }) ∧
    (∀ op : Op, (applyOp m op).currentRoomIndex < m.currentRoomIndex →
      (∃ now, op = Op.startNewGame now) ∨ op = Op.resetGame ∨
        (∃ now, op = Op.confirmMenuSelection now ∧ applyOp m op = startNewGame m now)) := by
  refine ⟨h.worldOK.2.1, ?_, ?_, fun op => applyOp_lowers_index m op⟩
  · intro hlt now later
    have hlt1 : m.currentRoomIndex < TOTAL_ROOMS - 1 := hlt
    have h2 : PlayOK { calculateRoomClearBonus m now with
        currentRoomIndex :=
          ((calculateRoomClearBonus m now).currentRoomIndex + 1) % BYTE_RANGE } :=
      ⟨h.playOK.1, h.playOK.2.1, h.playOK.2.2⟩
    obtain ⟨s1, s2, s3, _, _, s6, s7, _⟩ := resetPlayerToRoomStart_spec _ h2
    have e : advanceToNextRoom m now later = startRoomTimer (resetPlayerToRoomStart
        { calculateRoomClearBonus m now with
          currentRoomIndex :=
            ((calculateRoomClearBonus m now).currentRoomIndex + 1) % BYTE_RANGE }) later := by
      unfold advanceToNextRoom
      rw [if_pos hlt1]
    refine ⟨advanceToNextRoom_currentRoomIndex m now later hlt, ?_⟩
    rw [e]
    generalize resetPlayerToRoomStart
      { calculateRoomClearBonus m now with
        currentRoomIndex :=
          ((calculateRoomClearBonus m now).currentRoomIndex + 1) % BYTE_RANGE } = x
      at s1 s2 s3 s6 s7
    exact ⟨s7, s1, s2, s3, rfl, s6⟩
  · intro h5 now later
    rw [advanceToNextRoom_last m now later (by omega)]
    rfl

set_option maxRecDepth 100000 in
/-- Witness for C19: room 0 cleared; advancing 10 seconds after the game
started leads to room 1. -/
theorem room_index_moves_forward_witness :
    Reachable room0Cleared ∧ room0Cleared.currentRoomIndex < 5 ∧
    (advanceToNextRoom room0Cleared 10000 10000).currentRoomIndex =
      room0Cleared.currentRoomIndex + 1 :=
  have hreach : Reachable room0Cleared :=
    ⟨[Op.startNewGame 0] ++ List.replicate 8 (Op.movePlayer 1 0) ++ [Op.movePlayer 0 (-1)] ++
      List.replicate 5 (Op.movePlayer (-1) 0) ++ List.replicate 12 (Op.movePlayer 1 0),
      by decide!⟩
  ⟨hreach, by decide!,
    ((room_index_moves_forward room0Cleared hreach).2.1 (by decide!) 10000 10000).1⟩

/-! ## C20 -/

/-- C20. Respawn sub-phase. When the player is not alive and
`waitingForRespawn` is false, `checkPlayerStatus` sets `waitingForRespawn`,
records the clock value as the death time and leaves the model unchanged.
While `waitingForRespawn` is true, `handlePlayerMovement` returns the
controller unchanged, whatever the joystick readings. `handleRespawn` returns
the controller unchanged while fewer than `respawnDelay` = 2000 ms have
elapsed since the death time; otherwise the model is the one left by
`respawnPlayer`, `waitingForRespawn` is false, and for a reachable model the
player is alive at the room start (column 0, row 1). -/
theorem respawn_subphase (c : GameController) (inp : Inputs) :
    (c.model.player.isAlive = false → c.waitingForRespawn = false →
      (checkPlayerStatus c inp).waitingForRespawn = true ∧
      (checkPlayerStatus c inp).playerDeathTime = inp.now % ULONG_RANGE ∧
      (checkPlayerStatus c inp).model = c.model) ∧
    (c.waitingForRespawn = true → handlePlayerMovement c inp = c) ∧
    respawnDelay = 2000 ∧
    (ulongSub inp.now c.playerDeathTime < respawnDelay → handleRespawn c inp = c) ∧
    (ulongSub inp.now c.playerDeathTime ≥ respawnDelay →
      (handleRespawn c inp).model = respawnPlayer c.model ∧
      (handleRespawn c inp).waitingForRespawn = false ∧
      (Reachable c.model →
        (handleRespawn c inp).model.player = { column := 0, row := 1, isAlive := true })) := by
  refine ⟨?_, ?_, rfl, ?_, ?_⟩
  · intro hdead hwait
    unfold checkPlayerStatus
    rw [if_pos ⟨hdead, hwait⟩]
    exact ⟨rfl, rfl, rfl⟩
  · intro hwait
    unfold handlePlayerMovement
    by_cases hacc : canAcceptInput c inp = false
    · rw [if_pos hacc]
    · rw [if_neg hacc, if_pos hwait]
  · intro hlt
    unfold handleRespawn
    rw [if_neg (by omega)]
  · intro hge
    unfold handleRespawn
    rw [if_pos hge]
    refine ⟨rfl, rfl, ?_⟩
    intro hreach
    exact (resetPlayerToRoomStart_spec c.model hreach.playOK).1

set_option maxRecDepth 100000 in
/-- Witness for C20: the player died in the fire of room 1 and the death was
recorded at 5000 ms; a joystick deflection at 5300 ms moves nothing, a respawn
check at 6000 ms changes nothing, and the check at 7000 ms ends the wait. -/
theorem respawn_subphase_witness :
    deadInRoom1.waitingForRespawn = true ∧
    deadInRoom1.playerDeathTime = 5000 ∧
    handlePlayerMovement deadInRoom1
        { now := 5300, joystickX := 0, joystickY := 512, brightness := 512 } = deadInRoom1 ∧
    handleRespawn deadInRoom1
        { now := 6000, joystickX := 512, joystickY := 512, brightness := 512 } = deadInRoom1 ∧
    (handleRespawn deadInRoom1
        { now := 7000, joystickX := 512, joystickY := 512, brightness := 512 }).waitingForRespawn =
      false :=
  ⟨by decide!, by decide!,
    (respawn_subphase deadInRoom1
      { now := 5300, joystickX := 0, joystickY := 512, brightness := 512 }).2.1 (by decide!),
    (respawn_subphase deadInRoom1
      { now := 6000, joystickX := 512, joystickY := 512, brightness := 512 }).2.2.2.1 (by decide!),
    ((respawn_subphase deadInRoom1
      { now := 7000, joystickX := 512, joystickY := 512, brightness := 512 }).2.2.2.2
        (by decide!)).2.1⟩

/-! ## C21 -/

theorem resetScan_currentState (fuel : Nat) (m : GameModel) (col : Nat) :
    (resetScan m fuel col).1.currentState = m.currentState := by
  induction fuel generalizing col with
  | zero => rfl
  | succ n ih =>
    unfold resetScan
    split
    · rfl
    · split
      · rfl
      · exact ih (col + 1)

theorem resetPlayerToRoomStart_currentState (m : GameModel) :
    (resetPlayerToRoomStart m).currentState = m.currentState := by
  unfold resetPlayerToRoomStart
  dsimp only
  split <;> exact resetScan_currentState 16 m 0

theorem startNewGame_currentState (m : GameModel) (now : Nat) :
    (startNewGame m now).currentState = GameState.PLAYING := by
  have e : startNewGame m now = startRoomTimer (resetPlayerToRoomStart
      { m with currentState := .PLAYING, currentRoomIndex := 0, score := 0,
               rooms := clearCollected m.rooms }) now := rfl
  have h := resetPlayerToRoomStart_currentState
      { m with currentState := .PLAYING, currentRoomIndex := 0, score := 0,
               rooms := clearCollected m.rooms }
  rw [e]
  generalize resetPlayerToRoomStart
    { m with currentState := .PLAYING, currentRoomIndex := 0, score := 0,
             rooms := clearCollected m.rooms } = x at h
  exact h

/-- C21: when the select button is pressed in the MENU state, the model is in
the PLAYING state afterwards exactly when the selected option is START_GAME,
and it is then the model `startNewGame` produces; with any other option
selected (the three highscore rows) the model is left as it was. -/
theorem handleSelectButton_menu (c : GameController) (now : Nat)
    (hmenu : c.model.currentState = GameState.MENU) :
    ((handleSelectButton c now).model.currentState = GameState.PLAYING ↔
        c.model.selectedMenuOption = MenuOption.START_GAME) ∧
    (c.model.selectedMenuOption = MenuOption.START_GAME →
        (handleSelectButton c now).model = startNewGame c.model now) ∧
    (c.model.selectedMenuOption ≠ MenuOption.START_GAME →
        (handleSelectButton c now).model = c.model) := by
  have e : (handleSelectButton c now).model = confirmMenuSelection c.model now := by
    unfold handleSelectButton
    rw [hmenu]
  rw [e]
  unfold confirmMenuSelection
  by_cases hs : c.model.selectedMenuOption = MenuOption.START_GAME
  · rw [if_pos hs]
    exact ⟨⟨fun _ => hs, fun _ => startNewGame_currentState _ _⟩, fun _ => rfl,
      fun h => absurd hs h⟩
  · rw [if_neg hs]
    refine ⟨⟨fun h => ?_, fun h => absurd h hs⟩, fun h => absurd h hs, fun _ => rfl⟩
    rw [hmenu] at h
    cases h

/-- C21 at power-on: a select press with START_GAME selected starts the game;
after one step down the menu (HIGHSCORE_1) the press leaves the model alone. -/
theorem handleSelectButton_menu_witness :
    (powerOn EEPROM.erased).1.model.currentState = GameState.MENU ∧
    (((handleSelectButton (powerOn EEPROM.erased).1 1000).model.currentState = GameState.PLAYING ↔
        (powerOn EEPROM.erased).1.model.selectedMenuOption = MenuOption.START_GAME) ∧
    ((powerOn EEPROM.erased).1.model.selectedMenuOption = MenuOption.START_GAME →
        (handleSelectButton (powerOn EEPROM.erased).1 1000).model =
          startNewGame (powerOn EEPROM.erased).1.model 1000) ∧
    ((powerOn EEPROM.erased).1.model.selectedMenuOption ≠ MenuOption.START_GAME →
        (handleSelectButton (powerOn EEPROM.erased).1 1000).model =
          (powerOn EEPROM.erased).1.model)) :=
  ⟨by decide, handleSelectButton_menu (powerOn EEPROM.erased).1 1000 (by decide)⟩

/-! ## C22 -/

/-- C22: the pause button turns PLAYING into PAUSED and PAUSED into PLAYING,
changing no other field of the model, so that two presses give back the model
that was there; in MENU, GAME_OVER and VICTORY the press changes nothing. -/
theorem handlePauseButton_toggles (c : GameController) (now later : Nat) :
    (c.model.currentState = GameState.PLAYING →
        (handlePauseButton c now).model = { c.model with currentState := GameState.PAUSED } ∧
        (handlePauseButton (handlePauseButton c now) later).model = c.model) ∧
    (c.model.currentState = GameState.PAUSED →
        (handlePauseButton c now).model = { c.model with currentState := GameState.PLAYING } ∧
        (handlePauseButton (handlePauseButton c now) later).model = c.model) ∧
    (c.model.currentState = GameState.MENU ∨ c.model.currentState = GameState.GAME_OVER ∨
        c.model.currentState = GameState.VICTORY → handlePauseButton c now = c) := by
  obtain ⟨m, hw, a1, a2, a3, a4, a5, a6, a7, a8⟩ := c
  obtain ⟨st, b1, b2, b3, b4, b5, b6, b7⟩ := m
  refine ⟨?_, ?_, ?_⟩
  · intro h
    dsimp only at h
    subst h
    exact ⟨rfl, rfl⟩
  · intro h
    dsimp only at h
    subst h
    exact ⟨rfl, rfl⟩
  · intro h
    dsimp only at h
    rcases h with h | h | h <;> subst h <;> rfl

/-- C22 on a game in progress (power-on, select at 1000 ms): the press at
2000 ms pauses, the press at 3000 ms resumes with the model as it was. -/
theorem handlePauseButton_toggles_witness :
    (handleSelectButton (powerOn EEPROM.erased).1 1000).model.currentState = GameState.PLAYING ∧
    (handlePauseButton (handleSelectButton (powerOn EEPROM.erased).1 1000) 2000).model =
      { (handleSelectButton (powerOn EEPROM.erased).1 1000).model with
        currentState := GameState.PAUSED } ∧
    (handlePauseButton
      (handlePauseButton (handleSelectButton (powerOn EEPROM.erased).1 1000) 2000) 3000).model =
      (handleSelectButton (powerOn EEPROM.erased).1 1000).model :=
  ⟨by decide,
    (handlePauseButton_toggles (handleSelectButton (powerOn EEPROM.erased).1 1000)
      2000 3000).1 (by decide)⟩

/-! ## C23 -/

theorem isNewHighscore_three (m : GameModel) (a b c s : Nat) (h : m.highscores = [a, b, c]) :
    isNewHighscore m s = decide (s > c) := by
  unfold isNewHighscore HIGHSCORE_COUNT
  rw [h]
  rfl

/-- C23: `updateVictoryState` and `updateGameOverState` are the same function of
the controller and the storage. On a table of three 16-bit entries (sorted or
not): when the score is above the last entry and not in the table, the table
afterwards has three entries, one of them the score, and the record read back
at address 0 holds that table with its checksum; when the score is not above
the last entry, controller and storage are returned as they were. -/
theorem end_state_records_highscore (c : GameController) (e : EEPROM)
    (hlen : c.model.highscores.length = 3)
    (hrange : ∀ x ∈ c.model.highscores, x < 65536)
    (hscore : c.model.score < 65536) :
    updateGameOverState c e = updateVictoryState c e ∧
    (c.model.score > c.model.highscores.getD 2 0 → c.model.score ∉ c.model.highscores →
      (updateVictoryState c e).1.model.highscores.length = 3 ∧
      c.model.score ∈ (updateVictoryState c e).1.model.highscores ∧
      (updateVictoryState c e).2.get 0 =
        { scores := (updateVictoryState c e).1.model.highscores
          checksum := calculateChecksum (updateVictoryState c e).1.model.highscores }) ∧
    (¬ c.model.score > c.model.highscores.getD 2 0 → updateVictoryState c e = (c, e)) := by
  obtain ⟨x, y, z, hxyz⟩ := list_length_three _ hlen
  have hx : x < 65536 := hrange x (by rw [hxyz]; simp)
  have hy : y < 65536 := hrange y (by rw [hxyz]; simp)
  have hz : z < 65536 := hrange z (by rw [hxyz]; simp)
  have hlow : c.model.highscores.getD 2 0 = z := by rw [hxyz]; rfl
  refine ⟨rfl, ?_, ?_⟩
  · intro hgt hnot
    rw [hlow] at hgt
    rw [hxyz] at hnot
    simp only [List.mem_cons, List.mem_singleton, List.not_mem_nil, or_false, not_or] at hnot
    obtain ⟨n1, n2, n3⟩ := hnot
    have hnew : isNewHighscore c.model c.model.score = true := by
      rw [isNewHighscore_three _ x y z _ hxyz]
      exact decide_eq_true hgt
    have hres : updateVictoryState c e =
        ({ c with model := addHighscore c.model c.model.score },
          saveHighscoresToEEPROM (addHighscore c.model c.model.score) e 0) := by
      unfold updateVictoryState
      rw [if_pos hnew]
    have htab : (addHighscore c.model c.model.score).highscores =
        insertHighscore [x, y, z] c.model.score := by
      unfold addHighscore
      rw [hxyz]
    rw [hres]
    dsimp only
    generalize addHighscore c.model c.model.score = m1 at htab
    generalize c.model.score = s at hscore hgt n1 n2 n3 htab
    rw [insertHighscore_three] at htab
    by_cases h1 : s > x
    · rw [if_pos h1] at htab
      rw [saveHighscores_three m1 e 0 _ _ _ htab, htab,
        get_put e 0 s x y _ hscore hx hy (calculateChecksum_three_lt _ _ _)]
      simp
    · rw [if_neg h1, if_neg n1] at htab
      by_cases h2 : s > y
      · rw [if_pos h2] at htab
        rw [saveHighscores_three m1 e 0 _ _ _ htab, htab,
          get_put e 0 x s y _ hx hscore hy (calculateChecksum_three_lt _ _ _)]
        simp
      · rw [if_neg h2, if_neg n2, if_pos hgt] at htab
        rw [saveHighscores_three m1 e 0 _ _ _ htab, htab,
          get_put e 0 x y s _ hx hy hscore (calculateChecksum_three_lt _ _ _)]
        simp
  · intro hle
    rw [hlow] at hle
    have hnew : isNewHighscore c.model c.model.score = false := by
      rw [isNewHighscore_three _ x y z _ hxyz]
      exact decide_eq_false hle
    unfold updateVictoryState
    rw [hnew]
    rfl

set_option maxRecDepth 100000 in
/-- C23 on the controller with 120 points in the VICTORY state and an empty
table: the table afterwards holds 120 and the record at address 0 is that
table with its checksum. -/
theorem end_state_records_highscore_witness :
    victoryWith120.model.score > victoryWith120.model.highscores.getD 2 0 ∧
    victoryWith120.model.score ∉ victoryWith120.model.highscores ∧
    (updateVictoryState victoryWith120 EEPROM.erased).1.model.highscores = [120, 0, 0] ∧
    (updateVictoryState victoryWith120 EEPROM.erased).1.model.highscores.length = 3 ∧
    victoryWith120.model.score ∈
      (updateVictoryState victoryWith120 EEPROM.erased).1.model.highscores ∧
    (updateVictoryState victoryWith120 EEPROM.erased).2.get 0 =
      { scores := (updateVictoryState victoryWith120 EEPROM.erased).1.model.highscores
        checksum :=
          calculateChecksum (updateVictoryState victoryWith120 EEPROM.erased).1.model.highscores } :=
  ⟨by decide!, by decide!, by decide!,
    (end_state_records_highscore victoryWith120 EEPROM.erased (by decide!) (by decide!)
      (by decide!)).2.1 (by decide!) (by decide!)⟩

/-! ## C24 -/

/-- C24: `updateMelody` while a melody is playing (flag set, melody present,
cursor on a note of it), with `d` the duration of the current note and `e` the
32-bit time since `noteStartTime`. If `e < d` nothing changes and nothing is
written. If `d ≤ e < d + 50` the tone is silenced and the state is unchanged.
If `e ≥ d + 50` the cursor advances by exactly one; when it has reached
`melodyLength` playback stops (`isMelodyPlaying` false, `currentMelody` null,
`currentSound` SOUND_NONE), otherwise the tone of the next note starts and
`noteStartTime` is set to the clock. -/
theorem updateMelody_phases (h : HardwareManager) (melody : List MelodyNote)
    (currentTime noteTime : Nat)
    (hplay : h.isMelodyPlaying = true) (hmel : h.currentMelody = some melody)
    (hcur : h.currentNoteIndex < h.melodyLength) (hbyte : h.melodyLength < 256) :
    (ulongSub currentTime h.noteStartTime < (melody.getD h.currentNoteIndex ⟨0, 0⟩).duration →
      updateMelody h currentTime noteTime = (h, [])) ∧
    ((melody.getD h.currentNoteIndex ⟨0, 0⟩).duration ≤ ulongSub currentTime h.noteStartTime →
      ulongSub currentTime h.noteStartTime <
        (melody.getD h.currentNoteIndex ⟨0, 0⟩).duration + 50 →
      updateMelody h currentTime noteTime = (h, [HwEvent.noTone h.buzzerPin])) ∧
    ((melody.getD h.currentNoteIndex ⟨0, 0⟩).duration + 50 ≤
        ulongSub currentTime h.noteStartTime →
      (updateMelody h currentTime noteTime).1.currentNoteIndex = h.currentNoteIndex + 1 ∧
      (h.currentNoteIndex + 1 ≥ h.melodyLength →
        updateMelody h currentTime noteTime =
          ({ h with
              currentNoteIndex := h.currentNoteIndex + 1
              isMelodyPlaying := false
              currentMelody := none
              currentSound := SoundType.SOUND_NONE },
            [HwEvent.noTone h.buzzerPin, HwEvent.noTone h.buzzerPin])) ∧
      (h.currentNoteIndex + 1 < h.melodyLength →
        updateMelody h currentTime noteTime =
          ({ h with
              currentNoteIndex := h.currentNoteIndex + 1
              noteStartTime := noteTime % ULONG_RANGE },
            [HwEvent.noTone h.buzzerPin,
              HwEvent.tone h.buzzerPin
                (melody.getD (h.currentNoteIndex + 1) ⟨0, 0⟩).frequency]))) := by
  have hguard : ¬ (h.isMelodyPlaying = false ∨ h.currentMelody = none) := by
    rw [hplay, hmel]; simp
  have hwrap : (h.currentNoteIndex + 1) % BYTE_RANGE = h.currentNoteIndex + 1 := by
    unfold BYTE_RANGE; omega
  have hget : h.currentMelody.getD [] = melody := by rw [hmel]; rfl
  unfold updateMelody
  rw [if_neg hguard]
  dsimp only
  rw [hget, hwrap]
  refine ⟨?_, ?_, ?_⟩
  · intro hlt
    rw [if_neg (by omega)]
  · intro h1 h2
    rw [if_pos h1, if_neg (by omega)]
  · intro h1
    rw [if_pos (by omega), if_pos h1]
    refine ⟨?_, ?_, ?_⟩
    · split <;> rfl
    · intro hend
      rw [if_pos hend]
    · intro hnext
      rw [if_neg (by omega)]

/-- C24 on the cup melody started at time 0 (first note 80 ms long): at 40 ms
nothing happens, at 100 ms the tone is silenced, at 130 ms the second note
(1200 Hz) starts and the cursor is 1. -/
theorem updateMelody_phases_witness :
    cupMelodyPlaying.isMelodyPlaying = true ∧
    cupMelodyPlaying.currentMelody = some cupCollectMelody ∧
    cupMelodyPlaying.currentNoteIndex < cupMelodyPlaying.melodyLength ∧
    updateMelody cupMelodyPlaying 40 40 = (cupMelodyPlaying, []) ∧
    updateMelody cupMelodyPlaying 100 100 = (cupMelodyPlaying, [HwEvent.noTone 11]) ∧
    (updateMelody cupMelodyPlaying 130 130).1.currentNoteIndex = 1 ∧
    (updateMelody cupMelodyPlaying 130 130).2 = [HwEvent.noTone 11, HwEvent.tone 11 1200] :=
  ⟨by decide, by decide, by decide,
    (updateMelody_phases cupMelodyPlaying cupCollectMelody 40 40 (by decide) (by decide)
      (by decide) (by decide)).1 (by decide),
    (updateMelody_phases cupMelodyPlaying cupCollectMelody 100 100 (by decide) (by decide)
      (by decide) (by decide)).2.1 (by decide) (by decide),
    ((updateMelody_phases cupMelodyPlaying cupCollectMelody 130 130 (by decide) (by decide)
      (by decide) (by decide)).2.2 (by decide)).1,
    by decide⟩

/-! ## C25 -/

/-- C25: `setBuzzerEnabled(false)` leaves the buzzer disabled with
`isMelodyPlaying` false, `currentMelody` null and `currentSound` SOUND_NONE;
and while the buzzer is disabled a `playSound` call of any sound returns the
hardware state as it was and writes nothing. -/
theorem buzzer_disabled_is_silent (h : HardwareManager) :
    (setBuzzerEnabled h false).1.buzzerEnabled = false ∧
    (setBuzzerEnabled h false).1.isMelodyPlaying = false ∧
    (setBuzzerEnabled h false).1.currentMelody = none ∧
    (setBuzzerEnabled h false).1.currentSound = SoundType.SOUND_NONE ∧
    (∀ (type : SoundType) (now : Nat),
      playSound (setBuzzerEnabled h false).1 type now = ((setBuzzerEnabled h false).1, [])) ∧
    (∀ (g : HardwareManager) (type : SoundType) (now : Nat),
      g.buzzerEnabled = false → playSound g type now = (g, [])) := by
  have hall : ∀ (g : HardwareManager) (type : SoundType) (now : Nat),
      g.buzzerEnabled = false → playSound g type now = (g, []) := by
    intro g type now hg
    unfold playSound
    rw [if_pos hg]
  refine ⟨rfl, rfl, rfl, rfl, fun type now => hall _ type now rfl, hall⟩

/-- C25 on the cup melody in progress: disabling the buzzer stops it, and a
`playSound(SOUND_VICTORY)` afterwards changes nothing. -/
theorem buzzer_disabled_is_silent_witness :
    cupMelodyPlaying.isMelodyPlaying = true ∧
    (setBuzzerEnabled cupMelodyPlaying false).1.buzzerEnabled = false ∧
    (setBuzzerEnabled cupMelodyPlaying false).1.isMelodyPlaying = false ∧
    playSound (setBuzzerEnabled cupMelodyPlaying false).1 SoundType.SOUND_VICTORY 500 =
      ((setBuzzerEnabled cupMelodyPlaying false).1, []) :=
  ⟨by decide, by decide, (buzzer_disabled_is_silent cupMelodyPlaying).2.1,
    (buzzer_disabled_is_silent cupMelodyPlaying).2.2.2.2.2
      (setBuzzerEnabled cupMelodyPlaying false).1 SoundType.SOUND_VICTORY 500 (by decide)⟩

/-! ## C26 -/

theorem updateLEDBlink_pins (h : HardwareManager) (t : Nat) :
    (updateLEDBlink h t).1.defeatLightPin = h.defeatLightPin ∧
    (updateLEDBlink h t).1.winLightPin = h.winLightPin ∧
    (updateLEDBlink h t).1.bonusLightPin = h.bonusLightPin := by
  unfold updateLEDBlink
  split
  · exact ⟨rfl, rfl, rfl⟩
  · split
    · dsimp only
      split <;> split <;> exact ⟨rfl, rfl, rfl⟩
    · split <;> exact ⟨rfl, rfl, rfl⟩

/-- C26: `updateStatusLEDs` first ticks the blink scheduler. If one of the two
blink flags is set after that tick, the call makes the scheduler's writes and
no others. If neither is set, it appends the steady pattern of the state to
them: MENU all three LEDs off; PLAYING all off, then the bonus LED on;
GAME_OVER all off, then the defeat LED on; VICTORY all off, then the win LED
on. With three distinct LED pins the pattern leaves exactly that one LED on. -/
theorem updateStatusLEDs_steady_only_without_blink (h : HardwareManager) (state : GameState)
    (blinkTime currentTime : Nat) :
    ((updateLEDBlink h blinkTime).1.ledBlinkActive = true ∨
        (updateLEDBlink h blinkTime).1.multiLedBlinkActive = true →
      updateStatusLEDs h state blinkTime currentTime = updateLEDBlink h blinkTime) ∧
    ((updateLEDBlink h blinkTime).1.ledBlinkActive = false →
        (updateLEDBlink h blinkTime).1.multiLedBlinkActive = false →
      (state = GameState.MENU →
        updateStatusLEDs h state blinkTime currentTime =
          ((updateLEDBlink h blinkTime).1, (updateLEDBlink h blinkTime).2 ++
            [HwEvent.digitalWrite h.defeatLightPin false,
              HwEvent.digitalWrite h.winLightPin false,
              HwEvent.digitalWrite h.bonusLightPin false])) ∧
      (state = GameState.PLAYING →
        updateStatusLEDs h state blinkTime currentTime =
          ((updateLEDBlink h blinkTime).1, (updateLEDBlink h blinkTime).2 ++
            [HwEvent.digitalWrite h.defeatLightPin false,
              HwEvent.digitalWrite h.winLightPin false,
              HwEvent.digitalWrite h.bonusLightPin false,
              HwEvent.digitalWrite h.bonusLightPin true])) ∧
      (state = GameState.GAME_OVER →
        updateStatusLEDs h state blinkTime currentTime =
          ((updateLEDBlink h blinkTime).1, (updateLEDBlink h blinkTime).2 ++
            [HwEvent.digitalWrite h.defeatLightPin false,
              HwEvent.digitalWrite h.winLightPin false,
              HwEvent.digitalWrite h.bonusLightPin false,
              HwEvent.digitalWrite h.defeatLightPin true])) ∧
      (state = GameState.VICTORY →
        updateStatusLEDs h state blinkTime currentTime =
          ((updateLEDBlink h blinkTime).1, (updateLEDBlink h blinkTime).2 ++
            [HwEvent.digitalWrite h.defeatLightPin false,
              HwEvent.digitalWrite h.winLightPin false,
              HwEvent.digitalWrite h.bonusLightPin false,
              HwEvent.digitalWrite h.winLightPin true]))) ∧
    (h.defeatLightPin ≠ h.winLightPin → h.defeatLightPin ≠ h.bonusLightPin →
        h.winLightPin ≠ h.bonusLightPin →
      (∀ p, p = h.defeatLightPin ∨ p = h.winLightPin ∨ p = h.bonusLightPin →
        ledLevel [HwEvent.digitalWrite h.defeatLightPin false,
          HwEvent.digitalWrite h.winLightPin false,
          HwEvent.digitalWrite h.bonusLightPin false] p = some false) ∧
      (∀ p, p = h.defeatLightPin ∨ p = h.winLightPin ∨ p = h.bonusLightPin →
        ledLevel [HwEvent.digitalWrite h.defeatLightPin false,
          HwEvent.digitalWrite h.winLightPin false,
          HwEvent.digitalWrite h.bonusLightPin false,
          HwEvent.digitalWrite h.bonusLightPin true] p =
            some (decide (p = h.bonusLightPin))) ∧
      (∀ p, p = h.defeatLightPin ∨ p = h.winLightPin ∨ p = h.bonusLightPin →
        ledLevel [HwEvent.digitalWrite h.defeatLightPin false,
          HwEvent.digitalWrite h.winLightPin false,
          HwEvent.digitalWrite h.bonusLightPin false,
          HwEvent.digitalWrite h.defeatLightPin true] p =
            some (decide (p = h.defeatLightPin))) ∧
      (∀ p, p = h.defeatLightPin ∨ p = h.winLightPin ∨ p = h.bonusLightPin →
        ledLevel [HwEvent.digitalWrite h.defeatLightPin false,
          HwEvent.digitalWrite h.winLightPin false,
          HwEvent.digitalWrite h.bonusLightPin false,
          HwEvent.digitalWrite h.winLightPin true] p =
            some (decide (p = h.winLightPin)))) := by
  obtain ⟨p1, p2, p3⟩ := updateLEDBlink_pins h blinkTime
  refine ⟨?_, ?_, ?_⟩
  · intro hact
    unfold updateStatusLEDs
    dsimp only
    rw [if_pos hact]
  · intro ha hb
    have hnot : ¬ ((updateLEDBlink h blinkTime).1.ledBlinkActive = true ∨
        (updateLEDBlink h blinkTime).1.multiLedBlinkActive = true) := by
      rw [ha, hb]; simp
    unfold updateStatusLEDs turnOffAllLEDs
    dsimp only
    rw [if_neg hnot, p1, p2, p3]
    refine ⟨?_, ?_, ?_, ?_⟩ <;> intro hs <;> subst hs <;> simp
  · intro h1 h2 h3
    refine ⟨?_, ?_, ?_, ?_⟩ <;> intro p hp <;> rcases hp with hp | hp | hp <;> subst hp <;>
      simp [ledLevel, h1, h2, h3, Ne.symm h1, Ne.symm h2, Ne.symm h3]

/-- C26 on the hardware of the sketch. With no blink running, the tick in the
PLAYING state writes all off, then the bonus LED (pin 19) on. With the defeat
blink started at time 0, the tick at 50 ms in the PLAYING state makes no write. -/
theorem updateStatusLEDs_steady_only_without_blink_witness :
    (updateLEDBlink defeatBlinkStarted 50).1.ledBlinkActive = true ∧
    updateStatusLEDs defeatBlinkStarted GameState.PLAYING 50 50 = (defeatBlinkStarted, []) ∧
    updateStatusLEDs defeatBlinkStarted GameState.PLAYING 50 50 =
      updateLEDBlink defeatBlinkStarted 50 ∧
    (updateStatusLEDs (HardwareManager.init 16 10 17 18 19 11) GameState.PLAYING 50 50).2 =
      [HwEvent.digitalWrite 17 false, HwEvent.digitalWrite 18 false,
        HwEvent.digitalWrite 19 false, HwEvent.digitalWrite 19 true] ∧
    ledLevel [HwEvent.digitalWrite 17 false, HwEvent.digitalWrite 18 false,
        HwEvent.digitalWrite 19 false, HwEvent.digitalWrite 19 true] 19 = some true :=
  ⟨by decide, by decide,
    (updateStatusLEDs_steady_only_without_blink defeatBlinkStarted GameState.PLAYING 50 50).1
      (Or.inl (by decide)),
    by decide,
    ((updateStatusLEDs_steady_only_without_blink (HardwareManager.init 16 10 17 18 19 11)
      GameState.PLAYING 50 50).2.2 (by decide) (by decide) (by decide)).2.1 19
      (Or.inr (Or.inr rfl))⟩

/-! ## C27 -/

theorem joystickMove_cases (c : GameController) (inp : Inputs) :
    (isJoystickLeft inp = false ∧ isJoystickRight inp = false ∧ isJoystickUp inp = false ∧
        isJoystickDown inp = false ∧ joystickMove c inp = (false, c)) ∨
    ((isJoystickLeft inp = true ∨ isJoystickRight inp = true ∨ isJoystickUp inp = true ∨
        isJoystickDown inp = true) ∧
      (joystickMove c inp).2.lastInputTime = inp.now % ULONG_RANGE ∧
      (joystickMove c inp).2.waitingForRespawn = c.waitingForRespawn ∧
      ((joystickMove c inp).2.model = (movePlayer c.model (-1) 0).2 ∨
        (joystickMove c inp).2.model = (movePlayer c.model 1 0).2 ∨
        (joystickMove c inp).2.model = (movePlayer c.model 0 (-1)).2 ∨
        (joystickMove c inp).2.model = (movePlayer c.model 0 1).2)) := by
  unfold joystickMove
  by_cases h1 : isJoystickLeft inp = true
  · rw [if_pos h1]
    exact Or.inr ⟨Or.inl h1, rfl, rfl, Or.inl rfl⟩
  · rw [if_neg h1]
    by_cases h2 : isJoystickRight inp = true
    · rw [if_pos h2]
      exact Or.inr ⟨Or.inr (Or.inl h2), rfl, rfl, Or.inr (Or.inl rfl)⟩
    · rw [if_neg h2]
      by_cases h3 : isJoystickUp inp = true
      · rw [if_pos h3]
        exact Or.inr ⟨Or.inr (Or.inr (Or.inl h3)), rfl, rfl, Or.inr (Or.inr (Or.inl rfl))⟩
      · rw [if_neg h3]
        by_cases h4 : isJoystickDown inp = true
        · rw [if_pos h4]
          exact Or.inr ⟨Or.inr (Or.inr (Or.inr h4)), rfl, rfl, Or.inr (Or.inr (Or.inr rfl))⟩
        · rw [if_neg h4]
          exact Or.inl ⟨by simpa using h1, by simpa using h2, by simpa using h3,
            by simpa using h4, rfl⟩

theorem handlePlayerMovement_of_joystickMove (c : GameController) (inp : Inputs)
    (hacc : canAcceptInput c inp = true) (hw : c.waitingForRespawn = false) :
    (handlePlayerMovement c inp).model = (joystickMove c inp).2.model ∧
    (handlePlayerMovement c inp).lastInputTime = (joystickMove c inp).2.lastInputTime := by
  have h1 : ¬ (canAcceptInput c inp = false) := by rw [hacc]; decide
  have h2 : ¬ (c.waitingForRespawn = true) := by rw [hw]; decide
  unfold handlePlayerMovement
  rw [if_neg h1, if_neg h2]
  dsimp only
  by_cases hr : (joystickMove c inp).1 = true
  · rw [if_pos hr]
    exact ⟨rfl, rfl⟩
  · rw [if_neg hr]
    exact ⟨rfl, rfl⟩

theorem canAcceptInput_false_of_lt (c : GameController) (inp : Inputs)
    (h : ulongSub inp.now c.lastInputTime < debouncingDelay) : canAcceptInput c inp = false := by
  unfold canAcceptInput
  exact decide_eq_false (by omega)

theorem canAcceptInput_true_of_ge (c : GameController) (inp : Inputs)
    (h : ulongSub inp.now c.lastInputTime ≥ debouncingDelay) : canAcceptInput c inp = true := by
  unfold canAcceptInput
  exact decide_eq_true h

/-- C27: if fewer than `debouncingDelay` = 200 ms (32-bit difference) have
passed since `lastInputTime`, `updateMenuState` and `handlePlayerMovement`
return the controller as it was, whatever the joystick reads. Otherwise an up
or down deflection in the menu, and a deflection in any of the four directions
while playing and not waiting for a respawn, sets `lastInputTime` to the clock,
so that a further call less than 200 ms later changes nothing. One call makes
at most one menu step, and at most one `movePlayer` call. -/
theorem debounce_blocks_all_input (c : GameController) (inp : Inputs) :
    debouncingDelay = 200 ∧
    (ulongSub inp.now c.lastInputTime < debouncingDelay →
      updateMenuState c inp = c ∧ handlePlayerMovement c inp = c) ∧
    (ulongSub inp.now c.lastInputTime ≥ debouncingDelay →
      (isJoystickUp inp = true ∨ isJoystickDown inp = true →
        (updateMenuState c inp).lastInputTime = inp.now % ULONG_RANGE ∧
        ∀ inp2 : Inputs, ulongSub inp2.now inp.now < debouncingDelay →
          updateMenuState (updateMenuState c inp) inp2 = updateMenuState c inp) ∧
      (c.waitingForRespawn = false →
        isJoystickLeft inp = true ∨ isJoystickRight inp = true ∨ isJoystickUp inp = true ∨
          isJoystickDown inp = true →
        (handlePlayerMovement c inp).lastInputTime = inp.now % ULONG_RANGE ∧
        ∀ inp2 : Inputs, ulongSub inp2.now inp.now < debouncingDelay →
          handlePlayerMovement (handlePlayerMovement c inp) inp2 =
            handlePlayerMovement c inp)) ∧
    ((updateMenuState c inp).model = c.model ∨
      (updateMenuState c inp).model = selectPreviousMenuOption c.model ∨
      (updateMenuState c inp).model = selectNextMenuOption c.model) ∧
    ((handlePlayerMovement c inp).model = c.model ∨
      (handlePlayerMovement c inp).model = (movePlayer c.model (-1) 0).2 ∨
      (handlePlayerMovement c inp).model = (movePlayer c.model 1 0).2 ∨
      (handlePlayerMovement c inp).model = (movePlayer c.model 0 (-1)).2 ∨
      (handlePlayerMovement c inp).model = (movePlayer c.model 0 1).2) := by
  refine ⟨rfl, ?_, ?_, ?_, ?_⟩
  · intro hlt
    have hno := canAcceptInput_false_of_lt c inp hlt
    constructor
    · unfold updateMenuState
      rw [if_pos hno]
    · unfold handlePlayerMovement
      rw [if_pos hno]
  · intro hge
    have hyes := canAcceptInput_true_of_ge c inp hge
    constructor
    · intro hdir
      have ht : (updateMenuState c inp).lastInputTime = inp.now % ULONG_RANGE := by
        unfold updateMenuState
        rw [hyes]
        simp only [Bool.true_eq_false, if_false]
        by_cases hu : isJoystickUp inp = true
        · rw [if_pos hu]
        · rw [if_neg hu]
          have hd : isJoystickDown inp = true := hdir.resolve_left hu
          rw [if_pos hd]
      refine ⟨ht, fun inp2 h2 => ?_⟩
      have hno : canAcceptInput (updateMenuState c inp) inp2 = false := by
        apply canAcceptInput_false_of_lt
        rw [ht, ulongSub_mod_right]
        exact h2
      generalize updateMenuState c inp = c1 at hno
      unfold updateMenuState
      rw [if_pos hno]
    · intro hw hdir
      obtain ⟨_, ht0⟩ := handlePlayerMovement_of_joystickMove c inp hyes hw
      have ht : (handlePlayerMovement c inp).lastInputTime = inp.now % ULONG_RANGE := by
        rw [ht0]
        rcases joystickMove_cases c inp with hn | hp
        · obtain ⟨n1, n2, n3, n4, _⟩ := hn
          rw [n1, n2, n3, n4] at hdir
          simp at hdir
        · exact hp.2.1
      refine ⟨ht, fun inp2 h2 => ?_⟩
      have hno : canAcceptInput (handlePlayerMovement c inp) inp2 = false := by
        apply canAcceptInput_false_of_lt
        rw [ht, ulongSub_mod_right]
        exact h2
      generalize handlePlayerMovement c inp = c1 at hno
      unfold handlePlayerMovement
      rw [if_pos hno]
  · unfold updateMenuState
    split
    · exact Or.inl rfl
    · split
      · exact Or.inr (Or.inl rfl)
      · split
        · exact Or.inr (Or.inr rfl)
        · exact Or.inl rfl
  · by_cases hacc : canAcceptInput c inp = true
    · by_cases hw : c.waitingForRespawn = false
      · rw [(handlePlayerMovement_of_joystickMove c inp hacc hw).1]
        rcases joystickMove_cases c inp with hn | hp
        · rw [hn.2.2.2.2]
          exact Or.inl rfl
        · exact Or.inr hp.2.2.2
      · left
        unfold handlePlayerMovement
        rw [hacc]
        simp only [Bool.true_eq_false, if_false]
        rw [if_pos (by simpa using hw)]
    · left
      unfold handlePlayerMovement
      rw [if_pos (by simpa using hacc)]

set_option maxRecDepth 100000 in
/-- C27 on the first game: a deflection to the right at 1100 ms is processed
and sets `lastInputTime` to 1100; a deflection to the left at 1250 ms, 150 ms
later, changes nothing. -/
theorem debounce_blocks_all_input_witness :
    ulongSub 1100 firstGameStart.lastInputTime ≥ debouncingDelay ∧
    (handlePlayerMovement firstGameStart ⟨1100, 1023, 512, 500⟩).lastInputTime = 1100 ∧
    (handlePlayerMovement firstGameStart ⟨1100, 1023, 512, 500⟩).model.player.column = 1 ∧
    ulongSub 1250
      (handlePlayerMovement firstGameStart ⟨1100, 1023, 512, 500⟩).lastInputTime <
        debouncingDelay ∧
    handlePlayerMovement (handlePlayerMovement firstGameStart ⟨1100, 1023, 512, 500⟩)
      ⟨1250, 0, 512, 500⟩ = handlePlayerMovement firstGameStart ⟨1100, 1023, 512, 500⟩ :=
  ⟨by decide!,
    (((debounce_blocks_all_input firstGameStart ⟨1100, 1023, 512, 500⟩).2.2.1 (by decide!)).2
      (by decide!) (Or.inr (Or.inl (by decide!)))).1,
    by decide!, by decide!,
    ((debounce_blocks_all_input (handlePlayerMovement firstGameStart ⟨1100, 1023, 512, 500⟩)
      ⟨1250, 0, 512, 500⟩).2.1 (by decide!)).2⟩

/-! ## Cells of all rooms -/

theorem list_getD_set_eq (l : List Char) (i j : Nat) (ch d : Char) :
    (l.set i ch).getD j d = if j = i ∧ i < l.length then ch else l.getD j d := by
  by_cases hij : j = i
  · subst hij
    by_cases h : j < l.length
    · rw [if_pos ⟨rfl, h⟩]; exact list_getD_set_self l j ch d h
    · rw [if_neg (fun hx => h hx.2), List.set_eq_of_length_le (by omega)]
  · rw [if_neg (fun hx => hij hx.1)]
    simp [List.getD_eq_getElem?_getD, List.getElem?_set_ne (Ne.symm hij)]

theorem roomCell_congr (m m1 : GameModel) (h : m1.rooms = m.rooms) (i c row : Nat) :
    roomCell m1 i c row = roomCell m i c row := by
  unfold roomCell roomAt
  rw [h]

/-- The cells after the room at `idx` has been replaced. -/
theorem roomCell_rooms_set (m m1 : GameModel) (idx : Nat) (r1 : Room)
    (h : m1.rooms = m.rooms.set idx r1) (i c row : Nat) :
    roomCell m1 i c row =
      if i = idx ∧ idx < m.rooms.length then
        (if row = 0 then r1.topRow else r1.bottomRow).getD c ' '
      else roomCell m i c row := by
  unfold roomCell roomAt
  rw [h]
  by_cases hi : i = idx
  · subst hi
    by_cases hl : i < m.rooms.length
    · rw [if_pos (show i = i ∧ i < m.rooms.length from ⟨rfl, hl⟩)]
      simp [List.getD_eq_getElem?_getD, hl]
    · rw [if_neg (show ¬ (i = i ∧ i < m.rooms.length) from fun hx => hl hx.2),
        List.set_eq_of_length_le (by omega)]
  · rw [if_neg (show ¬ (i = idx ∧ idx < m.rooms.length) from fun hx => hi hx.1)]
    simp [List.getD_eq_getElem?_getD, List.getElem?_set_ne (Ne.symm hi)]

theorem roomCell_current_top (m : GameModel) (c : Nat) :
    roomCell m m.currentRoomIndex c 0 = (currentRoom m).topRow.getD c ' ' := rfl

theorem roomCell_current_bottom (m : GameModel) (c row : Nat) (h : row ≠ 0) :
    roomCell m m.currentRoomIndex c row = (currentRoom m).bottomRow.getD c ' ' := by
  unfold roomCell currentRoom
  rw [if_neg h]

/-- Writing `ch` at `col` of the top row of the current room. -/
theorem roomCell_write_top (m m1 : GameModel) (col : Nat) (ch : Char) (r1 : Room)
    (hr1 : r1.topRow = (currentRoom m).topRow.set col ch)
    (hr2 : r1.bottomRow = (currentRoom m).bottomRow)
    (h : m1.rooms = m.rooms.set m.currentRoomIndex r1) (i c row : Nat) :
    roomCell m1 i c row = roomCell m i c row ∨
      (i = m.currentRoomIndex ∧ c = col ∧ row = 0 ∧ roomCell m1 i c row = ch) := by
  rw [roomCell_rooms_set m m1 _ r1 h]
  by_cases hi : i = m.currentRoomIndex ∧ m.currentRoomIndex < m.rooms.length
  · rw [if_pos hi]
    obtain ⟨hi1, _⟩ := hi
    subst hi1
    by_cases hrow : row = 0
    · subst hrow
      rw [if_pos rfl, hr1, list_getD_set_eq]
      by_cases hc : c = col ∧ col < (currentRoom m).topRow.length
      · rw [if_pos hc]
        exact Or.inr ⟨rfl, hc.1, rfl, rfl⟩
      · rw [if_neg hc]
        exact Or.inl rfl
    · rw [if_neg hrow, hr2]
      left
      exact (roomCell_current_bottom m c row hrow).symm
  · rw [if_neg hi]
    exact Or.inl rfl

/-- Writing `ch` at `col` of the bottom row of the current room. -/
theorem roomCell_write_bottom (m m1 : GameModel) (col : Nat) (ch : Char) (r1 : Room)
    (hr1 : r1.topRow = (currentRoom m).topRow)
    (hr2 : r1.bottomRow = (currentRoom m).bottomRow.set col ch)
    (h : m1.rooms = m.rooms.set m.currentRoomIndex r1) (i c row : Nat) :
    roomCell m1 i c row = roomCell m i c row ∨
      (i = m.currentRoomIndex ∧ c = col ∧ row ≠ 0 ∧ roomCell m1 i c row = ch) := by
  rw [roomCell_rooms_set m m1 _ r1 h]
  by_cases hi : i = m.currentRoomIndex ∧ m.currentRoomIndex < m.rooms.length
  · rw [if_pos hi]
    obtain ⟨hi1, _⟩ := hi
    subst hi1
    by_cases hrow : row = 0
    · subst hrow
      rw [if_pos rfl, hr1]
      exact Or.inl rfl
    · rw [if_neg hrow, hr2, list_getD_set_eq]
      by_cases hc : c = col ∧ col < (currentRoom m).bottomRow.length
      · rw [if_pos hc]
        exact Or.inr ⟨rfl, hc.1, hrow, rfl⟩
      · rw [if_neg hc]
        left
        exact (roomCell_current_bottom m c row hrow).symm
  · rw [if_neg hi]
    exact Or.inl rfl

/-- The scan loop changes a cell only by erasing a start marker of the current room. -/
theorem resetScan_cells (fuel : Nat) (m : GameModel) (col0 i c row : Nat) :
    roomCell (resetScan m fuel col0).1 i c row = roomCell m i c row ∨
      (i = m.currentRoomIndex ∧ roomCell m i c row = 'P' ∧
        roomCell (resetScan m fuel col0).1 i c row = ' ') := by
  induction fuel generalizing col0 with
  | zero => exact Or.inl rfl
  | succ n ih =>
    unfold resetScan
    by_cases ht : (currentRoom m).topRow.getD col0 ' ' = 'P'
    · rw [if_pos ht]
      rcases roomCell_write_top m
        { m with
          player := { m.player with column := col0, row := 0 }
          rooms := m.rooms.set m.currentRoomIndex
            { currentRoom m with topRow := (currentRoom m).topRow.set col0 ' ' } }
        col0 ' ' { currentRoom m with topRow := (currentRoom m).topRow.set col0 ' ' }
        rfl rfl rfl i c row with h1 | ⟨h1, h2, h3, h4⟩
      · exact Or.inl h1
      · right
        refine ⟨h1, ?_, h4⟩
        rw [h1, h2, h3]
        exact ht
    · rw [if_neg ht]
      by_cases hb : (currentRoom m).bottomRow.getD col0 ' ' = 'P'
      · rw [if_pos hb]
        rcases roomCell_write_bottom m
          { m with
            player := { m.player with column := col0, row := 1 }
            rooms := m.rooms.set m.currentRoomIndex
              { currentRoom m with bottomRow := (currentRoom m).bottomRow.set col0 ' ' } }
          col0 ' ' { currentRoom m with bottomRow := (currentRoom m).bottomRow.set col0 ' ' }
          rfl rfl rfl i c row with h1 | ⟨h1, h2, h3, h4⟩
        · exact Or.inl h1
        · right
          refine ⟨h1, ?_, h4⟩
          rw [h1, h2, roomCell_current_bottom m col0 row h3]
          exact hb
      · rw [if_neg hb]
        exact ih (col0 + 1)

theorem resetPlayerToRoomStart_rooms (m : GameModel) :
    (resetPlayerToRoomStart m).rooms = (resetScan m 16 0).1.rooms := by
  unfold resetPlayerToRoomStart
  dsimp only
  split <;> rfl

/-- `resetPlayerToRoomStart` changes a cell only by erasing a start marker of
the current room. -/
theorem resetPlayerToRoomStart_cells (m : GameModel) (i c row : Nat) :
    roomCell (resetPlayerToRoomStart m) i c row = roomCell m i c row ∨
      (i = m.currentRoomIndex ∧ roomCell m i c row = 'P' ∧
        roomCell (resetPlayerToRoomStart m) i c row = ' ') := by
  rw [roomCell_congr _ _ (resetPlayerToRoomStart_rooms m)]
  exact resetScan_cells 16 m 0 i c row

/-! ## C29 -/

theorem roomCell_ne_blank_bounds (m : GameModel) (i c row : Nat)
    (h : roomCell m i c row ≠ ' ') :
    i < m.rooms.length ∧
      c < (if row = 0 then (roomAt m i).topRow else (roomAt m i).bottomRow).length := by
  constructor
  · by_contra hlen
    apply h
    have hb : roomAt m i = Room.blank := by
      unfold roomAt
      simp [List.getD_eq_getElem?_getD, List.getElem?_eq_none (not_lt.mp hlen)]
    unfold roomCell
    rw [hb]
    split <;> rfl
  · exact list_length_of_getD_ne _ _ ' ' h

/-- The scan stops at the first marker. -/
theorem resetScan_found (fuel : Nat) (m : GameModel) (col0 col row : Nat)
    (h1 : col0 ≤ col) (h2 : col < col0 + fuel)
    (hnone : ∀ k, col0 ≤ k → k < col →
      (currentRoom m).topRow.getD k ' ' ≠ 'P' ∧ (currentRoom m).bottomRow.getD k ' ' ≠ 'P')
    (hrow : (row = 0 ∧ (currentRoom m).topRow.getD col ' ' = 'P') ∨
      (row = 1 ∧ (currentRoom m).topRow.getD col ' ' ≠ 'P' ∧
        (currentRoom m).bottomRow.getD col ' ' = 'P')) :
    resetScan m fuel col0 =
      ({ m with
          player := { m.player with column := col, row := row }
          rooms := m.rooms.set m.currentRoomIndex
            (if row = 0 then
              { currentRoom m with topRow := (currentRoom m).topRow.set col ' ' }
            else { currentRoom m with bottomRow := (currentRoom m).bottomRow.set col ' ' }) },
        true) := by
  induction fuel generalizing col0 with
  | zero => omega
  | succ n ih =>
    unfold resetScan
    by_cases hc : col0 = col
    · subst hc
      rcases hrow with ⟨hr, ht⟩ | ⟨hr, ht, hb⟩
      · subst hr
        rw [if_pos ht]
        rfl
      · subst hr
        rw [if_neg ht, if_pos hb]
        rfl
    · rw [if_neg (hnone col0 (Nat.le_refl _) (by omega)).1,
        if_neg (hnone col0 (Nat.le_refl _) (by omega)).2]
      exact ih (col0 + 1) (by omega) (by omega) (fun k hk1 hk2 => hnone k (by omega) hk2)

theorem resetScan_none_bounded (fuel : Nat) (m : GameModel) (col0 : Nat)
    (h : ∀ k, col0 ≤ k → k < col0 + fuel →
      (currentRoom m).topRow.getD k ' ' ≠ 'P' ∧ (currentRoom m).bottomRow.getD k ' ' ≠ 'P') :
    resetScan m fuel col0 = (m, false) := by
  induction fuel generalizing col0 with
  | zero => rfl
  | succ n ih =>
    unfold resetScan
    rw [if_neg (h col0 (Nat.le_refl _) (by omega)).1,
      if_neg (h col0 (Nat.le_refl _) (by omega)).2]
    exact ih (col0 + 1) (fun k hk1 hk2 => h k (by omega) (by omega))

theorem resetPlayerToRoomStart_isAlive (m : GameModel) :
    (resetPlayerToRoomStart m).player.isAlive = true := by
  unfold resetPlayerToRoomStart
  rfl

/-- A grid with a marker has a first marker. -/
theorem FirstMarker_exists (m : GameModel)
    (h : ∃ k r, k < 16 ∧ r < 2 ∧ roomCell m m.currentRoomIndex k r = 'P') :
    ∃ col row, FirstMarker m col row := by
  have hex : ∃ k, k < 16 ∧ (roomCell m m.currentRoomIndex k 0 = 'P' ∨
      roomCell m m.currentRoomIndex k 1 = 'P') := by
    obtain ⟨k, r, hk, hr, hcell⟩ := h
    refine ⟨k, hk, ?_⟩
    have hr01 : r = 0 ∨ r = 1 := by omega
    rcases hr01 with h0 | h0 <;> subst h0
    · exact Or.inl hcell
    · exact Or.inr hcell
  classical
  have hmin : ∀ k, k < Nat.find hex → ¬ (k < 16 ∧ (roomCell m m.currentRoomIndex k 0 = 'P' ∨
      roomCell m m.currentRoomIndex k 1 = 'P')) := fun k hk => Nat.find_min hex hk
  obtain ⟨hlt, hcell⟩ := Nat.find_spec hex
  generalize Nat.find hex = col at hmin hlt hcell
  have hbefore : ∀ k, k < col →
      roomCell m m.currentRoomIndex k 0 ≠ 'P' ∧ roomCell m m.currentRoomIndex k 1 ≠ 'P' := by
    intro k hk
    have hn := hmin k hk
    have hk16 : k < 16 := by omega
    constructor
    · intro hx; exact hn ⟨hk16, Or.inl hx⟩
    · intro hx; exact hn ⟨hk16, Or.inr hx⟩
  by_cases htop : roomCell m m.currentRoomIndex col 0 = 'P'
  · exact ⟨col, 0, hlt, by omega, htop, fun hx => by omega, hbefore⟩
  · exact ⟨col, 1, hlt, by omega, hcell.resolve_left htop, fun _ => htop, hbefore⟩

/-- C29: `resetPlayerToRoomStart` always leaves the player alive. If the grid
of the current room holds a start marker, the player is put on the first one
in column order (top row before bottom row within a column), that cell becomes
a blank and no other cell of any room changes. If the grid holds no marker,
the player is put at column 0, row 1 and nothing else in the model changes. -/
theorem resetPlayerToRoomStart_first_marker (m : GameModel) :
    (resetPlayerToRoomStart m).player.isAlive = true ∧
    ((∃ k r, k < 16 ∧ r < 2 ∧ roomCell m m.currentRoomIndex k r = 'P') →
      ∃ col row, FirstMarker m col row) ∧
    (∀ col row, FirstMarker m col row →
      (resetPlayerToRoomStart m).player = { column := col, row := row, isAlive := true } ∧
      roomCell (resetPlayerToRoomStart m) m.currentRoomIndex col row = ' ' ∧
      ∀ i c r, r < 2 → ¬ (i = m.currentRoomIndex ∧ c = col ∧ r = row) →
        roomCell (resetPlayerToRoomStart m) i c r = roomCell m i c r) ∧
    ((∀ k r, k < 16 → r < 2 → roomCell m m.currentRoomIndex k r ≠ 'P') →
      resetPlayerToRoomStart m = { m with player := { column := 0, row := 1, isAlive := true } }) := by
  refine ⟨resetPlayerToRoomStart_isAlive m, FirstMarker_exists m, ?_, ?_⟩
  · intro col row ⟨hcol, hrow, hcell, hfirst, hbefore⟩
    have hne : roomCell m m.currentRoomIndex col row ≠ ' ' := by rw [hcell]; decide
    obtain ⟨hidx, hlen⟩ := roomCell_ne_blank_bounds m _ col row hne
    have hnone : ∀ k, 0 ≤ k → k < col →
        (currentRoom m).topRow.getD k ' ' ≠ 'P' ∧ (currentRoom m).bottomRow.getD k ' ' ≠ 'P' := by
      intro k _ hk
      have hb := hbefore k hk
      rw [roomCell_current_top, roomCell_current_bottom m k 1 (by decide)] at hb
      exact hb
    have hr01 : row = 0 ∨ row = 1 := by omega
    rcases hr01 with h0 | h0 <;> subst h0
    · rw [roomCell_current_top] at hcell
      have hscan := resetScan_found 16 m 0 col 0 (Nat.zero_le _) (by omega) hnone
        (Or.inl ⟨rfl, hcell⟩)
      have hres : resetPlayerToRoomStart m =
          { m with
            player := { column := col, row := 0, isAlive := true }
            rooms := m.rooms.set m.currentRoomIndex
              { currentRoom m with topRow := (currentRoom m).topRow.set col ' ' } } := by
        unfold resetPlayerToRoomStart
        rw [hscan]
        rfl
      rw [hres]
      refine ⟨rfl, ?_, ?_⟩
      · rw [roomCell_rooms_set m _ m.currentRoomIndex
          { currentRoom m with topRow := (currentRoom m).topRow.set col ' ' } rfl,
          if_pos ⟨rfl, hidx⟩]
        exact list_getD_set_self _ _ _ _ hlen
      · intro i c r hr hnot
        rcases roomCell_write_top m
          { m with
            player := { column := col, row := 0, isAlive := true }
            rooms := m.rooms.set m.currentRoomIndex
              { currentRoom m with topRow := (currentRoom m).topRow.set col ' ' } }
          col ' ' { currentRoom m with topRow := (currentRoom m).topRow.set col ' ' }
          rfl rfl rfl i c r with h1 | ⟨h1, h2, h3, _⟩
        · exact h1
        · exact absurd ⟨h1, h2, h3⟩ hnot
    · have htop := hfirst rfl
      rw [roomCell_current_top] at htop
      rw [roomCell_current_bottom m col 1 (by decide)] at hcell
      have hscan := resetScan_found 16 m 0 col 1 (Nat.zero_le _) (by omega) hnone
        (Or.inr ⟨rfl, htop, hcell⟩)
      have hres : resetPlayerToRoomStart m =
          { m with
            player := { column := col, row := 1, isAlive := true }
            rooms := m.rooms.set m.currentRoomIndex
              { currentRoom m with bottomRow := (currentRoom m).bottomRow.set col ' ' } } := by
        unfold resetPlayerToRoomStart
        rw [hscan]
        rfl
      rw [hres]
      refine ⟨rfl, ?_, ?_⟩
      · rw [roomCell_rooms_set m _ m.currentRoomIndex
          { currentRoom m with bottomRow := (currentRoom m).bottomRow.set col ' ' } rfl,
          if_pos ⟨rfl, hidx⟩]
        exact list_getD_set_self _ _ _ _ hlen
      · intro i c r hr hnot
        rcases roomCell_write_bottom m
          { m with
            player := { column := col, row := 1, isAlive := true }
            rooms := m.rooms.set m.currentRoomIndex
              { currentRoom m with bottomRow := (currentRoom m).bottomRow.set col ' ' } }
          col ' ' { currentRoom m with bottomRow := (currentRoom m).bottomRow.set col ' ' }
          rfl rfl rfl i c r with h1 | ⟨h1, h2, h3, _⟩
        · exact h1
        · exact absurd ⟨h1, h2, by omega⟩ hnot
  · intro hno
    have hscan : resetScan m 16 0 = (m, false) := by
      apply resetScan_none_bounded
      intro k _ hk
      have h0 := hno k 0 (by omega) (by decide)
      have h1 := hno k 1 (by omega) (by decide)
      rw [roomCell_current_top] at h0
      rw [roomCell_current_bottom m k 1 (by decide)] at h1
      exact ⟨h0, h1⟩
    unfold resetPlayerToRoomStart
    rw [hscan]
    rfl

set_option maxRecDepth 100000 in
/-- C29 on a room with markers at column 2 of both rows and at column 4 of the
bottom row: the player is put at column 2 of the top row, that cell becomes a
blank and the two other markers stay. -/
theorem resetPlayerToRoomStart_first_marker_witness :
    FirstMarker twoMarkers 2 0 ∧
    (resetPlayerToRoomStart twoMarkers).player = { column := 2, row := 0, isAlive := true } ∧
    roomCell (resetPlayerToRoomStart twoMarkers) 0 2 0 = ' ' ∧
    roomCell (resetPlayerToRoomStart twoMarkers) 0 2 1 = 'P' ∧
    roomCell (resetPlayerToRoomStart twoMarkers) 0 4 1 = 'P' :=
  ⟨by decide!,
    ((resetPlayerToRoomStart_first_marker twoMarkers).2.2.1 2 0 (by decide!)).1,
    ((resetPlayerToRoomStart_first_marker twoMarkers).2.2.1 2 0 (by decide!)).2.1,
    by decide!, by decide!⟩

/-! ## C28 -/

theorem cellAt_eq_roomCell (m : GameModel) (c r : Nat) :
    cellAt m c r = roomCell m m.currentRoomIndex c r := rfl

/-- `collectCupAt` changes at most the cell it is called on, from a cup to a blank. -/
theorem collectCupAt_roomCell (m : GameModel) (column row i c r : Nat) :
    roomCell (collectCupAt m column row).2 i c r = roomCell m i c r ∨
      (column < 16 ∧ row < 2 ∧ i = m.currentRoomIndex ∧ c = column ∧ (r = 0 ↔ row = 0) ∧
        roomCell m i c r = '3' ∧ roomCell (collectCupAt m column row).2 i c r = ' ') := by
  by_cases hb : column ≥ 16 ∨ row ≥ 2
  · left
    unfold collectCupAt
    rw [if_pos hb]
  · by_cases hcup : cellAt m column row = '3'
    · have hne : roomCell m m.currentRoomIndex column row ≠ ' ' := by
        rw [← cellAt_eq_roomCell, hcup]; decide
      obtain ⟨hidx, _⟩ := roomCell_ne_blank_bounds m _ column row hne
      by_cases hrow : row = 0
      · subst hrow
        have hrooms : (collectCupAt m column 0).2.rooms =
            m.rooms.set m.currentRoomIndex
              { currentRoom m with
                topRow := (currentRoom m).topRow.set column ' '
                cupsCollected := ((currentRoom m).cupsCollected + 1) % BYTE_RANGE } := by
          unfold collectCupAt
          rw [if_neg hb, if_pos hcup]
          simp [setCell, addScore, currentRoom, roomAt, hidx, List.getD_eq_getElem?_getD]
        rcases roomCell_write_top m (collectCupAt m column 0).2 column ' '
          { currentRoom m with
            topRow := (currentRoom m).topRow.set column ' '
            cupsCollected := ((currentRoom m).cupsCollected + 1) % BYTE_RANGE }
          rfl rfl hrooms i c r with h1 | ⟨h1, h2, h3, h4⟩
        · exact Or.inl h1
        · right
          refine ⟨by omega, by omega, h1, h2, by rw [h3], ?_, h4⟩
          rw [h1, h2, h3, ← cellAt_eq_roomCell]
          exact hcup
      · have hrooms : (collectCupAt m column row).2.rooms =
            m.rooms.set m.currentRoomIndex
              { currentRoom m with
                bottomRow := (currentRoom m).bottomRow.set column ' '
                cupsCollected := ((currentRoom m).cupsCollected + 1) % BYTE_RANGE } := by
          unfold collectCupAt
          rw [if_neg hb, if_pos hcup]
          simp [setCell, addScore, currentRoom, roomAt, hidx, List.getD_eq_getElem?_getD, hrow]
        rcases roomCell_write_bottom m (collectCupAt m column row).2 column ' '
          { currentRoom m with
            bottomRow := (currentRoom m).bottomRow.set column ' '
            cupsCollected := ((currentRoom m).cupsCollected + 1) % BYTE_RANGE }
          rfl rfl hrooms i c r with h1 | ⟨h1, h2, h3, h4⟩
        · exact Or.inl h1
        · right
          refine ⟨by omega, by omega, h1, h2, ⟨fun hx => absurd hx h3, fun hx => absurd hx hrow⟩,
            ?_, h4⟩
          have hcup1 := hcup
          rw [cellAt_eq_roomCell, roomCell_current_bottom m column row hrow] at hcup1
          rw [h1, h2, roomCell_current_bottom m column r h3]
          exact hcup1
    · left
      unfold collectCupAt
      rw [if_neg hb, if_neg hcup]

/-- An accepted move changes at most the destination cell, from a cup to a blank. -/
theorem moveTo_roomCell (m : GameModel) (column row i c r : Nat) :
    roomCell (moveTo m column row) i c r = roomCell m i c r ∨
      (column < 16 ∧ row < 2 ∧ i = m.currentRoomIndex ∧ c = column ∧ (r = 0 ↔ row = 0) ∧
        roomCell m i c r = '3' ∧ roomCell (moveTo m column row) i c r = ' ') := by
  unfold moveTo
  dsimp only
  by_cases hcup : getEntityAt m column row = '3'
  · rw [if_pos hcup]
    by_cases hfire : checkFireAt { m with player := { m.player with column := column, row := row } }
        column row = true
    · rw [if_pos hfire]
      exact collectCupAt_roomCell
        (killPlayer { m with player := { m.player with column := column, row := row } })
        column row i c r
    · rw [if_neg hfire]
      exact collectCupAt_roomCell
        { m with player := { m.player with column := column, row := row } } column row i c r
  · rw [if_neg hcup]
    left
    split <;> rfl

/-- `movePlayer` changes at most the destination cell of the current room,
from a cup to a blank. -/
theorem movePlayer_roomCell (m : GameModel) (dc dr : Int) (i c r : Nat) (hr : r < 2) :
    roomCell (movePlayer m dc dr).2 i c r = roomCell m i c r ∨
      (i = m.currentRoomIndex ∧ (c : Int) = (m.player.column : Int) + dc ∧
        (r : Int) = (m.player.row : Int) + dr ∧
        roomCell m i c r = '3' ∧ roomCell (movePlayer m dc dr).2 i c r = ' ') := by
  by_cases h : MoveRejected m dc dr
  · rw [movePlayer_rejected m dc dr h]
    exact Or.inl rfl
  · rw [movePlayer_accepted m dc dr h]
    unfold MoveRejected at h
    have hb : ¬ ((m.player.column : Int) + dc < 0 ∨ (m.player.column : Int) + dc ≥ 16 ∨
        (m.player.row : Int) + dr < 0 ∨ (m.player.row : Int) + dr ≥ 2) :=
      fun hx => h (Or.inr (Or.inl hx))
    have e1 := toByte_of_lt ((m.player.column : Int) + dc) (by omega) (by omega)
    have e2 := toByte_of_lt ((m.player.row : Int) + dr) (by omega) (by omega)
    rcases moveTo_roomCell m (toByte ((m.player.column : Int) + dc))
      (toByte ((m.player.row : Int) + dr)) i c r with h1 | ⟨_, _, h3, h4, h5, h6, h7⟩
    · exact Or.inl h1
    · right
      refine ⟨h3, ?_, ?_, h6, h7⟩
      · rw [h4, e1]; omega
      · rw [e2] at h5; omega

theorem clearCollected_step_rows (rs : List Room) (j i : Nat) :
    ((rs.set j { rs.getD j Room.blank with cupsCollected := 0 }).getD i Room.blank).topRow =
        (rs.getD i Room.blank).topRow ∧
      ((rs.set j { rs.getD j Room.blank with cupsCollected := 0 }).getD i Room.blank).bottomRow =
        (rs.getD i Room.blank).bottomRow := by
  by_cases hij : i = j
  · subst hij
    by_cases hl : i < rs.length
    · simp [List.getD_eq_getElem?_getD, hl]
    · rw [List.set_eq_of_length_le (by omega)]
      exact ⟨rfl, rfl⟩
  · simp [List.getD_eq_getElem?_getD, List.getElem?_set_ne (Ne.symm hij)]

theorem clearCollected_fold_rows (l : List Nat) (rs : List Room) (i : Nat) :
    ((l.foldl (fun rs i => rs.set i { rs.getD i Room.blank with cupsCollected := 0 }) rs).getD i
        Room.blank).topRow = (rs.getD i Room.blank).topRow ∧
      ((l.foldl (fun rs i => rs.set i { rs.getD i Room.blank with cupsCollected := 0 }) rs).getD i
        Room.blank).bottomRow = (rs.getD i Room.blank).bottomRow := by
  induction l generalizing rs with
  | nil => exact ⟨rfl, rfl⟩
  | cons j rest ih =>
    rw [List.foldl_cons]
    obtain ⟨a1, a2⟩ := ih (rs.set j { rs.getD j Room.blank with cupsCollected := 0 })
    obtain ⟨b1, b2⟩ := clearCollected_step_rows rs j i
    exact ⟨a1.trans b1, a2.trans b2⟩

/-- Clearing the `cupsCollected` counters leaves every cell as it is. -/
theorem roomCell_clearCollected (m m1 : GameModel) (h : m1.rooms = clearCollected m.rooms)
    (i c r : Nat) : roomCell m1 i c r = roomCell m i c r := by
  obtain ⟨a1, a2⟩ := clearCollected_fold_rows (List.range TOTAL_ROOMS) m.rooms i
  unfold roomCell roomAt
  rw [h]
  unfold clearCollected
  rw [a1, a2]

/-- `startNewGame` changes a cell only by erasing a start marker of room 0. -/
theorem startNewGame_roomCell (m : GameModel) (now : Nat) (i c r : Nat) :
    (startNewGame m now).currentRoomIndex = 0 ∧
    (roomCell (startNewGame m now) i c r = roomCell m i c r ∨
      (i = 0 ∧ roomCell m i c r = 'P' ∧ roomCell (startNewGame m now) i c r = ' ')) := by
  have e : startNewGame m now = startRoomTimer (resetPlayerToRoomStart
      { m with currentState := .PLAYING, currentRoomIndex := 0, score := 0,
               rooms := clearCollected m.rooms }) now := rfl
  have hidx := resetPlayerToRoomStart_currentRoomIndex
      { m with currentState := .PLAYING, currentRoomIndex := 0, score := 0,
               rooms := clearCollected m.rooms }
  have hcell := resetPlayerToRoomStart_cells
      { m with currentState := .PLAYING, currentRoomIndex := 0, score := 0,
               rooms := clearCollected m.rooms } i c r
  have hold : roomCell
      { m with currentState := .PLAYING, currentRoomIndex := 0, score := 0,
               rooms := clearCollected m.rooms } i c r = roomCell m i c r :=
    roomCell_clearCollected m _ rfl i c r
  rw [hold] at hcell
  rw [e]
  generalize resetPlayerToRoomStart
    { m with currentState := .PLAYING, currentRoomIndex := 0, score := 0,
             rooms := clearCollected m.rooms } = x at hidx hcell
  refine ⟨hidx, ?_⟩
  rcases hcell with h1 | ⟨h1, h2, h3⟩
  · exact Or.inl h1
  · exact Or.inr ⟨h1, h2, h3⟩

/-- `advanceToNextRoom` changes a cell only by erasing a start marker of the
room it enters. -/
theorem advanceToNextRoom_roomCell (m : GameModel) (now later : Nat) (i c r : Nat) :
    roomCell (advanceToNextRoom m now later) i c r = roomCell m i c r ∨
      (i = (advanceToNextRoom m now later).currentRoomIndex ∧ roomCell m i c r = 'P' ∧
        roomCell (advanceToNextRoom m now later) i c r = ' ') := by
  unfold advanceToNextRoom
  by_cases hlt : m.currentRoomIndex < TOTAL_ROOMS - 1
  · rw [if_pos hlt]
    dsimp only
    have hidx := resetPlayerToRoomStart_currentRoomIndex
      { calculateRoomClearBonus m now with
        currentRoomIndex := ((calculateRoomClearBonus m now).currentRoomIndex + 1) % BYTE_RANGE }
    have hcell := resetPlayerToRoomStart_cells
      { calculateRoomClearBonus m now with
        currentRoomIndex := ((calculateRoomClearBonus m now).currentRoomIndex + 1) % BYTE_RANGE }
      i c r
    have hold : roomCell
        { calculateRoomClearBonus m now with
          currentRoomIndex := ((calculateRoomClearBonus m now).currentRoomIndex + 1) % BYTE_RANGE }
        i c r = roomCell m i c r := rfl
    rw [hold] at hcell
    generalize resetPlayerToRoomStart
      { calculateRoomClearBonus m now with
        currentRoomIndex := ((calculateRoomClearBonus m now).currentRoomIndex + 1) % BYTE_RANGE }
      = x at hidx hcell
    rcases hcell with h1 | ⟨h1, h2, h3⟩
    · exact Or.inl h1
    · right
      refine ⟨?_, h2, h3⟩
      rw [h1]
      exact hidx.symm
  · rw [if_neg hlt]
    exact Or.inl rfl

/-- One public operation changes a cell only in the room that is current when
it writes, to a blank, and the cell held a cup (the destination of `movePlayer`
or the cell `collectCupAt` was called on) or a start marker (an operation that
runs `resetPlayerToRoomStart`). -/
theorem applyOp_roomCell (m : GameModel) (op : Op) (i c r : Nat) (hr : r < 2) :
    roomCell (applyOp m op) i c r = roomCell m i c r ∨
      (i = (applyOp m op).currentRoomIndex ∧ roomCell (applyOp m op) i c r = ' ' ∧
        ((roomCell m i c r = '3' ∧
            ((∃ dc dr, op = Op.movePlayer dc dr ∧ (c : Int) = (m.player.column : Int) + dc ∧
                (r : Int) = (m.player.row : Int) + dr) ∨
              op = Op.collectCupAt c r)) ∨
          (roomCell m i c r = 'P' ∧
            (op = Op.respawnPlayer ∨ (∃ now, op = Op.startNewGame now) ∨
              (∃ now, op = Op.confirmMenuSelection now) ∨
              (∃ now later, op = Op.advanceToNextRoom now later))))) := by
  cases op with
  | setState s => exact Or.inl rfl
  | selectNextMenuOption => exact Or.inl rfl
  | selectPreviousMenuOption =>
    left
    show roomCell (selectPreviousMenuOption m) i c r = _
    unfold selectPreviousMenuOption
    split <;> rfl
  | confirmMenuSelection now =>
    show roomCell (confirmMenuSelection m now) i c r = _ ∨
      (i = (confirmMenuSelection m now).currentRoomIndex ∧
        roomCell (confirmMenuSelection m now) i c r = ' ' ∧ _)
    unfold confirmMenuSelection
    by_cases hs : m.selectedMenuOption = MenuOption.START_GAME
    · rw [if_pos hs]
      obtain ⟨h0, hcell⟩ := startNewGame_roomCell m now i c r
      rcases hcell with h1 | ⟨h1, h2, h3⟩
      · exact Or.inl h1
      · exact Or.inr ⟨by rw [h0]; exact h1, h3, Or.inr ⟨h2, Or.inr (Or.inr (Or.inl ⟨now, rfl⟩))⟩⟩
    · rw [if_neg hs]
      exact Or.inl rfl
  | startNewGame now =>
    show roomCell (startNewGame m now) i c r = _ ∨
      (i = (startNewGame m now).currentRoomIndex ∧ roomCell (startNewGame m now) i c r = ' ' ∧ _)
    obtain ⟨h0, hcell⟩ := startNewGame_roomCell m now i c r
    rcases hcell with h1 | ⟨h1, h2, h3⟩
    · exact Or.inl h1
    · exact Or.inr ⟨by rw [h0]; exact h1, h3, Or.inr ⟨h2, Or.inr (Or.inl ⟨now, rfl⟩)⟩⟩
  | resetGame => exact Or.inl rfl
  | movePlayer dc dr =>
    show roomCell (movePlayer m dc dr).2 i c r = _ ∨
      (i = (movePlayer m dc dr).2.currentRoomIndex ∧ roomCell (movePlayer m dc dr).2 i c r = ' ' ∧ _)
    rcases movePlayer_roomCell m dc dr i c r hr with h1 | ⟨h1, h2, h3, h4, h5⟩
    · exact Or.inl h1
    · exact Or.inr ⟨by rw [movePlayer_currentRoomIndex]; exact h1, h5,
        Or.inl ⟨h4, Or.inl ⟨dc, dr, rfl, h2, h3⟩⟩⟩
  | killPlayer => exact Or.inl rfl
  | respawnPlayer =>
    show roomCell (resetPlayerToRoomStart m) i c r = _ ∨
      (i = (resetPlayerToRoomStart m).currentRoomIndex ∧
        roomCell (resetPlayerToRoomStart m) i c r = ' ' ∧ _)
    rcases resetPlayerToRoomStart_cells m i c r with h1 | ⟨h1, h2, h3⟩
    · exact Or.inl h1
    · exact Or.inr ⟨by rw [resetPlayerToRoomStart_currentRoomIndex]; exact h1, h3,
        Or.inr ⟨h2, Or.inl rfl⟩⟩
  | advanceToNextRoom now later =>
    show roomCell (advanceToNextRoom m now later) i c r = _ ∨
      (i = (advanceToNextRoom m now later).currentRoomIndex ∧
        roomCell (advanceToNextRoom m now later) i c r = ' ' ∧ _)
    rcases advanceToNextRoom_roomCell m now later i c r with h1 | ⟨h1, h2, h3⟩
    · exact Or.inl h1
    · exact Or.inr ⟨h1, h3, Or.inr ⟨h2, Or.inr (Or.inr (Or.inr ⟨now, later, rfl⟩))⟩⟩
  | collectCupAt column row =>
    show roomCell (collectCupAt m column row).2 i c r = _ ∨
      (i = (collectCupAt m column row).2.currentRoomIndex ∧
        roomCell (collectCupAt m column row).2 i c r = ' ' ∧ _)
    rcases collectCupAt_roomCell m column row i c r with h1 | ⟨_, h0, h1, h2, h3, h4, h5⟩
    · exact Or.inl h1
    · have hrow : r = row := by
        by_cases hz : r = 0
        · have := h3.1 hz
          omega
        · have : ¬ row = 0 := fun hx => hz (h3.2 hx)
          omega
      subst hrow
      subst h2
      exact Or.inr ⟨by rw [collectCupAt_currentRoomIndex]; exact h1, h5, Or.inl ⟨h4, Or.inr rfl⟩⟩
  | addScore p => exact Or.inl rfl
  | calculateRoomClearBonus now => exact Or.inl rfl
  | startRoomTimer now => exact Or.inl rfl
  | addHighscore s => exact Or.inl rfl
  | loadHighscoresFromEEPROM e a =>
    exact Or.inl (roomCell_congr m _ (loadHighscoresFromEEPROM_rooms m e a).1 i c r)
  | resetHighscores => exact Or.inl rfl
  | setVictory => exact Or.inl rfl
  | setGameOver => exact Or.inl rfl

/-- No sequence of public operations changes a fire or ladder cell. -/
theorem runOps_hazard_cell (ops : List Op) (m : GameModel) (i c r : Nat) (hr : r < 2)
    (h : roomCell m i c r = 'F' ∨ roomCell m i c r = '1' ∨ roomCell m i c r = 'H' ∨
      roomCell m i c r = '2') :
    roomCell (runOps m ops) i c r = roomCell m i c r := by
  induction ops generalizing m with
  | nil => rfl
  | cons op rest ih =>
    have hstep : roomCell (applyOp m op) i c r = roomCell m i c r := by
      rcases applyOp_roomCell m op i c r hr with h1 | ⟨_, _, h3⟩
      · exact h1
      · exfalso
        rcases h3 with ⟨h4, _⟩ | ⟨h4, _⟩ <;> rw [h4] at h <;> revert h <;> decide
    show roomCell (runOps (applyOp m op) rest) i c r = _
    rw [ih (applyOp m op) (by rw [hstep]; exact h), hstep]

set_option maxRecDepth 100000 in
/-- C28, the claim as stated fails: in room 0 of a new game, with the player on
the start cell (column 0, row 1), the public call `collectCupAt(3, 0)` turns
the cup at column 3 of the top row into a blank. The player has not moved, no
`movePlayer` call from this state changes that cell, and the cell held no
start marker. -/
theorem collectCupAt_changes_cell_without_move :
    Reachable (startNewGame GameModel.init 0) ∧
    (startNewGame GameModel.init 0).player = { column := 0, row := 1, isAlive := true } ∧
    roomCell (startNewGame GameModel.init 0) 0 3 0 = '3' ∧
    roomCell (applyOp (startNewGame GameModel.init 0) (Op.collectCupAt 3 0)) 0 3 0 = ' ' ∧
    (applyOp (startNewGame GameModel.init 0) (Op.collectCupAt 3 0)).player =
      (startNewGame GameModel.init 0).player ∧
    (∀ dc dr, roomCell (movePlayer (startNewGame GameModel.init 0) dc dr).2 0 3 0 = '3') := by
  have hcup : roomCell (startNewGame GameModel.init 0) 0 3 0 = '3' := by decide!
  have hcol : (startNewGame GameModel.init 0).player.column = 0 := by decide!
  have hrow : (startNewGame GameModel.init 0).player.row = 1 := by decide!
  have hrej : movePlayer (startNewGame GameModel.init 0) 3 (-1) =
      (false, startNewGame GameModel.init 0) := by decide!
  refine ⟨⟨[Op.startNewGame 0], rfl⟩, by decide!, hcup, by decide!, by decide!, ?_⟩
  intro dc dr
  rcases movePlayer_roomCell (startNewGame GameModel.init 0) dc dr 0 3 0 (by decide) with
    h1 | ⟨_, h2, h3, _, _⟩
  · rw [h1]; exact hcup
  · rw [hcol] at h2
    rw [hrow] at h3
    have hdc : dc = 3 := by omega
    have hdr : dr = -1 := by omega
    subst hdc
    subst hdr
    rw [hrej]
    exact hcup

/-- C28, amended. For every model state, public operation and grid cell: a
fire or ladder cell is not changed, by one operation or by any sequence of
them; `movePlayer` changes at most its destination cell; and a cell that
changes belongs to the room that is current when the operation writes (the
current room after the operation), becomes a blank, and either held a cup and
is the destination of the `movePlayer` call or the cell a direct `collectCupAt`
call names, or held a start marker and the operation runs
`resetPlayerToRoomStart` (`respawnPlayer`, `startNewGame`, `confirmMenuSelection`,
`advanceToNextRoom`). -/
theorem grid_changes_only_cups_and_markers (m : GameModel) (op : Op) (i c r : Nat)
    (hr : r < 2) :
    ((roomCell m i c r = 'F' ∨ roomCell m i c r = '1' ∨ roomCell m i c r = 'H' ∨
        roomCell m i c r = '2') →
      roomCell (applyOp m op) i c r = roomCell m i c r ∧
      ∀ ops : List Op, roomCell (runOps m ops) i c r = roomCell m i c r) ∧
    (∀ dc dr, roomCell (movePlayer m dc dr).2 i c r ≠ roomCell m i c r →
      i = m.currentRoomIndex ∧ (c : Int) = (m.player.column : Int) + dc ∧
      (r : Int) = (m.player.row : Int) + dr ∧
      roomCell m i c r = '3' ∧ roomCell (movePlayer m dc dr).2 i c r = ' ') ∧
    (roomCell (applyOp m op) i c r ≠ roomCell m i c r →
      i = (applyOp m op).currentRoomIndex ∧ roomCell (applyOp m op) i c r = ' ' ∧
      ((roomCell m i c r = '3' ∧
          ((∃ dc dr, op = Op.movePlayer dc dr ∧ (c : Int) = (m.player.column : Int) + dc ∧
              (r : Int) = (m.player.row : Int) + dr) ∨
            op = Op.collectCupAt c r)) ∨
        (roomCell m i c r = 'P' ∧
          (op = Op.respawnPlayer ∨ (∃ now, op = Op.startNewGame now) ∨
            (∃ now, op = Op.confirmMenuSelection now) ∨
            (∃ now later, op = Op.advanceToNextRoom now later))))) := by
  refine ⟨?_, ?_, ?_⟩
  · intro h
    exact ⟨runOps_hazard_cell [op] m i c r hr h, fun ops => runOps_hazard_cell ops m i c r hr h⟩
  · intro dc dr hne
    rcases movePlayer_roomCell m dc dr i c r hr with h1 | h1
    · exact absurd h1 hne
    · exact h1
  · intro hne
    rcases applyOp_roomCell m op i c r hr with h1 | h1
    · exact absurd h1 hne
    · exact h1

set_option maxRecDepth 100000 in
/-- C28, amended, in room 0 of a new game: the step to the right leaves the
ladder cell at column 8 of the top row alone, and so does every sequence of
operations. -/
theorem grid_changes_only_cups_and_markers_witness :
    roomCell (startNewGame GameModel.init 0) 0 8 0 = 'H' ∧
    roomCell (applyOp (startNewGame GameModel.init 0) (Op.movePlayer 1 0)) 0 8 0 =
      roomCell (startNewGame GameModel.init 0) 0 8 0 ∧
    ∀ ops : List Op, roomCell (runOps (startNewGame GameModel.init 0) ops) 0 8 0 =
      roomCell (startNewGame GameModel.init 0) 0 8 0 :=
  ⟨by decide!,
    (grid_changes_only_cups_and_markers (startNewGame GameModel.init 0) (Op.movePlayer 1 0)
      0 8 0 (by decide)).1 (Or.inr (Or.inr (Or.inl (by decide!))))⟩

/-! ## C30 -/

theorem erased_get (address : Int) :
    EEPROM.erased.get address = { scores := [0xFFFF, 0xFFFF, 0xFFFF], checksum := 0xFF } := by
  simp [EEPROM.get, EEPROM.readByte, EEPROM.erased]

/-- C30: loading from erased storage (every byte `0xFF`) sets the table to
`[0, 0, 0]`; and whatever the store holds, valid record or not, no entry of
the table equals `0xFFFF` after `loadHighscoresFromEEPROM`. -/
theorem load_never_yields_erased_word (m : GameModel) (e : EEPROM) (address : Int)
    (hlen : m.highscores.length = 3) :
    (loadHighscoresFromEEPROM m EEPROM.erased address).1.highscores = [0, 0, 0] ∧
    ∀ x ∈ (loadHighscoresFromEEPROM m e address).1.highscores, x ≠ 0xFFFF := by
  constructor
  · have hv : calculateChecksum (EEPROM.erased.get address).scores ≠
        (EEPROM.erased.get address).checksum := by
      rw [erased_get]
      decide
    exact (load_invalid m EEPROM.erased address hlen hv).1
  · by_cases hv : calculateChecksum (e.get address).scores = (e.get address).checksum
    · have hs : (e.get address).scores =
          [e.readByte address + 256 * e.readByte (address + 1),
            e.readByte (address + 2) + 256 * e.readByte (address + 3),
            e.readByte (address + 4) + 256 * e.readByte (address + 5)] := rfl
      rw [(load_valid m e address _ _ _ hlen hs hv).1]
      intro x hx
      simp only [List.map_cons, List.map_nil, List.mem_cons, List.mem_singleton,
        List.not_mem_nil, or_false] at hx
      rcases hx with hx | hx | hx <;> rw [hx] <;> split <;> first | decide | assumption
    · rw [(load_invalid m e address hlen hv).1]
      intro x hx
      simp only [List.mem_cons, List.mem_singleton, List.not_mem_nil, or_false] at hx
      rcases hx with hx | hx | hx <;> rw [hx] <;> decide

set_option maxRecDepth 100000 in
/-- C30 at power-on: the erased store gives `[0, 0, 0]`, and the valid record
with scores 65535, 5, 0 is loaded as `[0, 5, 0]`. -/
theorem load_never_yields_erased_word_witness :
    GameModel.init.highscores.length = 3 ∧
    (loadHighscoresFromEEPROM GameModel.init EEPROM.erased 0).1.highscores = [0, 0, 0] ∧
    (sentinelRecordStore.get 0).scores = [0xFFFF, 5, 0] ∧
    calculateChecksum (sentinelRecordStore.get 0).scores = (sentinelRecordStore.get 0).checksum ∧
    (loadHighscoresFromEEPROM GameModel.init sentinelRecordStore 0).1.highscores = [0, 5, 0] ∧
    ∀ x ∈ (loadHighscoresFromEEPROM GameModel.init sentinelRecordStore 0).1.highscores,
      x ≠ 0xFFFF :=
  ⟨by decide!, (load_never_yields_erased_word GameModel.init sentinelRecordStore 0
      (by decide!)).1, by decide!, by decide!, by decide!,
    (load_never_yields_erased_word GameModel.init sentinelRecordStore 0 (by decide!)).2⟩

/-! ## C31 -/

theorem calculateRoomClearBonus_eq (m : GameModel) (now : Nat) :
    calculateRoomClearBonus m now = addScore m (roomClearBonus (elapsedSeconds m now)) := rfl

theorem roomClearBonus_zero : roomClearBonus 0 = 49 := by decide

theorem roomClearBonus_one : roomClearBonus 1 = 49 := by decide

theorem roomClearBonus_65536 : roomClearBonus 65536 = 50 := by decide

theorem roomClearBonus_le_49 (e : Nat) (he : e ≤ 50) : roomClearBonus e ≤ 49 := by
  rw [roomClearBonus_within_base e he]
  omega

/-- C31, the code on both sides of the claim. Called less than one second
after the room timer started, `calculateRoomClearBonus` adds 49, as it does
when one whole second has elapsed, and for every elapsed time up to 50 s the
amount added is at most 49. But when 65536 whole seconds have elapsed the
unsigned difference `50 - 65536`, stored in a 16-bit `unsigned int`, is 50:
the full base is added. -/
theorem bonus_subsecond_49_full_base_after_wrap (m : GameModel) (now : Nat)
    (h : ulongSub now m.roomStartTime < 1000) :
    elapsedSeconds m now = 0 ∧
    calculateRoomClearBonus m now = addScore m 49 ∧
    (calculateRoomClearBonus m now).score = (m.score + 49) % 65536 ∧
    (∀ t, elapsedSeconds m t = 1 → calculateRoomClearBonus m t = calculateRoomClearBonus m now) ∧
    (∀ t, elapsedSeconds m t ≤ 50 →
      ∃ b, b ≤ 49 ∧ calculateRoomClearBonus m t = addScore m b) ∧
    (∀ t, elapsedSeconds m t = 65536 → calculateRoomClearBonus m t = addScore m 50) := by
  have h0 : elapsedSeconds m now = 0 := by
    unfold elapsedSeconds
    omega
  have h49 : calculateRoomClearBonus m now = addScore m 49 := by
    rw [calculateRoomClearBonus_eq, h0, roomClearBonus_zero]
  refine ⟨h0, h49, ?_, ?_, ?_, ?_⟩
  · rw [h49]; rfl
  · intro t ht
    rw [h49, calculateRoomClearBonus_eq, ht, roomClearBonus_one]
  · intro t ht
    exact ⟨roomClearBonus (elapsedSeconds m t), roomClearBonus_le_49 _ ht,
      calculateRoomClearBonus_eq m t⟩
  · intro t ht
    rw [calculateRoomClearBonus_eq, ht, roomClearBonus_65536]

set_option maxRecDepth 100000 in
/-- C31 at the failing input: room 0 of a game started at clock 0 is cleared
with score 20. The bonus taken at 500 ms or at 1000 ms is 49 (score 69); the
bonus taken at 65536000 ms, 65536 s after the room timer started, is 50
(score 70). -/
theorem bonus_subsecond_49_full_base_after_wrap_witness :
    Reachable room0Cleared ∧
    room0Cleared.score = 20 ∧
    ulongSub 500 room0Cleared.roomStartTime < 1000 ∧
    (calculateRoomClearBonus room0Cleared 500).score = 69 ∧
    (calculateRoomClearBonus room0Cleared 1000).score = 69 ∧
    elapsedSeconds room0Cleared 65536000 = 65536 ∧
    (calculateRoomClearBonus room0Cleared 65536000).score = 70 ∧
    calculateRoomClearBonus room0Cleared 65536000 = addScore room0Cleared 50 :=
  ⟨⟨[Op.startNewGame 0] ++ List.replicate 8 (Op.movePlayer 1 0) ++ [Op.movePlayer 0 (-1)] ++
      List.replicate 5 (Op.movePlayer (-1) 0) ++ List.replicate 12 (Op.movePlayer 1 0),
      by decide!⟩,
    by decide!, by decide!, by decide!, by decide!, by decide!, by decide!,
    (bonus_subsecond_49_full_base_after_wrap room0Cleared 500 (by decide!)).2.2.2.2.2
      65536000 (by decide!)⟩

/-! ## C32 -/

theorem topThreeWith_sorted (a b c s : Nat) (hab : a ≥ b) (hbc : b ≥ c) :
    topThreeWith [a, b, c] s =
      if s ≥ a then [s, a, b] else if s ≥ b then [a, s, b] else if s ≥ c then [a, b, s]
      else [a, b, c] := by
  simp only [topThreeWith, List.insertionSort, List.orderedInsert]
  rw [if_pos hbc]
  simp only [List.orderedInsert]
  rw [if_pos hab]
  simp only [List.orderedInsert]
  by_cases h1 : s ≥ a
  · rw [if_pos h1, if_pos h1]; rfl
  · rw [if_neg h1, if_neg h1]
    by_cases h2 : s ≥ b
    · rw [if_pos h2, if_pos h2]; rfl
    · rw [if_neg h2, if_neg h2]
      by_cases h3 : s ≥ c
      · rw [if_pos h3, if_pos h3]; rfl
      · rw [if_neg h3, if_neg h3]; rfl

/-- C32: for every table of three entries in non-increasing order and every
score `s` that is not in it, `addHighscore(s)` leaves the three largest of the
four values in non-increasing order. Slot by slot: entries above `s` keep
their slots, `s` takes the first slot whose entry is below it, the entries
from there on move down one slot and the last one is dropped; when `s` is not
above any entry the table is unchanged. -/
theorem addHighscore_keeps_top_three (m : GameModel) (a b c s : Nat)
    (ht : m.highscores = [a, b, c]) (hab : a ≥ b) (hbc : b ≥ c)
    (hs : s ∉ m.highscores) :
    (addHighscore m s).highscores = topThreeWith m.highscores s ∧
    (addHighscore m s).highscores.Pairwise (fun x y => x ≥ y) ∧
    (s > a → (addHighscore m s).highscores = [s, a, b]) ∧
    (a > s → s > b → (addHighscore m s).highscores = [a, s, b]) ∧
    (b > s → s > c → (addHighscore m s).highscores = [a, b, s]) ∧
    (c > s → addHighscore m s = m) := by
  rw [ht] at hs
  simp only [List.mem_cons, List.mem_singleton, List.not_mem_nil, or_false, not_or] at hs
  obtain ⟨n1, n2, n3⟩ := hs
  have hins : (addHighscore m s).highscores = insertHighscore [a, b, c] s := by
    unfold addHighscore
    rw [ht]
  have hself : c > s → addHighscore m s = m := by
    intro hc
    apply addHighscore_eq_self
    rw [ht, insertHighscore_three, if_neg (by omega), if_neg n1, if_neg (by omega), if_neg n2,
      if_neg (by omega)]
  rw [hins, ht, insertHighscore_three]
  by_cases h1 : s > a
  · rw [if_pos h1]
    refine ⟨?_, ?_, fun _ => rfl, fun h => by omega, fun h => by omega, hself⟩
    · rw [topThreeWith_sorted a b c s hab hbc]
      split_ifs <;> first | rfl | omega
    · simp only [List.pairwise_cons, List.mem_cons, List.mem_singleton, List.not_mem_nil,
        forall_eq_or_imp, forall_eq, List.Pairwise.nil, and_true, IsEmpty.forall_iff,
        implies_true]
      omega
  · rw [if_neg h1, if_neg n1]
    by_cases h2 : s > b
    · rw [if_pos h2]
      refine ⟨?_, ?_, fun h => absurd h h1, fun _ _ => rfl, fun h => by omega, hself⟩
      · rw [topThreeWith_sorted a b c s hab hbc]
        split_ifs <;> first | rfl | omega
      · simp only [List.pairwise_cons, List.mem_cons, List.mem_singleton, List.not_mem_nil,
          forall_eq_or_imp, forall_eq, List.Pairwise.nil, and_true, IsEmpty.forall_iff,
          implies_true]
        omega
    · rw [if_neg h2, if_neg n2]
      by_cases h3 : s > c
      · rw [if_pos h3]
        refine ⟨?_, ?_, fun h => absurd h h1, fun _ h => absurd h h2, fun _ _ => rfl, hself⟩
        · rw [topThreeWith_sorted a b c s hab hbc]
          split_ifs <;> first | rfl | omega
        · simp only [List.pairwise_cons, List.mem_cons, List.mem_singleton, List.not_mem_nil,
            forall_eq_or_imp, forall_eq, List.Pairwise.nil, and_true, IsEmpty.forall_iff,
            implies_true]
          omega
      · rw [if_neg h3]
        refine ⟨?_, ?_, fun h => absurd h h1, fun _ h => absurd h h2, fun _ h => absurd h h3,
          hself⟩
        · rw [topThreeWith_sorted a b c s hab hbc]
          split_ifs <;> first | rfl | omega
        · simp only [List.pairwise_cons, List.mem_cons, List.mem_singleton, List.not_mem_nil,
            forall_eq_or_imp, forall_eq, List.Pairwise.nil, and_true, IsEmpty.forall_iff,
            implies_true]
          omega

set_option maxRecDepth 100000 in
/-- C32 on the table `[120, 100, 50]`: the score 110 takes the second slot,
100 moves down and 50 is dropped. -/
theorem addHighscore_keeps_top_three_witness :
    fullTable.highscores = [120, 100, 50] ∧ 110 ∉ fullTable.highscores ∧
    (addHighscore fullTable 110).highscores = topThreeWith fullTable.highscores 110 ∧
    (addHighscore fullTable 110).highscores = [120, 110, 100] :=
  ⟨by decide!, by decide!,
    (addHighscore_keeps_top_three fullTable 120 100 50 110 (by decide!) (by decide) (by decide)
      (by decide!)).1,
    (addHighscore_keeps_top_three fullTable 120 100 50 110 (by decide!) (by decide) (by decide)
      (by decide!)).2.2.2.1 (by decide) (by decide)⟩

/-! ## C33 -/

theorem roomAt_rooms_set (m m1 : GameModel) (idx : Nat) (r1 : Room)
    (h : m1.rooms = m.rooms.set idx r1) (i : Nat) :
    roomAt m1 i = if i = idx ∧ idx < m.rooms.length then r1 else roomAt m i := by
  unfold roomAt
  rw [h]
  by_cases hi : i = idx
  · subst hi
    by_cases hl : i < m.rooms.length
    · rw [if_pos (show i = i ∧ i < m.rooms.length from ⟨rfl, hl⟩)]
      simp [List.getD_eq_getElem?_getD, hl]
    · rw [if_neg (show ¬ (i = i ∧ i < m.rooms.length) from fun hx => hl hx.2),
        List.set_eq_of_length_le (by omega)]
  · rw [if_neg (show ¬ (i = idx ∧ idx < m.rooms.length) from fun hx => hi hx.1)]
    simp [List.getD_eq_getElem?_getD, List.getElem?_set_ne (Ne.symm hi)]

theorem NoCupGain_of_rooms_eq (m m1 : GameModel) (h : m1.rooms = m.rooms) : NoCupGain m m1 := by
  intro i
  unfold roomAt
  rw [h]
  exact ⟨Nat.le_refl _, rfl⟩

theorem NoCupGain_trans (m m1 m2 : GameModel) (h1 : NoCupGain m m1) (h2 : NoCupGain m1 m2) :
    NoCupGain m m2 := by
  intro i
  exact ⟨Nat.le_trans (h2 i).1 (h1 i).1, (h2 i).2.trans (h1 i).2⟩

theorem NoCupGain_set_current (m m1 : GameModel) (r1 : Room)
    (h : m1.rooms = m.rooms.set m.currentRoomIndex r1)
    (hr : cupsAccounted r1 ≤ cupsAccounted (currentRoom m))
    (hin : r1.cupsInRoom = (currentRoom m).cupsInRoom) : NoCupGain m m1 := by
  intro i
  rw [roomAt_rooms_set m m1 _ r1 h]
  by_cases hi : i = m.currentRoomIndex ∧ m.currentRoomIndex < m.rooms.length
  · rw [if_pos hi, hi.1]
    exact ⟨hr, hin⟩
  · rw [if_neg hi]
    exact ⟨Nat.le_refl _, rfl⟩

theorem resetScan_NoCupGain (fuel : Nat) (m : GameModel) (col : Nat) :
    NoCupGain m (resetScan m fuel col).1 := by
  induction fuel generalizing col with
  | zero => exact NoCupGain_of_rooms_eq m _ rfl
  | succ n ih =>
    unfold resetScan
    by_cases ht : (currentRoom m).topRow.getD col ' ' = 'P'
    · rw [if_pos ht]
      apply NoCupGain_set_current m _
        { currentRoom m with topRow := (currentRoom m).topRow.set col ' ' } rfl
      · have := cupsInRow_set_blank_le (currentRoom m).topRow col
        unfold cupsAccounted cupsLeft
        dsimp only
        omega
      · rfl
    · rw [if_neg ht]
      by_cases hb : (currentRoom m).bottomRow.getD col ' ' = 'P'
      · rw [if_pos hb]
        apply NoCupGain_set_current m _
          { currentRoom m with bottomRow := (currentRoom m).bottomRow.set col ' ' } rfl
        · have := cupsInRow_set_blank_le (currentRoom m).bottomRow col
          unfold cupsAccounted cupsLeft
          dsimp only
          omega
        · rfl
      · rw [if_neg hb]
        exact ih (col + 1)

theorem resetPlayerToRoomStart_NoCupGain (m : GameModel) :
    NoCupGain m (resetPlayerToRoomStart m) :=
  NoCupGain_trans m _ _ (resetScan_NoCupGain 16 m 0)
    (NoCupGain_of_rooms_eq _ _ (resetPlayerToRoomStart_rooms m))

theorem clearCollected_step_room (rs : List Room) (j i : Nat) :
    cupsAccounted ((rs.set j { rs.getD j Room.blank with cupsCollected := 0 }).getD i Room.blank) ≤
        cupsAccounted (rs.getD i Room.blank) ∧
      ((rs.set j { rs.getD j Room.blank with cupsCollected := 0 }).getD i Room.blank).cupsInRoom =
        (rs.getD i Room.blank).cupsInRoom := by
  by_cases hij : i = j
  · subst hij
    by_cases hl : i < rs.length
    · simp [List.getD_eq_getElem?_getD, hl, cupsAccounted, cupsLeft]
    · rw [List.set_eq_of_length_le (by omega)]
      exact ⟨Nat.le_refl _, rfl⟩
  · simp [List.getD_eq_getElem?_getD, List.getElem?_set_ne (Ne.symm hij)]

theorem clearCollected_fold_room (l : List Nat) (rs : List Room) (i : Nat) :
    cupsAccounted ((l.foldl (fun rs i => rs.set i { rs.getD i Room.blank with cupsCollected := 0 })
        rs).getD i Room.blank) ≤ cupsAccounted (rs.getD i Room.blank) ∧
      ((l.foldl (fun rs i => rs.set i { rs.getD i Room.blank with cupsCollected := 0 }) rs).getD i
        Room.blank).cupsInRoom = (rs.getD i Room.blank).cupsInRoom := by
  induction l generalizing rs with
  | nil => exact ⟨Nat.le_refl _, rfl⟩
  | cons j rest ih =>
    rw [List.foldl_cons]
    obtain ⟨a1, a2⟩ := ih (rs.set j { rs.getD j Room.blank with cupsCollected := 0 })
    obtain ⟨b1, b2⟩ := clearCollected_step_room rs j i
    exact ⟨Nat.le_trans a1 b1, a2.trans b2⟩

theorem clearCollected_NoCupGain (m m1 : GameModel) (h : m1.rooms = clearCollected m.rooms) :
    NoCupGain m m1 := by
  intro i
  unfold roomAt
  rw [h]
  exact clearCollected_fold_room (List.range TOTAL_ROOMS) m.rooms i

theorem startNewGame_NoCupGain (m : GameModel) (now : Nat) : NoCupGain m (startNewGame m now) := by
  have e : startNewGame m now = startRoomTimer (resetPlayerToRoomStart
      { m with currentState := .PLAYING, currentRoomIndex := 0, score := 0,
               rooms := clearCollected m.rooms }) now := rfl
  have h1 : NoCupGain m
      { m with currentState := .PLAYING, currentRoomIndex := 0, score := 0,
               rooms := clearCollected m.rooms } := clearCollected_NoCupGain m _ rfl
  have h2 := resetPlayerToRoomStart_NoCupGain
      { m with currentState := .PLAYING, currentRoomIndex := 0, score := 0,
               rooms := clearCollected m.rooms }
  rw [e]
  generalize resetPlayerToRoomStart
    { m with currentState := .PLAYING, currentRoomIndex := 0, score := 0,
             rooms := clearCollected m.rooms } = x at h2
  exact NoCupGain_trans m _ _ (NoCupGain_trans m _ _ h1 h2) (NoCupGain_of_rooms_eq x _ rfl)

theorem advanceToNextRoom_NoCupGain (m : GameModel) (now later : Nat) :
    NoCupGain m (advanceToNextRoom m now later) := by
  unfold advanceToNextRoom
  by_cases hlt : m.currentRoomIndex < TOTAL_ROOMS - 1
  · rw [if_pos hlt]
    dsimp only
    have h2 := resetPlayerToRoomStart_NoCupGain
      { calculateRoomClearBonus m now with
        currentRoomIndex := ((calculateRoomClearBonus m now).currentRoomIndex + 1) % BYTE_RANGE }
    have h1 : NoCupGain m
        { calculateRoomClearBonus m now with
          currentRoomIndex := ((calculateRoomClearBonus m now).currentRoomIndex + 1) % BYTE_RANGE } :=
      NoCupGain_of_rooms_eq m _ rfl
    generalize resetPlayerToRoomStart
      { calculateRoomClearBonus m now with
        currentRoomIndex := ((calculateRoomClearBonus m now).currentRoomIndex + 1) % BYTE_RANGE }
      = x at h2
    exact NoCupGain_trans m _ _ (NoCupGain_trans m _ _ h1 h2) (NoCupGain_of_rooms_eq x _ rfl)
  · rw [if_neg hlt]
    exact NoCupGain_of_rooms_eq m _ rfl

theorem collectCupAt_NoCupGain (m : GameModel) (column row : Nat) :
    NoCupGain m (collectCupAt m column row).2 := by
  by_cases hb : column ≥ 16 ∨ row ≥ 2
  · unfold collectCupAt
    rw [if_pos hb]
    exact NoCupGain_of_rooms_eq m _ rfl
  · by_cases hcup : cellAt m column row = '3'
    · have hne : roomCell m m.currentRoomIndex column row ≠ ' ' := by
        rw [← cellAt_eq_roomCell, hcup]; decide
      obtain ⟨hidx, _⟩ := roomCell_ne_blank_bounds m _ column row hne
      have hc16 : column < 16 := by omega
      by_cases hrow : row = 0
      · subst hrow
        have hrooms : (collectCupAt m column 0).2.rooms =
            m.rooms.set m.currentRoomIndex
              { currentRoom m with
                topRow := (currentRoom m).topRow.set column ' '
                cupsCollected := ((currentRoom m).cupsCollected + 1) % BYTE_RANGE } := by
          unfold collectCupAt
          rw [if_neg hb, if_pos hcup]
          simp [setCell, addScore, currentRoom, roomAt, hidx, List.getD_eq_getElem?_getD]
        have hcell : (currentRoom m).topRow.getD column ' ' = '3' := hcup
        have hcnt := cupsInRow_set_cup _ _ hc16 hcell
        apply NoCupGain_set_current m _ _ hrooms
        · unfold cupsAccounted cupsLeft BYTE_RANGE
          dsimp only
          omega
        · rfl
      · have hrooms : (collectCupAt m column row).2.rooms =
            m.rooms.set m.currentRoomIndex
              { currentRoom m with
                bottomRow := (currentRoom m).bottomRow.set column ' '
                cupsCollected := ((currentRoom m).cupsCollected + 1) % BYTE_RANGE } := by
          unfold collectCupAt
          rw [if_neg hb, if_pos hcup]
          simp [setCell, addScore, currentRoom, roomAt, hidx, List.getD_eq_getElem?_getD, hrow]
        have hcell : (currentRoom m).bottomRow.getD column ' ' = '3' := by
          have hx := hcup
          rw [cellAt_eq_roomCell, roomCell_current_bottom m column row hrow] at hx
          exact hx
        have hcnt := cupsInRow_set_cup _ _ hc16 hcell
        apply NoCupGain_set_current m _ _ hrooms
        · unfold cupsAccounted cupsLeft BYTE_RANGE
          dsimp only
          omega
        · rfl
    · unfold collectCupAt
      rw [if_neg hb, if_neg hcup]
      exact NoCupGain_of_rooms_eq m _ rfl

theorem movePlayer_NoCupGain (m : GameModel) (dc dr : Int) :
    NoCupGain m (movePlayer m dc dr).2 := by
  by_cases hrej : MoveRejected m dc dr
  · rw [movePlayer_rejected m dc dr hrej]
    exact NoCupGain_of_rooms_eq m _ rfl
  · rw [movePlayer_accepted m dc dr hrej]
    unfold moveTo
    dsimp only
    split
    · split
      · exact NoCupGain_trans m _ _ (NoCupGain_of_rooms_eq m _ rfl) (collectCupAt_NoCupGain _ _ _)
      · exact NoCupGain_trans m _ _ (NoCupGain_of_rooms_eq m _ rfl) (collectCupAt_NoCupGain _ _ _)
    · split <;> exact NoCupGain_of_rooms_eq m _ rfl

theorem applyOp_NoCupGain (m : GameModel) (op : Op) : NoCupGain m (applyOp m op) := by
  cases op with
  | setState s => exact NoCupGain_of_rooms_eq m _ rfl
  | selectNextMenuOption => exact NoCupGain_of_rooms_eq m _ rfl
  | selectPreviousMenuOption =>
    show NoCupGain m (selectPreviousMenuOption m)
    unfold selectPreviousMenuOption
    split <;> exact NoCupGain_of_rooms_eq m _ rfl
  | confirmMenuSelection now =>
    show NoCupGain m (confirmMenuSelection m now)
    unfold confirmMenuSelection
    split
    · exact startNewGame_NoCupGain m now
    · exact NoCupGain_of_rooms_eq m _ rfl
  | startNewGame now => exact startNewGame_NoCupGain m now
  | resetGame => exact NoCupGain_of_rooms_eq m _ rfl
  | movePlayer dc dr => exact movePlayer_NoCupGain m dc dr
  | killPlayer => exact NoCupGain_of_rooms_eq m _ rfl
  | respawnPlayer => exact resetPlayerToRoomStart_NoCupGain m
  | advanceToNextRoom now later => exact advanceToNextRoom_NoCupGain m now later
  | collectCupAt c r => exact collectCupAt_NoCupGain m c r
  | addScore p => exact NoCupGain_of_rooms_eq m _ rfl
  | calculateRoomClearBonus now => exact NoCupGain_of_rooms_eq m _ rfl
  | startRoomTimer now => exact NoCupGain_of_rooms_eq m _ rfl
  | addHighscore s => exact NoCupGain_of_rooms_eq m _ rfl
  | loadHighscoresFromEEPROM e a =>
    exact NoCupGain_of_rooms_eq m _ (loadHighscoresFromEEPROM_rooms m e a).1
  | resetHighscores => exact NoCupGain_of_rooms_eq m _ rfl
  | setVictory => exact NoCupGain_of_rooms_eq m _ rfl
  | setGameOver => exact NoCupGain_of_rooms_eq m _ rfl

theorem runOps_NoCupGain (ops : List Op) (m : GameModel) : NoCupGain m (runOps m ops) := by
  induction ops generalizing m with
  | nil => exact NoCupGain_of_rooms_eq m _ rfl
  | cons op rest ih =>
    exact NoCupGain_trans m _ _ (applyOp_NoCupGain m op) (ih (applyOp m op))

/-- A room with fewer accounted cups than `cupsInRoom` is never cleared again. -/
theorem short_room_never_cleared (m : GameModel) (i : Nat) (ops : List Op)
    (h : cupsAccounted (roomAt m i) < (roomAt m i).cupsInRoom)
    (hi : (runOps m ops).currentRoomIndex = i) : isCurrentRoomCleared (runOps m ops) = false := by
  obtain ⟨h1, h2⟩ := runOps_NoCupGain ops m i
  unfold isCurrentRoomCleared currentRoom
  rw [hi]
  apply decide_eq_false
  unfold cupsAccounted at h h1
  omega

set_option maxRecDepth 100000 in
/-- C33, the code at the failing input: after a game in which one of the two
cups of room 0 was collected, a second `startNewGame` leaves room 0 with
`cupsCollected = 0` and one cup in the grid while `cupsInRoom` is still 2, so
`cupsCollected` plus the cups remaining is 1, not `cupsInRoom`. Whatever
public operations follow, the state stays reachable and room 0 is never
cleared while it is the current room. -/
theorem restart_leaves_room_short (ops : List Op) :
    Reachable restartedAfterCup ∧
    restartedAfterCup.currentState = GameState.PLAYING ∧
    restartedAfterCup.currentRoomIndex = 0 ∧
    (roomAt restartedAfterCup 0).cupsCollected = 0 ∧
    cupsLeft (roomAt restartedAfterCup 0) = 1 ∧
    (roomAt restartedAfterCup 0).cupsInRoom = 2 ∧
    (roomAt restartedAfterCup 0).cupsCollected + cupsLeft (roomAt restartedAfterCup 0) ≠
      (roomAt restartedAfterCup 0).cupsInRoom ∧
    Reachable (runOps restartedAfterCup ops) ∧
    ((runOps restartedAfterCup ops).currentRoomIndex = 0 →
      isCurrentRoomCleared (runOps restartedAfterCup ops) = false) := by
  have hfacts : restartedAfterCup.currentState = GameState.PLAYING ∧
      restartedAfterCup.currentRoomIndex = 0 ∧
      (roomAt restartedAfterCup 0).cupsCollected = 0 ∧
      cupsLeft (roomAt restartedAfterCup 0) = 1 ∧
      (roomAt restartedAfterCup 0).cupsInRoom = 2 := by decide!
  obtain ⟨f1, f2, f3, f4, f5⟩ := hfacts
  refine ⟨⟨_, rfl⟩, f1, f2, f3, f4, f5, by rw [f3, f4, f5]; decide, ?_, ?_⟩
  · refine ⟨([Op.startNewGame 0] ++ List.replicate 8 (Op.movePlayer 1 0) ++
      [Op.movePlayer 0 (-1)] ++ List.replicate 5 (Op.movePlayer (-1) 0) ++
      [Op.startNewGame 100000]) ++ ops, ?_⟩
    unfold restartedAfterCup runOps
    rw [List.foldl_append]
  · intro hi
    apply short_room_never_cleared restartedAfterCup 0 ops _ hi
    unfold cupsAccounted
    rw [f3, f4, f5]
    decide

set_option maxRecDepth 100000 in
/-- C33 continued from the failing input: the player walks to the one cup left
in room 0 (column 15 of the top row) and collects it; the grid then holds no
cup, `cupsCollected` is 1 of 2 and the room is not cleared. -/
theorem restart_leaves_room_short_witness :
    (runOps restartedAfterCup
      (List.replicate 8 (Op.movePlayer 1 0) ++ [Op.movePlayer 0 (-1)] ++
        List.replicate 7 (Op.movePlayer 1 0))).currentRoomIndex = 0 ∧
    (roomAt (runOps restartedAfterCup
      (List.replicate 8 (Op.movePlayer 1 0) ++ [Op.movePlayer 0 (-1)] ++
        List.replicate 7 (Op.movePlayer 1 0))) 0).cupsCollected = 1 ∧
    cupsLeft (roomAt (runOps restartedAfterCup
      (List.replicate 8 (Op.movePlayer 1 0) ++ [Op.movePlayer 0 (-1)] ++
        List.replicate 7 (Op.movePlayer 1 0))) 0) = 0 ∧
    isCurrentRoomCleared (runOps restartedAfterCup
      (List.replicate 8 (Op.movePlayer 1 0) ++ [Op.movePlayer 0 (-1)] ++
        List.replicate 7 (Op.movePlayer 1 0))) = false :=
  ⟨by decide!, by decide!, by decide!,
    (restart_leaves_room_short
      (List.replicate 8 (Op.movePlayer 1 0) ++ [Op.movePlayer 0 (-1)] ++
        List.replicate 7 (Op.movePlayer 1 0))).2.2.2.2.2.2.2.2 (by decide!)⟩

/-! ## C34 -/

set_option maxRecDepth 1000000 in
/-- C34: the six built-in rooms have `cupsInRoom` 2, 2, 3, 3, 4, 6, sixteen
layout cells in each row (no padding) and the start marker at column 0 of the
bottom row. For each room the steps of `roomMoves`, all of one cell, taken
from the state in which the room is entered (player on the start cell), never
put the player on a fire cell, every one of them is accepted, and at the end
the room is cleared: all its cups are collected and none is left in the grid. -/
theorem every_room_can_be_cleared :
    (List.range 6).map (fun k => (roomAt GameModel.init k).cupsInRoom) = [2, 2, 3, 3, 4, 6] ∧
    ∀ k : Fin 6,
      ((roomAt GameModel.init k.val).topRow.take 16).length = 16 ∧
      ((roomAt GameModel.init k.val).bottomRow.take 16).length = 16 ∧
      Char.ofNat 0 ∉ (roomAt GameModel.init k.val).topRow.take 16 ∧
      Char.ofNat 0 ∉ (roomAt GameModel.init k.val).bottomRow.take 16 ∧
      roomCell GameModel.init k.val 0 1 = 'P' ∧
      (enterRoom k.val).currentRoomIndex = k.val ∧
      (enterRoom k.val).player = { column := 0, row := 1, isAlive := true } ∧
      (∀ d ∈ roomMoves.getD k.val [], UnitStep d) ∧
      movesAccepted (enterRoom k.val) (roomMoves.getD k.val []) = true ∧
      (∀ p ∈ (roomMoves.getD k.val []).inits,
        (movePlayerSeq (enterRoom k.val) p).player.isAlive = true ∧
        checkFireAt (movePlayerSeq (enterRoom k.val) p)
          (movePlayerSeq (enterRoom k.val) p).player.column
          (movePlayerSeq (enterRoom k.val) p).player.row = false) ∧
      isCurrentRoomCleared (walkRoom k.val) = true ∧
      (currentRoom (walkRoom k.val)).cupsCollected = (currentRoom (walkRoom k.val)).cupsInRoom ∧
      cupsLeft (currentRoom (walkRoom k.val)) = 0 := by
  decide!

/-! ## C35 -/

theorem collectCupAt_currentState (m : GameModel) (column row : Nat) :
    (collectCupAt m column row).2.currentState = m.currentState := by
  unfold collectCupAt
  split
  · rfl
  · split <;> rfl

theorem moveTo_currentState (m : GameModel) (column row : Nat) :
    (moveTo m column row).currentState = m.currentState := by
  unfold moveTo
  dsimp only
  split
  · rw [collectCupAt_currentState]
    split <;> rfl
  · split <;> rfl

theorem movePlayer_currentState (m : GameModel) (dc dr : Int) :
    (movePlayer m dc dr).2.currentState = m.currentState := by
  by_cases h : MoveRejected m dc dr
  · rw [movePlayer_rejected m dc dr h]
  · rw [movePlayer_accepted m dc dr h]
    exact moveTo_currentState _ _ _

theorem advanceToNextRoom_currentState (m : GameModel) (now later : Nat) :
    (advanceToNextRoom m now later).currentState = m.currentState ∨
      (advanceToNextRoom m now later).currentState = GameState.VICTORY := by
  unfold advanceToNextRoom
  by_cases hlt : m.currentRoomIndex < TOTAL_ROOMS - 1
  · rw [if_pos hlt]
    dsimp only
    have h := resetPlayerToRoomStart_currentState
      { calculateRoomClearBonus m now with
        currentRoomIndex := ((calculateRoomClearBonus m now).currentRoomIndex + 1) % BYTE_RANGE }
    generalize resetPlayerToRoomStart
      { calculateRoomClearBonus m now with
        currentRoomIndex := ((calculateRoomClearBonus m now).currentRoomIndex + 1) % BYTE_RANGE }
      = x at h
    exact Or.inl h
  · rw [if_neg hlt]
    exact Or.inr rfl

theorem loadHighscoresFromEEPROM_currentState (m : GameModel) (e : EEPROM) (a : Int) :
    (loadHighscoresFromEEPROM m e a).1.currentState = m.currentState := by
  unfold loadHighscoresFromEEPROM
  dsimp only
  split <;> rfl

theorem selectPreviousMenuOption_currentState (m : GameModel) :
    (selectPreviousMenuOption m).currentState = m.currentState := by
  unfold selectPreviousMenuOption
  split <;> rfl

theorem updateMenuState_currentState (c : GameController) (inp : Inputs) :
    (updateMenuState c inp).model.currentState = c.model.currentState := by
  unfold updateMenuState
  split
  · rfl
  · split
    · exact selectPreviousMenuOption_currentState c.model
    · split <;> rfl

theorem joystickMove_currentState (c : GameController) (inp : Inputs) :
    (joystickMove c inp).2.model.currentState = c.model.currentState := by
  unfold joystickMove
  split
  · exact movePlayer_currentState _ _ _
  · split
    · exact movePlayer_currentState _ _ _
    · split
      · exact movePlayer_currentState _ _ _
      · split
        · exact movePlayer_currentState _ _ _
        · rfl

theorem handlePlayerMovement_currentState (c : GameController) (inp : Inputs) :
    (handlePlayerMovement c inp).model.currentState = c.model.currentState := by
  by_cases hacc : canAcceptInput c inp = true
  · by_cases hw : c.waitingForRespawn = false
    · rw [(handlePlayerMovement_of_joystickMove c inp hacc hw).1]
      exact joystickMove_currentState c inp
    · unfold handlePlayerMovement
      rw [if_neg (by rw [hacc]; decide), if_pos (by simpa using hw)]
  · unfold handlePlayerMovement
    rw [if_pos (by simpa using hacc)]

theorem checkPlayerStatus_model (c : GameController) (inp : Inputs) :
    (checkPlayerStatus c inp).model = c.model := by
  unfold checkPlayerStatus
  split <;> rfl

theorem checkRoomCompletion_currentState (c : GameController) (inp : Inputs) :
    (checkRoomCompletion c inp).model.currentState = c.model.currentState ∨
      (checkRoomCompletion c inp).model.currentState = GameState.VICTORY := by
  unfold checkRoomCompletion
  dsimp only
  split
  · split
    · split
      · exact Or.inr rfl
      · exact advanceToNextRoom_currentState _ _ _
    · exact Or.inl rfl
  · split
    · split
      · exact Or.inr rfl
      · exact advanceToNextRoom_currentState _ _ _
    · exact Or.inl rfl

theorem handleRespawn_currentState (c : GameController) (inp : Inputs) :
    (handleRespawn c inp).model.currentState = c.model.currentState := by
  unfold handleRespawn
  split
  · exact resetPlayerToRoomStart_currentState c.model
  · rfl

theorem updatePlayingState_currentState (c : GameController) (inp : Inputs) :
    (updatePlayingState c inp).model.currentState = c.model.currentState ∨
      (updatePlayingState c inp).model.currentState = GameState.VICTORY := by
  have h1 := handlePlayerMovement_currentState c inp
  have h2 := checkPlayerStatus_model (handlePlayerMovement c inp) inp
  have h3 := checkRoomCompletion_currentState (checkPlayerStatus (handlePlayerMovement c inp) inp) inp
  rw [h2, h1] at h3
  unfold updatePlayingState
  dsimp only
  split
  · rw [handleRespawn_currentState]
    exact h3
  · exact h3

theorem updateVictoryState_currentState (c : GameController) (e : EEPROM) :
    (updateVictoryState c e).1.model.currentState = c.model.currentState := by
  unfold updateVictoryState
  split <;> rfl

theorem updateGameOverState_currentState (c : GameController) (e : EEPROM) :
    (updateGameOverState c e).1.model.currentState = c.model.currentState := by
  unfold updateGameOverState
  split <;> rfl

theorem controllerUpdate_currentState (c : GameController) (e : EEPROM) (inp : Inputs) :
    (controllerUpdate c e inp).1.model.currentState = c.model.currentState ∨
      (controllerUpdate c e inp).1.model.currentState = GameState.VICTORY := by
  unfold controllerUpdate
  split
  · exact Or.inl rfl
  · dsimp only
    split
    · exact Or.inl (updateMenuState_currentState _ inp)
    · exact updatePlayingState_currentState _ inp
    · exact Or.inl rfl
    · exact Or.inl (updateGameOverState_currentState _ e)
    · exact Or.inl (updateVictoryState_currentState _ e)

theorem handleSelectButton_not_game_over (c : GameController) (now : Nat) :
    (handleSelectButton c now).model.currentState ≠ GameState.GAME_OVER ∨
      ((handleSelectButton c now).model.currentState = c.model.currentState ∧
        c.model.currentState ≠ GameState.GAME_OVER) := by
  unfold handleSelectButton
  split
  · rename_i hst
    left
    show (confirmMenuSelection c.model now).currentState ≠ GameState.GAME_OVER
    unfold confirmMenuSelection
    split
    · rw [startNewGame_currentState]; decide
    · rw [hst]; decide
  · left
    show GameState.MENU ≠ GameState.GAME_OVER
    decide
  · left
    show GameState.MENU ≠ GameState.GAME_OVER
    decide
  · rename_i h1 h2 h3
    right
    refine ⟨rfl, ?_⟩
    intro hx
    exact h2 hx

theorem handlePauseButton_not_game_over (c : GameController) (now : Nat)
    (h : c.model.currentState ≠ GameState.GAME_OVER) :
    (handlePauseButton c now).model.currentState ≠ GameState.GAME_OVER := by
  unfold handlePauseButton
  split
  · show GameState.PAUSED ≠ GameState.GAME_OVER
    decide
  · show GameState.PLAYING ≠ GameState.GAME_OVER
    decide
  · exact h

theorem applyCtrlOp_not_game_over (s : GameController × EEPROM) (op : CtrlOp)
    (h : s.1.model.currentState ≠ GameState.GAME_OVER) :
    (applyCtrlOp s op).1.model.currentState ≠ GameState.GAME_OVER := by
  cases op with
  | update inp =>
    show (controllerUpdate s.1 s.2 inp).1.model.currentState ≠ GameState.GAME_OVER
    rcases controllerUpdate_currentState s.1 s.2 inp with h1 | h1
    · rw [h1]; exact h
    · rw [h1]; decide
  | selectButton now =>
    show (handleSelectButton s.1 now).model.currentState ≠ GameState.GAME_OVER
    rcases handleSelectButton_not_game_over s.1 now with h1 | h1
    · exact h1
    · rw [h1.1]; exact h
  | pauseButton now => exact handlePauseButton_not_game_over s.1 now h

theorem runCtrl_not_game_over (ops : List CtrlOp) (s : GameController × EEPROM)
    (h : s.1.model.currentState ≠ GameState.GAME_OVER) :
    (runCtrl s ops).1.model.currentState ≠ GameState.GAME_OVER := by
  induction ops generalizing s with
  | nil => exact h
  | cons op rest ih => exact ih (applyCtrlOp s op) (applyCtrlOp_not_game_over s op h)

theorem powerOn_currentState (e : EEPROM) :
    (powerOn e).1.model.currentState = GameState.MENU := by
  show (loadHighscoresFromEEPROM GameModel.init e 0).1.currentState = GameState.MENU
  rw [loadHighscoresFromEEPROM_currentState]
  decide!

/-- C35: no controller state reachable from power-on (with any storage
content, through update ticks with any clock values and readings and through
select and pause presses) has the model in GAME_OVER. When the player is dead,
`checkPlayerStatus` leaves the model as it is (it only opens the respawn
wait), and an update tick leaves the state where it was or moves it to
VICTORY. -/
theorem controller_never_game_over (c : GameController) (h : CtrlReachable c) :
    c.model.currentState ≠ GameState.GAME_OVER ∧
    (∀ inp, (checkPlayerStatus c inp).model = c.model) ∧
    (∀ e inp, (controllerUpdate c e inp).1.model.currentState = c.model.currentState ∨
      (controllerUpdate c e inp).1.model.currentState = GameState.VICTORY) ∧
    (∀ e ops, (runCtrl (c, e) ops).1.model.currentState ≠ GameState.GAME_OVER) := by
  obtain ⟨e0, ops0, rfl⟩ := h
  have h0 : (runCtrl (powerOn e0) ops0).1.model.currentState ≠ GameState.GAME_OVER := by
    apply runCtrl_not_game_over
    rw [powerOn_currentState]
    decide
  exact ⟨h0, fun inp => checkPlayerStatus_model _ inp,
    fun e inp => controllerUpdate_currentState _ e inp,
    fun e ops => runCtrl_not_game_over ops _ h0⟩

set_option maxRecDepth 1000000 in
/-- C35 on a game in which the player walks into the fire of room 1 at
10600 ms: the model is still in PLAYING with the respawn wait open. -/
theorem controller_never_game_over_witness :
    CtrlReachable diedInRoom1 ∧
    diedInRoom1.model.player.isAlive = false ∧
    diedInRoom1.waitingForRespawn = true ∧
    diedInRoom1.model.currentState = GameState.PLAYING ∧
    diedInRoom1.model.currentState ≠ GameState.GAME_OVER :=
  ⟨⟨EEPROM.erased, deathInRoom1Ops, rfl⟩, by decide!, by decide!, by decide!,
    (controller_never_game_over diedInRoom1 ⟨EEPROM.erased, deathInRoom1Ops, rfl⟩).1⟩

/-! ## C36 -/

theorem moveTo_player (m : GameModel) (column row : Nat) :
    (moveTo m column row).player.column = column ∧ (moveTo m column row).player.row = row := by
  unfold moveTo
  dsimp only
  split
  · rw [collectCupAt_player]
    split <;> exact ⟨rfl, rfl⟩
  · split <;> exact ⟨rfl, rfl⟩

theorem getEntityAt_congr (m m1 : GameModel) (hr : m1.rooms = m.rooms)
    (hi : m1.currentRoomIndex = m.currentRoomIndex) (c r : Nat) :
    getEntityAt m1 c r = getEntityAt m c r := by
  unfold getEntityAt cellAt rowData currentRoom roomAt
  rw [hr, hi]

/-- After an accepted move the cell under the player holds no cup. -/
theorem moveTo_no_cup_under_player (m : GameModel) (column row : Nat) :
    getEntityAt (moveTo m column row) (moveTo m column row).player.column
      (moveTo m column row).player.row ≠ '3' := by
  rw [(moveTo_player m column row).1, (moveTo_player m column row).2]
  by_cases hcup : getEntityAt m column row = '3'
  · rw [(moveTo_cup m column row hcup).2.2.2]
    decide
  · rw [getEntityAt_congr m (moveTo m column row) (moveTo_no_cup m column row hcup).1
      (moveTo_currentRoomIndex m column row)]
    exact hcup

theorem movePlayer_no_cup_under_player (m : GameModel) (dc dr : Int)
    (h : (movePlayer m dc dr).1 = true) :
    getEntityAt (movePlayer m dc dr).2 (movePlayer m dc dr).2.player.column
      (movePlayer m dc dr).2.player.row ≠ '3' := by
  by_cases hrej : MoveRejected m dc dr
  · rw [movePlayer_rejected m dc dr hrej] at h
    cases h
  · rw [movePlayer_accepted m dc dr hrej]
    exact moveTo_no_cup_under_player m _ _

theorem joystickMove_no_cup_under_player (c : GameController) (inp : Inputs)
    (h : (joystickMove c inp).1 = true) :
    getEntityAt (joystickMove c inp).2.model (joystickMove c inp).2.model.player.column
      (joystickMove c inp).2.model.player.row ≠ '3' := by
  unfold joystickMove at h ⊢
  by_cases h1 : isJoystickLeft inp = true
  · rw [if_pos h1] at h ⊢
    exact movePlayer_no_cup_under_player _ _ _ h
  · rw [if_neg h1] at h ⊢
    by_cases h2 : isJoystickRight inp = true
    · rw [if_pos h2] at h ⊢
      exact movePlayer_no_cup_under_player _ _ _ h
    · rw [if_neg h2] at h ⊢
      by_cases h3 : isJoystickUp inp = true
      · rw [if_pos h3] at h ⊢
        exact movePlayer_no_cup_under_player _ _ _ h
      · rw [if_neg h3] at h ⊢
        by_cases h4 : isJoystickDown inp = true
        · rw [if_pos h4] at h ⊢
          exact movePlayer_no_cup_under_player _ _ _ h
        · rw [if_neg h4] at h
          cases h

/-- C36: after every successful `movePlayer` the cell under the player is not
a cup (a cup at the destination has been removed by the move itself). Hence
the test `getEntityAt(...) == '3'` of `handlePlayerMovement` is false after
every successful joystick move, and `handlePlayerMovement` is the function
without that branch: after a move it only plays SOUND_PLAYER_MOVE; the
cup-collect sound and the bonus-LED blink are started for no controller state
and no input. -/
theorem cup_branch_of_handlePlayerMovement_is_dead (c : GameController) (inp : Inputs) :
    (∀ (m : GameModel) (dc dr : Int), (movePlayer m dc dr).1 = true →
      getEntityAt (movePlayer m dc dr).2 (movePlayer m dc dr).2.player.column
        (movePlayer m dc dr).2.player.row ≠ '3') ∧
    ((joystickMove c inp).1 = true →
      getEntityAt (joystickMove c inp).2.model (joystickMove c inp).2.model.player.column
        (joystickMove c inp).2.model.player.row ≠ '3') ∧
    handlePlayerMovement c inp =
      (if canAcceptInput c inp = false then c
        else if c.waitingForRespawn then c
        else if (joystickMove c inp).1 then
          { (joystickMove c inp).2 with
            hardware :=
              (playSound (joystickMove c inp).2.hardware SoundType.SOUND_PLAYER_MOVE inp.now).1 }
        else (joystickMove c inp).2) := by
  refine ⟨movePlayer_no_cup_under_player, joystickMove_no_cup_under_player c inp, ?_⟩
  unfold handlePlayerMovement
  by_cases hacc : canAcceptInput c inp = false
  · rw [if_pos hacc, if_pos hacc]
  · rw [if_neg hacc, if_neg hacc]
    by_cases hw : c.waitingForRespawn = true
    · rw [if_pos hw, if_pos hw]
    · rw [if_neg hw, if_neg hw]
      dsimp only
      by_cases hr : (joystickMove c inp).1 = true
      · rw [if_pos hr, if_pos hr, if_neg (joystickMove_no_cup_under_player c inp hr)]
      · rw [if_neg hr, if_neg hr]

set_option maxRecDepth 100000 in
/-- C36 on a step onto a cup: the player stands next to the cup at column 3 of
the top row of room 0 and the joystick is deflected to the left at 1000 ms.
The move collects the cup (score 10), the cell under the player is then a
blank, the sound left playing is SOUND_PLAYER_MOVE and no blink is started. -/
theorem cup_branch_of_handlePlayerMovement_is_dead_witness :
    getEntityAt room0NextToCup 3 0 = '3' ∧
    (joystickMove nextToCupController ⟨1000, 0, 512, 512⟩).1 = true ∧
    (handlePlayerMovement nextToCupController ⟨1000, 0, 512, 512⟩).model.score = 10 ∧
    (handlePlayerMovement nextToCupController ⟨1000, 0, 512, 512⟩).model.player.column = 3 ∧
    (handlePlayerMovement nextToCupController ⟨1000, 0, 512, 512⟩).hardware.currentSound =
      SoundType.SOUND_PLAYER_MOVE ∧
    (handlePlayerMovement nextToCupController ⟨1000, 0, 512, 512⟩).hardware.ledBlinkActive =
      false ∧
    getEntityAt (joystickMove nextToCupController ⟨1000, 0, 512, 512⟩).2.model
      (joystickMove nextToCupController ⟨1000, 0, 512, 512⟩).2.model.player.column
      (joystickMove nextToCupController ⟨1000, 0, 512, 512⟩).2.model.player.row ≠ '3' :=
  ⟨by decide!, by decide!, by decide!, by decide!, by decide!, by decide!,
    (cup_branch_of_handlePlayerMovement_is_dead nextToCupController ⟨1000, 0, 512, 512⟩).2.1
      (by decide!)⟩

/-! ## C37 -/

/-- C37, what the code does. On a table `[a, b, x]` with `a ≥ b` and the score
above the last entry `x`, `isNewHighscore(score)` is true on entry
to VICTORY or GAME_OVER. After the update has run, it is true exactly when the
score is at least the second entry: a score that takes the first or second
slot (or equals one of them) keeps the flag, a score that takes the third slot
becomes the last entry itself and the flag is false. -/
theorem new_highscore_flag_after_recording (c : GameController) (e : EEPROM) (a b x : Nat)
    (ht : c.model.highscores = [a, b, x]) (hab : a ≥ b)
    (hs : c.model.score > x) :
    isNewHighscore c.model c.model.score = true ∧
    updateGameOverState c e = updateVictoryState c e ∧
    (updateVictoryState c e).1.model.score = c.model.score ∧
    (isNewHighscore (updateVictoryState c e).1.model (updateVictoryState c e).1.model.score = true ↔
      c.model.score ≥ b) ∧
    (c.model.score < b →
      (updateVictoryState c e).1.model.highscores = [a, b, c.model.score] ∧
      isNewHighscore (updateVictoryState c e).1.model (updateVictoryState c e).1.model.score =
        false) := by
  have hnew : isNewHighscore c.model c.model.score = true := by
    rw [isNewHighscore_three _ a b x _ ht]
    exact decide_eq_true hs
  have hres : updateVictoryState c e =
      ({ c with model := addHighscore c.model c.model.score },
        saveHighscoresToEEPROM (addHighscore c.model c.model.score) e 0) := by
    unfold updateVictoryState
    rw [if_pos hnew]
  have htab : (addHighscore c.model c.model.score).highscores =
      insertHighscore [a, b, x] c.model.score := by
    unfold addHighscore
    rw [ht]
  have hscore : (addHighscore c.model c.model.score).score = c.model.score := rfl
  refine ⟨hnew, rfl, ?_, ?_, ?_⟩
  · rw [hres]
    exact hscore
  · rw [hres]
    dsimp only
    rw [hscore]
    generalize addHighscore c.model c.model.score = m1 at htab
    generalize c.model.score = s at hs htab
    rw [insertHighscore_three] at htab
    by_cases h1 : s > a
    · rw [if_pos h1] at htab
      rw [isNewHighscore_three m1 s a b s htab]
      simp only [decide_eq_true_eq]
      omega
    · rw [if_neg h1] at htab
      by_cases h2 : s = a
      · rw [if_pos h2] at htab
        rw [isNewHighscore_three m1 a b x s htab]
        simp only [decide_eq_true_eq]
        omega
      · rw [if_neg h2] at htab
        by_cases h3 : s > b
        · rw [if_pos h3] at htab
          rw [isNewHighscore_three m1 a s b s htab]
          simp only [decide_eq_true_eq]
          omega
        · rw [if_neg h3] at htab
          by_cases h4 : s = b
          · rw [if_pos h4] at htab
            rw [isNewHighscore_three m1 a b x s htab]
            simp only [decide_eq_true_eq]
            omega
          · rw [if_neg h4, if_pos hs] at htab
            rw [isNewHighscore_three m1 a b s s htab]
            simp only [decide_eq_true_eq]
            omega
  · intro hlt
    rw [hres]
    dsimp only
    rw [hscore]
    generalize addHighscore c.model c.model.score = m1 at htab
    generalize c.model.score = s at hs htab hlt
    rw [insertHighscore_three, if_neg (by omega), if_neg (by omega), if_neg (by omega),
      if_neg (by omega), if_pos hs] at htab
    refine ⟨htab, ?_⟩
    rw [isNewHighscore_three m1 a b s s htab]
    exact decide_eq_false (by omega)

set_option maxRecDepth 1000000 in
/-- C37 at the failing input: three sessions of the sketch, each a game won.
The first, from erased storage, leaves at address 0 the record of the table
`[414, 0, 0]`; the second, with a delay of 2 s, scores 412 and leaves the
record of `[414, 412, 0]`; the third, starting from that record, with a
delay of 4 s, enters VICTORY with score 410 and `isNewHighscore(410)` true.
After its first update tick in VICTORY the table is `[414, 412, 410]` and
`isNewHighscore(410)` is false. -/
theorem new_highscore_flag_after_recording_witness :
    (applyCtrlOp (runCtrl (powerOn EEPROM.erased) (delayedVictoryOps 0))
      (tickAt 46700 joyNeutral)).2.get 0 = (storeWithTable [414, 0, 0]).get 0 ∧
    (applyCtrlOp (runCtrl (powerOn (storeWithTable [414, 0, 0])) (delayedVictoryOps 2000))
      (tickAt 48700 joyNeutral)).2.get 0 = (storeWithTable [414, 412, 0]).get 0 ∧
    thirdWin.1.model.currentState = GameState.VICTORY ∧
    thirdWin.1.model.score = 410 ∧
    thirdWin.1.model.highscores = [414, 412, 0] ∧
    isNewHighscore thirdWin.1.model thirdWin.1.model.score = true ∧
    thirdWinRecorded.1.model.currentState = GameState.VICTORY ∧
    thirdWinRecorded.1.model.score = 410 ∧
    thirdWinRecorded.1.model.highscores = [414, 412, 410] ∧
    isNewHighscore thirdWinRecorded.1.model thirdWinRecorded.1.model.score = false ∧
    isNewHighscore (updateVictoryState thirdWin.1 thirdWin.2).1.model
      (updateVictoryState thirdWin.1 thirdWin.2).1.model.score = false :=
  have hfacts : (applyCtrlOp (runCtrl (powerOn EEPROM.erased) (delayedVictoryOps 0))
        (tickAt 46700 joyNeutral)).2.get 0 = (storeWithTable [414, 0, 0]).get 0 ∧
      (applyCtrlOp (runCtrl (powerOn (storeWithTable [414, 0, 0])) (delayedVictoryOps 2000))
        (tickAt 48700 joyNeutral)).2.get 0 = (storeWithTable [414, 412, 0]).get 0 ∧
      thirdWin.1.model.currentState = GameState.VICTORY ∧
      thirdWin.1.model.score = 410 ∧
      thirdWin.1.model.highscores = [414, 412, 0] ∧
      isNewHighscore thirdWin.1.model thirdWin.1.model.score = true ∧
      thirdWinRecorded.1.model.currentState = GameState.VICTORY ∧
      thirdWinRecorded.1.model.score = 410 ∧
      thirdWinRecorded.1.model.highscores = [414, 412, 410] ∧
      isNewHighscore thirdWinRecorded.1.model thirdWinRecorded.1.model.score = false ∧
      thirdWin.1.model.score > 0 ∧ thirdWin.1.model.score < 412 := by decide!
  ⟨hfacts.1, hfacts.2.1, hfacts.2.2.1, hfacts.2.2.2.1, hfacts.2.2.2.2.1, hfacts.2.2.2.2.2.1,
    hfacts.2.2.2.2.2.2.1, hfacts.2.2.2.2.2.2.2.1, hfacts.2.2.2.2.2.2.2.2.1,
    hfacts.2.2.2.2.2.2.2.2.2.1,
    ((new_highscore_flag_after_recording thirdWin.1 thirdWin.2 414 412 0 hfacts.2.2.2.2.1
      (by decide) hfacts.2.2.2.2.2.2.2.2.2.2.1).2.2.2.2
      hfacts.2.2.2.2.2.2.2.2.2.2.2).2⟩

/-! ## C38 -/

theorem insertHighscore_idem (a b c s : Nat) :
    insertHighscore (insertHighscore [a, b, c] s) s = insertHighscore [a, b, c] s := by
  rw [insertHighscore_three a b c s]
  by_cases h1 : s > a
  · rw [if_pos h1, insertHighscore_three, if_neg (by omega), if_pos rfl]
  · rw [if_neg h1]
    by_cases h2 : s = a
    · rw [if_pos h2, insertHighscore_three, if_neg h1, if_pos h2]
    · rw [if_neg h2]
      by_cases h3 : s > b
      · rw [if_pos h3, insertHighscore_three, if_neg h1, if_neg h2, if_neg (by omega), if_pos rfl]
      · rw [if_neg h3]
        by_cases h4 : s = b
        · rw [if_pos h4, insertHighscore_three, if_neg h1, if_neg h2, if_neg h3, if_pos h4]
        · rw [if_neg h4]
          by_cases h5 : s > c
          · rw [if_pos h5, insertHighscore_three, if_neg h1, if_neg h2, if_neg h3, if_neg h4,
              if_neg (by omega)]
          · rw [if_neg h5, insertHighscore_three, if_neg h1, if_neg h2, if_neg h3, if_neg h4,
              if_neg h5]

theorem insertHighscore_length (t : List Nat) (s : Nat) (h : t.length = 3) :
    (insertHighscore t s).length = 3 := by
  obtain ⟨a, b, c, rfl⟩ := list_length_three t h
  rw [insertHighscore_three]
  split_ifs <;> rfl

theorem addHighscore_idem (m : GameModel) (s : Nat) (h : m.highscores.length = 3) :
    addHighscore (addHighscore m s) s = addHighscore m s := by
  obtain ⟨a, b, c, habc⟩ := list_length_three _ h
  apply addHighscore_eq_self
  show insertHighscore (insertHighscore m.highscores s) s = insertHighscore m.highscores s
  rw [habc]
  exact insertHighscore_idem a b c s

theorem recordScore_idem (m : GameModel) (h : m.highscores.length = 3) :
    recordScore (recordScore m) = recordScore m := by
  unfold recordScore
  by_cases hn : isNewHighscore m m.score = true
  · rw [if_pos hn]
    have hs : (addHighscore m m.score).score = m.score := rfl
    rw [hs]
    split
    · exact addHighscore_idem m m.score h
    · rfl
  · rw [if_neg hn, if_neg hn]

theorem recordScore_length (m : GameModel) (h : m.highscores.length = 3) :
    (recordScore m).highscores.length = 3 := by
  unfold recordScore
  split
  · exact insertHighscore_length _ _ h
  · exact h

theorem recordScore_currentState (m : GameModel) :
    (recordScore m).currentState = m.currentState := by
  unfold recordScore
  split <;> rfl

theorem updateVictoryState_model (c : GameController) (e : EEPROM) :
    (updateVictoryState c e).1.model = recordScore c.model := by
  unfold updateVictoryState recordScore
  split <;> rfl

theorem updateGameOverState_model (c : GameController) (e : EEPROM) :
    (updateGameOverState c e).1.model = recordScore c.model := by
  unfold updateGameOverState recordScore
  split <;> rfl

theorem repeatVictoryUpdate_model (n : Nat) (s : GameController × EEPROM)
    (h : s.1.model.highscores.length = 3) :
    (repeatVictoryUpdate (n + 1) s).1.model = recordScore s.1.model := by
  induction n generalizing s with
  | zero => exact updateVictoryState_model s.1 s.2
  | succ k ih =>
    show (repeatVictoryUpdate (k + 1) (updateVictoryState s.1 s.2)).1.model = _
    rw [ih (updateVictoryState s.1 s.2) (by rw [updateVictoryState_model]; exact recordScore_length _ h),
      updateVictoryState_model, recordScore_idem _ h]

/-- An update tick in VICTORY or GAME_OVER leaves the model as it is (tick
throttled) or records the score. -/
theorem controllerUpdate_end_state_model (c : GameController) (e : EEPROM) (inp : Inputs)
    (h : c.model.currentState = GameState.VICTORY ∨ c.model.currentState = GameState.GAME_OVER) :
    (controllerUpdate c e inp).1.model = c.model ∨
      (controllerUpdate c e inp).1.model = recordScore c.model := by
  unfold controllerUpdate
  split
  · exact Or.inl rfl
  · dsimp only
    rcases h with h | h
    · rw [h]
      exact Or.inr (updateVictoryState_model _ e)
    · rw [h]
      exact Or.inr (updateGameOverState_model _ e)

theorem runCtrl_updates_end_state (inps : List Inputs) (s : GameController × EEPROM)
    (m : GameModel) (hlen : m.highscores.length = 3)
    (hst : m.currentState = GameState.VICTORY ∨ m.currentState = GameState.GAME_OVER)
    (hm : s.1.model = m ∨ s.1.model = recordScore m) :
    (runCtrl s (inps.map CtrlOp.update)).1.model = m ∨
      (runCtrl s (inps.map CtrlOp.update)).1.model = recordScore m := by
  induction inps generalizing s with
  | nil => exact hm
  | cons inp rest ih =>
    show (runCtrl (controllerUpdate s.1 s.2 inp) (rest.map CtrlOp.update)).1.model = m ∨ _
    apply ih
    have hst1 : s.1.model.currentState = GameState.VICTORY ∨
        s.1.model.currentState = GameState.GAME_OVER := by
      rcases hm with hm | hm
      · rw [hm]; exact hst
      · rw [hm, recordScore_currentState]; exact hst
    rcases controllerUpdate_end_state_model s.1 s.2 inp hst1 with h1 | h1
    · rw [h1]; exact hm
    · rw [h1]
      right
      rcases hm with hm | hm
      · rw [hm]
      · rw [hm, recordScore_idem m hlen]

/-- C38: `addHighscore` is idempotent on every table of three entries, sorted
or not, and for every score. Hence the table after any number `n + 1` of runs
of the Victory (or GameOver, which is the same function) update equals the
table after the first run; and after any sequence of update ticks in VICTORY
or GAME_OVER the table is the one before (every tick throttled) or the one
after the first run. -/
theorem addHighscore_idempotent (c : GameController) (e : EEPROM) (s : Nat)
    (hlen : c.model.highscores.length = 3) :
    addHighscore (addHighscore c.model s) s = addHighscore c.model s ∧
    updateGameOverState c e = updateVictoryState c e ∧
    (∀ n, (repeatVictoryUpdate (n + 1) (c, e)).1.model.highscores =
      (updateVictoryState c e).1.model.highscores) ∧
    (c.model.currentState = GameState.VICTORY ∨ c.model.currentState = GameState.GAME_OVER →
      ∀ inps : List Inputs,
        (runCtrl (c, e) (inps.map CtrlOp.update)).1.model.highscores = c.model.highscores ∨
        (runCtrl (c, e) (inps.map CtrlOp.update)).1.model.highscores =
          (updateVictoryState c e).1.model.highscores) := by
  refine ⟨addHighscore_idem c.model s hlen, rfl, ?_, ?_⟩
  · intro n
    rw [repeatVictoryUpdate_model n (c, e) hlen, updateVictoryState_model]
  · intro hst inps
    rw [updateVictoryState_model]
    rcases runCtrl_updates_end_state inps (c, e) c.model hlen hst (Or.inl rfl) with h1 | h1
    · rw [h1]; exact Or.inl rfl
    · rw [h1]; exact Or.inr rfl

set_option maxRecDepth 100000 in
/-- C38 on the controller in VICTORY with score 120 and an empty table: after
one run of the update and after three runs the table is `[120, 0, 0]`, and so
it is after three update ticks at 100, 200 and 300 ms. -/
theorem addHighscore_idempotent_witness :
    victoryWith120.model.highscores.length = 3 ∧
    (updateVictoryState victoryWith120 EEPROM.erased).1.model.highscores = [120, 0, 0] ∧
    (repeatVictoryUpdate 3 (victoryWith120, EEPROM.erased)).1.model.highscores =
      (updateVictoryState victoryWith120 EEPROM.erased).1.model.highscores ∧
    (runCtrl (victoryWith120, EEPROM.erased)
      [tickAt 100 joyNeutral, tickAt 200 joyNeutral, tickAt 300 joyNeutral]).1.model.highscores =
        [120, 0, 0] ∧
    addHighscore (addHighscore victoryWith120.model 120) 120 =
      addHighscore victoryWith120.model 120 :=
  ⟨by decide!, by decide!,
    (addHighscore_idempotent victoryWith120 EEPROM.erased 120 (by decide!)).2.2.1 2,
    by decide!,
    (addHighscore_idempotent victoryWith120 EEPROM.erased 120 (by decide!)).1⟩

/-! ## C39 -/

theorem MelodyOK_of_not_playing (h : HardwareManager) (hp : h.isMelodyPlaying = false) :
    MelodyOK h := by
  intro hx
  rw [hp] at hx
  cases hx

theorem stopSound_MelodyOK (h : HardwareManager) : MelodyOK (stopSound h).1 :=
  MelodyOK_of_not_playing _ rfl

theorem setBuzzerEnabled_MelodyOK (h : HardwareManager) (enabled : Bool) (hok : MelodyOK h) :
    MelodyOK (setBuzzerEnabled h enabled).1 := by
  unfold setBuzzerEnabled
  dsimp only
  split
  · exact MelodyOK_of_not_playing _ rfl
  · exact hok

theorem playSimpleTone_MelodyOK (h : HardwareManager) (frequency duration now : Nat)
    (hb : h.buzzerEnabled = true) (hs : h.currentSound ≠ SoundType.SOUND_NONE) :
    MelodyOK (playSimpleTone h frequency duration now).1 := by
  unfold playSimpleTone
  rw [if_neg (by rw [hb]; decide)]
  intro _
  exact ⟨[{ frequency := frequency, duration := duration }], rfl, rfl,
    (by show (1 : Nat) < 256; omega), (by show (0 : Nat) < 1; omega), hs⟩

theorem startMelody_MelodyOK (h : HardwareManager) (melody : List MelodyNote) (now : Nat)
    (hb : h.buzzerEnabled = true) (hs : h.currentSound ≠ SoundType.SOUND_NONE)
    (hpos : 0 < melody.length) (hlt : melody.length < 256) :
    MelodyOK (startMelody h melody melody.length now).1 := by
  unfold startMelody
  rw [if_neg (by rw [hb]; decide)]
  dsimp only
  rw [if_pos hpos]
  intro _
  exact ⟨melody, rfl, rfl, hlt, hpos, hs⟩

theorem playSound_MelodyOK (h : HardwareManager) (type : SoundType) (now : Nat)
    (hok : MelodyOK h) : MelodyOK (playSound h type now).1 := by
  unfold playSound
  by_cases hb : h.buzzerEnabled = false
  · rw [if_pos hb]
    exact hok
  · rw [if_neg hb]
    have hb1 : h.buzzerEnabled = true := by simpa using hb
    split
    · exact hok
    · dsimp only
      cases type with
      | SOUND_MENU_MOVE =>
        exact playSimpleTone_MelodyOK _ _ _ _ hb1
          (by show SoundType.SOUND_MENU_MOVE ≠ SoundType.SOUND_NONE; decide)
      | SOUND_MENU_SELECT =>
        exact playSimpleTone_MelodyOK _ _ _ _ hb1
          (by show SoundType.SOUND_MENU_SELECT ≠ SoundType.SOUND_NONE; decide)
      | SOUND_PLAYER_MOVE =>
        exact playSimpleTone_MelodyOK _ _ _ _ hb1
          (by show SoundType.SOUND_PLAYER_MOVE ≠ SoundType.SOUND_NONE; decide)
      | SOUND_CUP_COLLECT =>
        exact startMelody_MelodyOK _ cupCollectMelody _ hb1
          (by show SoundType.SOUND_CUP_COLLECT ≠ SoundType.SOUND_NONE; decide) (by decide) (by decide)
      | SOUND_PLAYER_DEATH =>
        exact startMelody_MelodyOK _ playerDeathMelody _ hb1
          (by show SoundType.SOUND_PLAYER_DEATH ≠ SoundType.SOUND_NONE; decide) (by decide) (by decide)
      | SOUND_ROOM_CLEAR =>
        exact startMelody_MelodyOK _ roomClearMelody _ hb1
          (by show SoundType.SOUND_ROOM_CLEAR ≠ SoundType.SOUND_NONE; decide) (by decide) (by decide)
      | SOUND_VICTORY =>
        exact startMelody_MelodyOK _ victoryMelody _ hb1
          (by show SoundType.SOUND_VICTORY ≠ SoundType.SOUND_NONE; decide) (by decide) (by decide)
      | SOUND_GAME_OVER =>
        exact startMelody_MelodyOK _ gameOverMelody _ hb1
          (by show SoundType.SOUND_GAME_OVER ≠ SoundType.SOUND_NONE; decide) (by decide) (by decide)
      | SOUND_NONE => exact MelodyOK_of_not_playing _ rfl

theorem updateMelody_MelodyOK (h : HardwareManager) (currentTime noteTime : Nat)
    (hok : MelodyOK h) : MelodyOK (updateMelody h currentTime noteTime).1 := by
  unfold updateMelody
  by_cases hg : h.isMelodyPlaying = false ∨ h.currentMelody = none
  · rw [if_pos hg]
    exact hok
  · rw [if_neg hg]
    have hp : h.isMelodyPlaying = true := by
      by_contra hx
      exact hg (Or.inl (by simpa using hx))
    obtain ⟨mel, h1, h2, h3, h4, h5⟩ := hok hp
    dsimp only
    split
    · split
      · split
        · exact MelodyOK_of_not_playing _ rfl
        · rename_i hnext
          intro _
          have hwrap : (h.currentNoteIndex + 1) % BYTE_RANGE = h.currentNoteIndex + 1 := by
            unfold BYTE_RANGE; omega
          refine ⟨mel, h1, h2, h3, ?_, h5⟩
          show (h.currentNoteIndex + 1) % BYTE_RANGE < h.melodyLength
          have hn : ¬ ((h.currentNoteIndex + 1) % BYTE_RANGE ≥ h.melodyLength) := hnext
          omega
      · exact hok
    · exact hok

theorem applySeqOp_MelodyOK (h : HardwareManager) (op : SeqOp) (hok : MelodyOK h) :
    MelodyOK (applySeqOp h op) := by
  cases op with
  | playSound type now => exact playSound_MelodyOK h type now hok
  | updateMelody t1 t2 => exact updateMelody_MelodyOK h t1 t2 hok
  | stopSound => exact stopSound_MelodyOK h
  | setBuzzerEnabled enabled => exact setBuzzerEnabled_MelodyOK h enabled hok

theorem foldl_applySeqOp_MelodyOK (ops : List SeqOp) (h : HardwareManager) (hok : MelodyOK h) :
    MelodyOK (ops.foldl applySeqOp h) := by
  induction ops generalizing h with
  | nil => exact hok
  | cons op rest ih => exact ih (applySeqOp h op) (applySeqOp_MelodyOK h op hok)

/-- C39: in every sequencer state reachable from construction through
`playSound`, `updateMelody`, `stopSound` and `setBuzzerEnabled`, while
`isMelodyPlaying` is set the melody is present, `currentSound` is not
`SOUND_NONE`, and the cursor is below `melodyLength`, which is the number of
notes of the current melody: the note `updateMelody` reads is one of them, and
so is the next one whenever the cursor moves on without ending the melody. -/
theorem melody_cursor_in_range (h : HardwareManager) (hr : SeqReachable h)
    (hp : h.isMelodyPlaying = true) :
    h.currentMelody ≠ none ∧
    h.currentSound ≠ SoundType.SOUND_NONE ∧
    h.currentNoteIndex < h.melodyLength ∧
    (∃ mel, h.currentMelody = some mel ∧ h.melodyLength = mel.length ∧
      h.currentNoteIndex < mel.length) ∧
    (∀ t1 t2, (updateMelody h t1 t2).1.isMelodyPlaying = true →
      ∃ mel, (updateMelody h t1 t2).1.currentMelody = some mel ∧
        (updateMelody h t1 t2).1.currentNoteIndex < mel.length) := by
  obtain ⟨p1, p2, p3, p4, p5, p6, ops, rfl⟩ := hr
  have hok : MelodyOK (ops.foldl applySeqOp (HardwareManager.init p1 p2 p3 p4 p5 p6)) :=
    foldl_applySeqOp_MelodyOK ops _ (MelodyOK_of_not_playing _ rfl)
  obtain ⟨mel, h1, h2, h3, h4, h5⟩ := hok hp
  refine ⟨by rw [h1]; exact Option.some_ne_none mel, h5, h4, ⟨mel, h1, h2, by omega⟩, ?_⟩
  intro t1 t2 hp2
  obtain ⟨mel2, g1, g2, _, g4, _⟩ := updateMelody_MelodyOK _ t1 t2 hok hp2
  exact ⟨mel2, g1, by omega⟩

/-- C39 on the cup melody started at time 0 on the hardware of the sketch: it
is playing with the cursor on note 0 of 3, and after the update at 130 ms on
note 1. -/
theorem melody_cursor_in_range_witness :
    SeqReachable cupMelodyPlaying ∧
    cupMelodyPlaying.isMelodyPlaying = true ∧
    cupMelodyPlaying.currentMelody ≠ none ∧
    cupMelodyPlaying.currentSound ≠ SoundType.SOUND_NONE ∧
    cupMelodyPlaying.currentNoteIndex < cupMelodyPlaying.melodyLength :=
  ⟨⟨16, 10, 17, 18, 19, 11, [SeqOp.playSound SoundType.SOUND_CUP_COLLECT 0], rfl⟩, by decide,
    (melody_cursor_in_range cupMelodyPlaying
      ⟨16, 10, 17, 18, 19, 11, [SeqOp.playSound SoundType.SOUND_CUP_COLLECT 0], rfl⟩
      (by decide)).1,
    (melody_cursor_in_range cupMelodyPlaying
      ⟨16, 10, 17, 18, 19, 11, [SeqOp.playSound SoundType.SOUND_CUP_COLLECT 0], rfl⟩
      (by decide)).2.1,
    (melody_cursor_in_range cupMelodyPlaying
      ⟨16, 10, 17, 18, 19, 11, [SeqOp.playSound SoundType.SOUND_CUP_COLLECT 0], rfl⟩
      (by decide)).2.2.1⟩

/-! ## C40 -/

theorem advanceToNextRoom_player (m : GameModel) (now later : Nat) (h : PlayOK m)
    (hlt : m.currentRoomIndex < 5) :
    (advanceToNextRoom m now later).player = { column := 0, row := 1, isAlive := true } := by
  have hlt1 : m.currentRoomIndex < TOTAL_ROOMS - 1 := hlt
  unfold advanceToNextRoom
  rw [if_pos hlt1]
  dsimp only
  have h2 : PlayOK { calculateRoomClearBonus m now with
      currentRoomIndex :=
        ((calculateRoomClearBonus m now).currentRoomIndex + 1) % BYTE_RANGE } :=
    ⟨h.1, h.2.1, h.2.2⟩
  have h3 := (resetPlayerToRoomStart_spec _ h2).1
  generalize resetPlayerToRoomStart
    { calculateRoomClearBonus m now with
      currentRoomIndex := ((calculateRoomClearBonus m now).currentRoomIndex + 1) % BYTE_RANGE }
    = x at h3
  exact h3

set_option maxRecDepth 100000 in
/-- C40: in each of the six built-in rooms the start marker is at column 0 of
the bottom row and nowhere else. In every reachable model state the player
enters a room on that cell (through `startNewGame` for room 0 and through
`advanceToNextRoom` for the next room), after which the room holds no marker
any more, and `respawnPlayer` puts the player, alive, on the same cell. -/
theorem respawn_on_entry_cell (m : GameModel) (h : Reachable m) :
    (∀ k : Fin 6, roomCell GameModel.init k.val 0 1 = 'P' ∧
      ∀ c : Fin 16, roomCell GameModel.init k.val c.val 0 ≠ 'P' ∧
        (c.val ≠ 0 → roomCell GameModel.init k.val c.val 1 ≠ 'P')) ∧
    (∀ now, (startNewGame m now).player = { column := 0, row := 1, isAlive := true } ∧
      (startNewGame m now).currentRoomIndex = 0 ∧
      (∀ c ∈ (roomAt (startNewGame m now) 0).bottomRow, c ≠ 'P')) ∧
    (∀ now later, m.currentRoomIndex < 5 →
      (advanceToNextRoom m now later).player = { column := 0, row := 1, isAlive := true } ∧
      (advanceToNextRoom m now later).currentRoomIndex = m.currentRoomIndex + 1) ∧
    (respawnPlayer m).player = { column := 0, row := 1, isAlive := true } ∧
    (respawnPlayer m).currentRoomIndex = m.currentRoomIndex := by
  have hok := h.playOK
  refine ⟨by decide!, ?_, ?_, ?_, ?_⟩
  · intro now
    obtain ⟨s1, s2, s3, s4, _, s6, _⟩ := startNewGame_spec m now hok
    exact ⟨s4, s3, s6⟩
  · intro now later hlt
    exact ⟨advanceToNextRoom_player m now later hok hlt,
      advanceToNextRoom_currentRoomIndex m now later hlt⟩
  · exact (resetPlayerToRoomStart_spec m hok).1
  · exact resetPlayerToRoomStart_currentRoomIndex m

set_option maxRecDepth 100000 in
/-- C40 in room 1: the marker was at column 0 of the bottom row and is erased;
the player, dead in the fire at column 12, is put back on that cell. -/
theorem respawn_on_entry_cell_witness :
    Reachable burntInRoom1 ∧
    burntInRoom1.currentRoomIndex = 1 ∧
    burntInRoom1.player = { column := 12, row := 1, isAlive := false } ∧
    roomCell GameModel.init 1 0 1 = 'P' ∧
    roomCell burntInRoom1 1 0 1 = ' ' ∧
    (respawnPlayer burntInRoom1).player = { column := 0, row := 1, isAlive := true } :=
  ⟨⟨_, rfl⟩, by decide!, by decide!, by decide!, by decide!,
    (respawn_on_entry_cell burntInRoom1 ⟨_, rfl⟩).2.2.2.1⟩

/-! ## C4 -/

set_option maxRecDepth 100000 in
/-- C4, the claim as stated fails: in room 0 of a new game the public call
`addScore(65531)` has put the score at 65531, and the player stands next to the
cup at column 3 of the top row. The step onto the cup succeeds, one cup is
counted, and the 16-bit score becomes 5, which is not 65531 + 10. -/
theorem movePlayer_cup_score_wraps :
    Reachable nextToCupAt65531 ∧
    (movePlayer nextToCupAt65531 (-1) 0).1 = true ∧
    getEntityAt nextToCupAt65531 3 0 = '3' ∧
    nextToCupAt65531.player.column = 4 ∧ nextToCupAt65531.player.row = 0 ∧
    nextToCupAt65531.score = 65531 ∧
    (currentRoom nextToCupAt65531).cupsCollected = 0 ∧
    (currentRoom (movePlayer nextToCupAt65531 (-1) 0).2).cupsCollected = 1 ∧
    (movePlayer nextToCupAt65531 (-1) 0).2.score = 5 ∧
    (movePlayer nextToCupAt65531 (-1) 0).2.score ≠ nextToCupAt65531.score + POINTS_PER_CUP := by
  refine ⟨⟨_, rfl⟩, ?_⟩
  decide!

/-- C4, amended. In every model state reachable through the public operations,
for every successful `movePlayer` whose destination cell holds a cup (`'3'`):
the current room's `cupsCollected` increases by exactly 1; the score becomes
`(score + POINTS_PER_CUP) mod 65536` with `POINTS_PER_CUP = 10`, an increase of
exactly 10 when `score ≤ 65525`; the destination cell becomes `' '`; and after
any further `movePlayer` calls a successful move onto the same cell changes
neither `cupsCollected` nor the score. -/
theorem movePlayer_collects_cup (m : GameModel) (dc dr : Int) (hreach : Reachable m)
    (hok : (movePlayer m dc dr).1 = true)
    (hcup : getEntityAt m ((m.player.column : Int) + dc).toNat
      ((m.player.row : Int) + dr).toNat = '3') :
    (currentRoom (movePlayer m dc dr).2).cupsCollected = (currentRoom m).cupsCollected + 1 ∧
    (movePlayer m dc dr).2.score = (m.score + POINTS_PER_CUP) % 65536 ∧
    POINTS_PER_CUP = 10 ∧
    (m.score ≤ 65525 → (movePlayer m dc dr).2.score = m.score + 10) ∧
    getEntityAt (movePlayer m dc dr).2 ((m.player.column : Int) + dc).toNat
      ((m.player.row : Int) + dr).toNat = ' ' ∧
    ∀ (moves : List (Int × Int)) (dc2 dr2 : Int),
      (movePlayer (movePlayerSeq (movePlayer m dc dr).2 moves) dc2 dr2).1 = true →
      (((movePlayerSeq (movePlayer m dc dr).2 moves).player.column : Int) + dc2).toNat =
        ((m.player.column : Int) + dc).toNat →
      (((movePlayerSeq (movePlayer m dc dr).2 moves).player.row : Int) + dr2).toNat =
        ((m.player.row : Int) + dr).toNat →
      (currentRoom (movePlayer (movePlayerSeq (movePlayer m dc dr).2 moves) dc2 dr2).2).cupsCollected =
          (currentRoom (movePlayerSeq (movePlayer m dc dr).2 moves)).cupsCollected ∧
        (movePlayer (movePlayerSeq (movePlayer m dc dr).2 moves) dc2 dr2).2.score =
          (movePlayerSeq (movePlayer m dc dr).2 moves).score := by
  have hroom := WorldOK_currentRoom m hreach.worldOK
  have hsmall : (currentRoom m).cupsCollected ≤ 32 := by
    unfold RoomOK at hroom
    omega
  obtain ⟨_, _, _, _, _, hres⟩ := movePlayer_true_elim m dc dr hok
  obtain ⟨hs, hc, _, hblank⟩ := moveTo_cup m _ _ hcup
  rw [hres]
  have hs10 : (moveTo m ((m.player.column : Int) + dc).toNat
      ((m.player.row : Int) + dr).toNat).score = (m.score + 10) % 65536 := hs
  have hc1 : (currentRoom (moveTo m ((m.player.column : Int) + dc).toNat
      ((m.player.row : Int) + dr).toNat)).cupsCollected =
      ((currentRoom m).cupsCollected + 1) % 256 := hc
  refine ⟨?_, hs, rfl, ?_, hblank, ?_⟩
  · rw [hc1]; omega
  · intro hle
    rw [hs10]; omega
  · intro moves dc2 dr2 hok2 hcol hrow
    obtain ⟨_, _, _, _, _, hres2⟩ := movePlayer_true_elim _ dc2 dr2 hok2
    have hno : getEntityAt (movePlayerSeq (moveTo m ((m.player.column : Int) + dc).toNat
        ((m.player.row : Int) + dr).toNat) moves) ((m.player.column : Int) + dc).toNat
        ((m.player.row : Int) + dr).toNat ≠ '3' :=
      movePlayerSeq_no_new_cup moves _ _ _ (by rw [hblank]; decide)
    rw [hres2, hcol, hrow]
    obtain ⟨hrooms, hscore⟩ := moveTo_no_cup _ _ _ hno
    refine ⟨?_, hscore⟩
    have hidx := moveTo_currentRoomIndex (movePlayerSeq (moveTo m
      ((m.player.column : Int) + dc).toNat ((m.player.row : Int) + dr).toNat) moves)
      ((m.player.column : Int) + dc).toNat ((m.player.row : Int) + dr).toNat
    unfold currentRoom roomAt
    rw [hrooms, hidx]

set_option maxRecDepth 100000 in
/-- C4, amended, in room 0 of a new game: the player on the top row at column 4
steps left onto the cup at column 3; the score goes from 0 to 10 and
`cupsCollected` from 0 to 1. -/
theorem movePlayer_collects_cup_witness :
    Reachable room0NextToCup ∧
    (movePlayer room0NextToCup (-1) 0).1 = true ∧
    getEntityAt room0NextToCup 3 0 = '3' ∧
    (currentRoom room0NextToCup).cupsCollected = 0 ∧
    room0NextToCup.score = 0 ∧
    (currentRoom (movePlayer room0NextToCup (-1) 0).2).cupsCollected =
      (currentRoom room0NextToCup).cupsCollected + 1 ∧
    (movePlayer room0NextToCup (-1) 0).2.score = room0NextToCup.score + 10 :=
  have hreach : Reachable room0NextToCup :=
    ⟨[Op.startNewGame 0] ++ List.replicate 8 (Op.movePlayer 1 0) ++ [Op.movePlayer 0 (-1)] ++
      List.replicate 4 (Op.movePlayer (-1) 0), by decide!⟩
  ⟨hreach, by decide!, by decide!, by decide!, by decide!,
    (movePlayer_collects_cup room0NextToCup (-1) 0 hreach (by decide!) (by decide!)).1,
    (movePlayer_collects_cup room0NextToCup (-1) 0 hreach (by decide!) (by decide!)).2.2.2.1
      (by decide!)⟩

end Dungeon
